import Mathlib

/-!
# DS248x I2C to 1-Wire bridge driver: embedding of `ds248x.c` / `ds248x.h`

The driver state `ds248x_t` is a record of naturals (every field is a byte or a
bit-field of a byte).  The I2C primitive `halI2C_Queue` is external to the
repository: it is modelled as an arbitrary stream of responses, the n-th
transaction of a run receiving the n-th response, and every transaction is
recorded in a log so that the transmitted bytes and delays can be observed.

`ds248xReset` is re-entered through `ds248xCheckRead -> ds248xLogError` when the
status read back by the reset itself is busy, so the C code has no bound on its
recursion depth.  The embedding bounds the nesting depth of resets by a fuel
argument and returns `none` when it is exhausted.
-/

namespace DS248x

/-! ## Constants of `ds248x.h` -/

/-- Device Reset command. -/
def ds248xCMD_DRST : Nat := 0xF0
/-- Set Read Pointer command. -/
def ds248xCMD_SRP : Nat := 0xE1
/-- Write Config command. -/
def ds248xCMD_WCFG : Nat := 0xD2
/-- Channel Select command (DS2482-800). -/
def ds2482CMD_CHSL : Nat := 0xC3
/-- 1-Wire Reset command. -/
def ds248xCMD_1WRS : Nat := 0xB4
/-- 1-Wire Write Byte command. -/
def ds248xCMD_1WWB : Nat := 0xA5
/-- 1-Wire Read Byte command. -/
def ds248xCMD_1WRB : Nat := 0x96
/-- 1-Wire Single Bit command. -/
def ds248xCMD_1WSB : Nat := 0x87
/-- 1-Wire Triplet command. -/
def ds248xCMD_1WT : Nat := 0x78

/-- STATus register number. -/
def ds248xREG_STAT : Nat := 0
/-- DATA register number. -/
def ds248xREG_DATA : Nat := 1
/-- CHANnel register number (DS2482-800 only). -/
def ds248xREG_CHAN : Nat := 2
/-- CONFiguration register number. -/
def ds248xREG_CONF : Nat := 3
/-- Port Adjust register number (DS2484 only). -/
def ds248xREG_PADJ : Nat := 4

/-- DS2482-800 channel register translation table, `ds248x_V2N[8]` of `ds248x.c`. -/
def ds248x_V2N : List Nat := [0xB8, 0xB1, 0xAA, 0xA3, 0x9C, 0x95, 0x8E, 0x87]

/-! ## C integer arithmetic on promoted bytes -/

/-- Bitwise complement of an `int` (32-bit two's complement pattern). -/
def not32 (x : Nat) : Nat := 2 ^ 32 - 1 - x % 2 ^ 32

/-- Left shift of an `int` (32-bit pattern). -/
def shl32 (x n : Nat) : Nat := (x <<< n) % 2 ^ 32

/-- Conversion to `uint8_t`. -/
def u8 (x : Nat) : Nat := x % 256

/-! ## Data model -/

/-- Modelled from the spec: the device-type tags of `hal_i2c.h`, which is not among the
sources; the spec names the variants Advanced-1ch (DS2484), Multidrop-8ch (DS2482-800),
Legacy-1ch (DS2482-10x) and Undetected. -/
inductive i2cDEV where
  | i2cDEV_UNDEF
  | i2cDEV_DS2482_10X
  | i2cDEV_DS2482_800
  | i2cDEV_DS2484
deriving DecidableEq, Repr

open i2cDEV

/-- Modelled from the spec: the elevated I2C speed tag `i2cSPEED_400` of `hal_i2c.h`. -/
def i2cSPEED_400 : Nat := 400

/-- Modelled from the spec: success code of `x_errors_events.h`. -/
def erSUCCESS : Int := 0

/-- Modelled from the spec: failure code of `x_errors_events.h`. -/
def erFAILURE : Int := -1

/-- The fields of the I2C device-info record `i2c_di_t` that the driver touches
(`Delay`, a timeout read by the external HAL only, is left out; `Type` is a reserved
word, so the field is `Type_`). -/
structure i2c_di_t where
  Type_ : i2cDEV
  DevIdx : Nat
  Speed : Nat
  Test : Nat
deriving DecidableEq, Repr

/-- The bridge record `ds248x_t`: the five shadow registers `RegX[0..4]`
(`Rstat`, `Rdata`, `Rchan`, `Rconf`, `Rpadj`), the 3-bit fields `CurChan` and `Rptr`,
the channel count and the per-channel status history. -/
structure ds248x_t where
  psI2C : i2c_di_t
  Rstat : Nat
  Rdata : Nat
  Rchan : Nat
  Rconf : Nat
  Rpadj : Nat
  CurChan : Nat
  Rptr : Nat
  NumChan : Nat
  PrvStat : List Nat
deriving DecidableEq, Repr

/-- Status bit 0, 1-Wire busy. -/
def ds248x_t.OWB (d : ds248x_t) : Nat := d.Rstat % 2
/-- Status bit 1, presence pulse detected. -/
def ds248x_t.PPD (d : ds248x_t) : Nat := d.Rstat / 2 % 2
/-- Status bit 4, device reset. -/
def ds248x_t.RST (d : ds248x_t) : Nat := d.Rstat / 16 % 2
/-- Status bit 5, single bit result. -/
def ds248x_t.SBR (d : ds248x_t) : Nat := d.Rstat / 32 % 2
/-- Config bit 0, active pull-up. -/
def ds248x_t.APU (d : ds248x_t) : Nat := d.Rconf % 2
/-- Config bit 2, strong pull-up. -/
def ds248x_t.SPU (d : ds248x_t) : Nat := d.Rconf / 4 % 2
/-- Config bit 3, 1-Wire speed. -/
def ds248x_t.OWS (d : ds248x_t) : Nat := d.Rconf / 8 % 2
/-- Port-adjust low nibble, parameter value. -/
def ds248x_t.VAL (d : ds248x_t) : Nat := d.Rpadj % 16

/-- Store into `RegX[i]`; only the five shadow registers are modelled, the bytes
that follow `RegX[4]` in memory are not. -/
def RegX_set (d : ds248x_t) (i b : Nat) : ds248x_t :=
  match i with
  | 0 => { d with Rstat := b }
  | 1 => { d with Rdata := b }
  | 2 => { d with Rchan := b }
  | 3 => { d with Rconf := b }
  | 4 => { d with Rpadj := b }
  | _ => d

/-! ## Transport -/

/-- One write-delay-read transaction handed to the I2C primitive: the bytes
written and the delay in microseconds before the one-byte read. -/
structure I2CTxn where
  tx : List Nat
  dly : Nat
deriving DecidableEq, Repr

/-- Outcome of one I2C transaction: success with the byte read, or failure. -/
inductive I2CResp where
  | ok (b : Nat)
  | fail
deriving DecidableEq, Repr

/-- The bridge record together with the log of the transactions issued so far
(oldest first). -/
structure World where
  dev : ds248x_t
  log : List I2CTxn
deriving DecidableEq, Repr

/-- Modelled from the spec: the blocking I2C transaction primitive of section 6,
`transact(device, buffer, writeLen, readBuf, readLen, delay) -> success|failure`, in
its write-delay-read form with read buffer `&RegX[Rptr]` of length 1.  The
transaction is logged; on success the byte read is stored in the shadow register
under the pointer, on failure nothing is stored. -/
def halI2C_Queue (bus : Nat → I2CResp) (w : World) (tx : List Nat) (dly : Nat) :
    Bool × World :=
  match bus w.log.length with
  | I2CResp.ok b => (true, ⟨RegX_set w.dev w.dev.Rptr (b % 256), w.log ++ [⟨tx, dly⟩]⟩)
  | I2CResp.fail => (false, ⟨w.dev, w.log ++ [⟨tx, dly⟩]⟩)

/-! ## Local utility functions of `ds248x.c`

`ds248xReset` is forward-declared in the C file; here the functions that call it
before its definition take it as the argument `reset`.  The print statements are
not modelled, and neither are the `IF_myASSERT` diagnostics (a macro from outside
the repository, taken as compiled out; the one in the transfer functions would
fire when a transfer starts while the status shadow still has the busy bit set).
The status-history update of the debug block is modelled. -/

/-- Function `ds248xLogError`: log (not modelled), reset the bridge, return 0. -/
def ds248xLogError (reset : World → Option (Nat × World)) (w : World) :
    Option (Nat × World) :=
  match reset w with
  | none => none
  | some (_, w1) => some (0, w1)

/-- Function `ds248xCheckRead`: validate the byte just read against the register
the pointer selects. -/
def ds248xCheckRead (reset : World → Option (Nat × World)) (w : World) (Value : Nat) :
    Option (Nat × World) :=
  if w.dev.Rptr = ds248xREG_STAT then
    let w1 : World :=
      { w with dev := { w.dev with PrvStat := w.dev.PrvStat.set w.dev.CurChan w.dev.Rstat } }
    if w1.dev.OWB ≠ 0 then ds248xLogError reset w1 else some (1, w1)
  else if w.dev.Rptr = ds248xREG_CONF then
    if Value ≠ w.dev.Rconf then ds248xLogError reset w else some (1, w)
  else if w.dev.Rptr = ds248xREG_CHAN ∧ w.dev.Rchan ≠ ds248x_V2N.getD w.dev.CurChan 0 then
    ds248xLogError reset w
  else some (1, w)

/-- Function `ds248xI2C_WriteDelayRead`: one transaction, then `ds248xCheckRead`
with `pTxBuf[1]` when the transaction succeeded, else 0.  For a one-byte buffer
`pTxBuf[1]` lies past the buffer; it is read as 0 here and `ds248xCheckRead` looks at
it only under the CONFiguration pointer, which no one-byte command sets. -/
def ds248xI2C_WriteDelayRead (bus : Nat → I2CResp) (reset : World → Option (Nat × World))
    (w : World) (pTxBuf : List Nat) (uSdly : Nat) : Option (Nat × World) :=
  match halI2C_Queue bus w pTxBuf uSdly with
  | (true, w1) => ds248xCheckRead reset w1 (pTxBuf.getD 1 0)
  | (false, w1) => some (0, w1)

/-- Function `ds248xReset`: device reset, pointer to STATus, shadow registers to
their defaults; returns the RST bit.  The first argument bounds the nesting of
resets. -/
def ds248xReset (bus : Nat → I2CResp) : Nat → World → Option (Nat × World)
  | 0, _ => none
  | fuel + 1, w =>
    let w1 : World := { w with dev := { w.dev with Rptr := ds248xREG_STAT } }
    match ds248xI2C_WriteDelayRead bus (ds248xReset bus fuel) w1 [ds248xCMD_DRST] 0 with
    | none => none
    | some (_, w2) =>
      let d : ds248x_t :=
        { w2.dev with
          Rdata := 0, Rconf := 0, CurChan := 0, Rchan := ds248x_V2N.getD 0 0, Rpadj := 0 }
      some (d.RST, { w2 with dev := d })

/-- Function `ds248xWriteConfig`: write the low nibble of the config shadow with
its complement in the high nibble and check the byte read back. -/
def ds248xWriteConfig (bus : Nat → I2CResp) (fuel : Nat) (w : World) :
    Option (Nat × World) :=
  let config := u8 (w.dev.Rconf &&& 0x0F)
  let cBuf := [ds248xCMD_WCFG, u8 (shl32 (not32 config) 4 ||| config)]
  let w1 : World := { w with dev := { w.dev with Rptr := ds248xREG_CONF } }
  ds248xI2C_WriteDelayRead bus (ds248xReset bus fuel) w1 cBuf 0

/-- Function `ds248xReadRegister`: set the read pointer and read the register,
unless the register does not exist on the detected variant. -/
def ds248xReadRegister (bus : Nat → I2CResp) (fuel : Nat) (w : World) (Reg : Nat) :
    Option (Nat × World) :=
  if (Reg = ds248xREG_CHAN ∧ w.dev.psI2C.Type_ ≠ i2cDEV_DS2482_800) ∨
      (Reg = ds248xREG_PADJ ∧ w.dev.psI2C.Type_ ≠ i2cDEV_DS2484) then
    some (0, w)
  else
    let w1 : World := { w with dev := { w.dev with Rptr := Reg % 8 } }
    let cBuf := [ds248xCMD_SRP, u8 (shl32 (not32 Reg) 4 ||| Reg)]
    ds248xI2C_WriteDelayRead bus (ds248xReset bus fuel) w1 cBuf 0

/-- Function `ds248xBusSelect`: select a channel of a DS2482-800, skipping the
transaction when the channel is already current. -/
def ds248xBusSelect (bus : Nat → I2CResp) (fuel : Nat) (w : World) (Bus : Nat) :
    Option (Nat × World) :=
  if w.dev.psI2C.Type_ = i2cDEV_DS2482_800 ∧ w.dev.CurChan ≠ Bus then
    let cBuf := [ds2482CMD_CHSL, u8 (shl32 (not32 Bus) 4 ||| Bus)]
    let w1 : World := { w with dev := { w.dev with Rptr := ds248xREG_CHAN, CurChan := Bus % 8 } }
    ds248xI2C_WriteDelayRead bus (ds248xReset bus fuel) w1 cBuf 0
  else some (1, w)

/-- The all-zero temporary bridge record of `ds248xIdentify`, linked to the
device-info record. -/
def sDS248X_init (di : i2c_di_t) : ds248x_t :=
  { psI2C := di, Rstat := 0, Rdata := 0, Rchan := 0, Rconf := 0, Rpadj := 0,
    CurChan := 0, Rptr := 0, NumChan := 0, PrvStat := List.replicate 8 0 }

/-- Function `ds248xIdentify`: reset the device and read registers to find the exact
variant.  Takes the device-info record, the global `ds248xCount` and the
transaction log; returns the result code with their final values. -/
def ds248xIdentify (bus : Nat → I2CResp) (fuel : Nat) (di : i2c_di_t) (ds248xCount : Nat)
    (log : List I2CTxn) : Option (Int × i2c_di_t × Nat × List I2CTxn) :=
  let finish (di : i2c_di_t) (count : Nat) (log : List I2CTxn) :
      Option (Int × i2c_di_t × Nat × List I2CTxn) :=
    let di1 : i2c_di_t := { di with Test := 0 }
    let di2 : i2c_di_t := if di1.Type_ ≠ i2cDEV_UNDEF then { di1 with Speed := i2cSPEED_400 } else di1
    some (if di2.Type_ = i2cDEV_UNDEF then erFAILURE else erSUCCESS, di2, count, log)
  let setType (w : World) (t : i2cDEV) : World :=
    { w with dev := { w.dev with psI2C := { w.dev.psI2C with Type_ := t } } }
  let setIdx (w : World) (i : Nat) : World :=
    { w with dev := { w.dev with psI2C := { w.dev.psI2C with DevIdx := i } } }
  let w0 : World := ⟨sDS248X_init { di with Test := 1 }, log⟩
  match ds248xReset bus fuel w0 with
  | none => none
  | some (rst, w1) =>
    if rst = 1 then
      let w2 := setType w1 i2cDEV_DS2484
      match ds248xReadRegister bus fuel w2 ds248xREG_PADJ with
      | none => none
      | some (iRV, w3) =>
        if iRV = 1 ∧ w3.dev.VAL = 0b00000110 then
          finish (setIdx w3 ds248xCount).dev.psI2C (ds248xCount + 1) w3.log
        else
          let w4 := setType w3 i2cDEV_DS2482_800
          match ds248xReadRegister bus fuel w4 ds248xREG_CHAN with
          | none => none
          | some (iRV, w5) =>
            if iRV = 0 then
              let w6 := setType w5 i2cDEV_DS2482_10X
              finish (setIdx w6 ds248xCount).dev.psI2C (ds248xCount + 1) w6.log
            else if w5.dev.Rchan = ds248x_V2N.getD 0 0 then
              finish (setIdx w5 ds248xCount).dev.psI2C (ds248xCount + 1) w5.log
            else
              finish (setType w5 i2cDEV_UNDEF).dev.psI2C ds248xCount w5.log
    else finish w1.dev.psI2C ds248xCount w1.log

/-! ## 1-Wire functions of `ds248x.c` -/

/-- Standard-speed hold time of a 1-Wire reset, microseconds. -/
def owDELAY_RST : Nat := 1148
/-- Overdrive hold time of a 1-Wire reset, microseconds. -/
def owDELAY_RST_OD : Nat := 146

/-- Function `ds248xOWReset`: reset the 1-Wire bus; returns the presence-pulse bit. -/
def ds248xOWReset (bus : Nat → I2CResp) (fuel : Nat) (w : World) : Option (Nat × World) :=
  let cChr := ds248xCMD_1WRS
  let w1 : World := { w with dev := { w.dev with Rptr := ds248xREG_STAT } }
  match ds248xI2C_WriteDelayRead bus (ds248xReset bus fuel) w1 [cChr]
      (if w1.dev.OWS ≠ 0 then owDELAY_RST_OD else owDELAY_RST) with
  | none => none
  | some (_, w2) => some (w2.dev.PPD, w2)

/-- Standard-speed hold time of a 1-Wire read byte, microseconds. -/
def owDELAY_RB : Nat := 560
/-- Standard-speed hold time of a 1-Wire write byte, microseconds. -/
def owDELAY_WB : Nat := 560
/-- Standard-speed hold time of a 1-Wire triplet, microseconds. -/
def owDELAY_ST : Nat := 210
/-- Standard-speed hold time of a 1-Wire single bit, microseconds. -/
def owDELAY_SB : Nat := 70
/-- Overdrive hold time of a 1-Wire read byte, microseconds. -/
def owDELAY_RB_OD : Nat := 88
/-- Overdrive hold time of a 1-Wire write byte, microseconds. -/
def owDELAY_WB_OD : Nat := 88
/-- Overdrive hold time of a 1-Wire triplet, microseconds. -/
def owDELAY_ST_OD : Nat := 33
/-- Overdrive hold time of a 1-Wire single bit, microseconds. -/
def owDELAY_SB_OD : Nat := 11

/-- Standard power level, `owPOWER_STANDARD` of `onewire.h`. -/
def owPOWER_STANDARD : Nat := 0
/-- Strong pull-up power level, `owPOWER_STRONG` of `onewire.h`. -/
def owPOWER_STRONG : Nat := 1

/-- Assignment of `v` to the one-bit bit-field at bit `pos` of the byte `r`. -/
def setBit8 (r pos v : Nat) : Nat := (r &&& (0xFF ^^^ (1 <<< pos))) ||| ((v % 2) <<< pos)

/-- Function `ds248xOWSetSPU`: set the strong pull-up bit and write the configuration;
returns the SPU bit of the shadow. -/
def ds248xOWSetSPU (bus : Nat → I2CResp) (fuel : Nat) (w : World) : Option (Nat × World) :=
  let w1 : World := { w with dev := { w.dev with Rconf := setBit8 w.dev.Rconf 2 1 } }
  match ds248xWriteConfig bus fuel w1 with
  | none => none
  | some (_, w2) => some (w2.dev.SPU, w2)

/-- Function `ds248xOWSpeed`: set the 1-Wire speed bit and write the configuration;
returns the OWS bit of the shadow. -/
def ds248xOWSpeed (bus : Nat → I2CResp) (fuel : Nat) (w : World) (speed : Bool) :
    Option (Nat × World) :=
  let w1 : World := { w with dev := { w.dev with Rconf := setBit8 w.dev.Rconf 3 speed.toNat } }
  match ds248xWriteConfig bus fuel w1 with
  | none => none
  | some (_, w2) => some (w2.dev.OWS, w2)

/-- Function `ds248xOWLevel`: only the standard level is accepted; it clears the strong
pull-up bit and writes the configuration; returns the SPU bit of the shadow. -/
def ds248xOWLevel (bus : Nat → I2CResp) (fuel : Nat) (w : World) (level : Bool) :
    Option (Nat × World) :=
  if level.toNat = owPOWER_STRONG then some (w.dev.SPU, w)
  else
    let w1 : World := { w with dev := { w.dev with Rconf := setBit8 w.dev.Rconf 2 level.toNat } }
    match ds248xWriteConfig bus fuel w1 with
    | none => none
    | some (_, w2) => some (w2.dev.SPU, w2)

/-- Function `ds248xOWTouchBit`: send one bit and return the bit sampled (SBR). -/
def ds248xOWTouchBit (bus : Nat → I2CResp) (fuel : Nat) (w : World) (Bit : Nat) :
    Option (Nat × World) :=
  let cBuf := [ds248xCMD_1WSB, if Bit ≠ 0 then 0x80 else 0x00]
  let w1 : World := { w with dev := { w.dev with Rptr := ds248xREG_STAT } }
  match ds248xI2C_WriteDelayRead bus (ds248xReset bus fuel) w1 cBuf
      (if w1.dev.OWS ≠ 0 then owDELAY_SB_OD else owDELAY_SB) with
  | none => none
  | some (_, w2) => some (w2.dev.SBR, w2)

/-- Function `ds248xOWWriteByte`: send one byte; nothing is returned. -/
def ds248xOWWriteByte (bus : Nat → I2CResp) (fuel : Nat) (w : World) (Byte : Nat) :
    Option World :=
  let cBuf := [ds248xCMD_1WWB, Byte]
  let w1 : World := { w with dev := { w.dev with Rptr := ds248xREG_STAT } }
  match ds248xI2C_WriteDelayRead bus (ds248xReset bus fuel) w1 cBuf
      (if w1.dev.OWS ≠ 0 then owDELAY_WB_OD else owDELAY_WB) with
  | none => none
  | some (_, w2) => some w2

/-- Function `ds248xOWReadByte`: the read-byte command, then a pointer-set to DATA to
fetch the byte; returns the DATA shadow. -/
def ds248xOWReadByte (bus : Nat → I2CResp) (fuel : Nat) (w : World) : Option (Nat × World) :=
  let cBuf := ds248xCMD_1WRB
  let w1 : World := { w with dev := { w.dev with Rptr := ds248xREG_STAT } }
  match ds248xI2C_WriteDelayRead bus (ds248xReset bus fuel) w1 [cBuf]
      (if w1.dev.OWS ≠ 0 then owDELAY_RB_OD else owDELAY_RB) with
  | none => none
  | some (_, w2) =>
    match ds248xReadRegister bus fuel w2 ds248xREG_DATA with
    | none => none
    | some (_, w3) => some (w3.dev.Rdata, w3)

/-- Function `ds248xOWSearchTriplet`: one triplet step of a search; returns the status
byte. -/
def ds248xOWSearchTriplet (bus : Nat → I2CResp) (fuel : Nat) (w : World)
    (search_direction : Nat) : Option (Nat × World) :=
  let cBuf := [ds248xCMD_1WT, if search_direction ≠ 0 then 0x80 else 0x00]
  let w1 : World := { w with dev := { w.dev with Rptr := ds248xREG_STAT } }
  match ds248xI2C_WriteDelayRead bus (ds248xReset bus fuel) w1 cBuf
      (if w1.dev.OWS ≠ 0 then owDELAY_ST_OD else owDELAY_ST) with
  | none => none
  | some (_, w2) => some (w2.dev.Rstat, w2)

/-! ## CRC8 of the link layer (`onewire.h`; its implementation file is not among the sources) -/

/-- One shift of the reflected CRC register: shift right, and xor in the reflected
1-Wire polynomial x^8 + x^5 + x^4 + 1 (0x8C) when the bit shifted out is set. -/
def crc8Shift (crc : Nat) : Nat := if crc % 2 = 1 then (crc / 2) ^^^ 0x8C else crc / 2

/-- Modelled from the spec: `update(runningCrc, byte) -> crc` using the 1-Wire
polynomial, the function `OWCalcCRC8` declared in `onewire.h` whose body is missing: the
byte is xored into the running CRC and the register is shifted eight times. -/
def OWCalcCRC8 (crc8 data : Nat) : Nat := crc8Shift^[8] (u8 (crc8 ^^^ data))

/-- The check byte of a byte run: the running CRC started at 0 and updated with every
byte. -/
def crc8Of (buf : List Nat) : Nat := buf.foldl OWCalcCRC8 0

/-- Modelled from the spec: `verify(buffer) -> bool` that recomputes over all bytes but
the last and compares to it, the function `OWCheckCRC` declared in `onewire.h` whose
body is missing (an empty buffer has no check byte and does not verify). -/
def OWCheckCRC (buf : List Nat) : Bool :=
  match buf.getLast? with
  | none => false
  | some last => crc8Of buf.dropLast == last

/-- The buffer with bit `j` of byte `i` flipped. -/
def flipBit (buf : List Nat) (i j : Nat) : List Nat := buf.set i (buf.getD i 0 ^^^ (1 <<< j))

/-- Inverse of `crc8Shift` on bytes: a set top bit shows that the polynomial was xored in. -/
def crc8Unshift (crc : Nat) : Nat := if 128 ≤ crc then 2 * (crc ^^^ 0x8C) + 1 else 2 * crc

/-! ## DS18x20 client of the link layer (`ds18x20.c`)

The link-layer functions it calls are declared in `onewire.h` but their bodies, the
platform bus-select functions and the header `ds18x20.h` are not among the sources.
The link layer is modelled as a stream of responses, the n-th link operation of a
run receiving the n-th response, with a log of the operations issued. -/

/-- Family code of the DS18B20, `OWFAMILY_28` of `onewire.h`. -/
def OWFAMILY_28 : Nat := 0x28
/-- Family code of the DS18S20, `OWFAMILY_10` of `onewire.h`. -/
def OWFAMILY_10 : Nat := 0x10
/-- Resolution index of 9 bits, `owFAM28_RES9B` of `onewire.h`. -/
def owFAM28_RES9B : Nat := 0

/-- Modelled from the spec: the DS18x20 function command Copy Scratchpad of the missing
`ds18x20.h` (value of the device data sheet). -/
def DS18X20_COPY_SP : Nat := 0x48
/-- Modelled from the spec: the DS18x20 function command Write Scratchpad of the missing
`ds18x20.h`. -/
def DS18X20_WRITE_SP : Nat := 0x4E
/-- Modelled from the spec: the DS18x20 function command Read Power Supply of the
missing `ds18x20.h`. -/
def DS18X20_READ_PSU : Nat := 0xB4
/-- Modelled from the spec: the DS18x20 function command Read Scratchpad of the missing
`ds18x20.h`. -/
def DS18X20_READ_SP : Nat := 0xBE
/-- Modelled from the spec: the scratchpad copy time in milliseconds of the missing
`ds18x20.h`. -/
def ds18x20DELAY_SP_COPY : Nat := 11

/-- Modelled from the spec: error code of the missing `x_errors_events.h`; only its
lying below `erSUCCESS` is used. -/
def erSCRIPT_INV_OPERATION : Int := -2
/-- Modelled from the spec: error code of the missing `x_errors_events.h`. -/
def erSCRIPT_INV_INDEX : Int := -3
/-- Modelled from the spec: error code of the missing `x_errors_events.h`. -/
def erSCRIPT_INV_VALUE : Int := -4
/-- Modelled from the spec: error code of the missing `x_errors_events.h`. -/
def erSCRIPT_INV_MODE : Int := -5

/-- One operation of the 1-Wire link layer, as issued by the DS18x20 client. -/
inductive OWOp where
  | ResetCommand (Command All : Nat)
  | Block (tran_buf : List Nat)
  | Reset
  | ReadBit
  | Level (level : Nat)
  | BusSelect
  | BusRelease
  | TaskDelay (ms : Nat)
deriving DecidableEq, Repr

/-- Outcome of one link operation: the value the call returns and, for a block transfer,
the bytes sampled on the bus. -/
structure OWResp where
  ret : Nat
  rx : List Nat
deriving DecidableEq, Repr

/-- Modelled from the spec: issue-command of the link layer, `OWResetCommand` of
`onewire.h`: bus reset, device addressing (all devices or the selected one) and the
command byte; returns 0 when no device answered. -/
def OWResetCommand (link : Nat → OWResp) (ops : List OWOp) (Command All : Nat) :
    Nat × List OWOp :=
  ((link ops.length).ret, ops ++ [OWOp.ResetCommand Command All])

/-- Modelled from the spec: block-transfer(buffer, length) of the link layer, `OWBlock`
of `onewire.h`: every byte of the buffer is sent and replaced by the byte sampled on the
bus; where the response gives no byte the byte sent is read back. -/
def OWBlock (link : Nat → OWResp) (ops : List OWOp) (tran_buf : List Nat) :
    List Nat × List OWOp :=
  ((List.range tran_buf.length).map
      (fun i => ((link ops.length).rx.getD i (tran_buf.getD i 0)) % 256),
    ops ++ [OWOp.Block tran_buf])

/-- Modelled from the spec: read-bit of the link layer, `OWReadBit` of `onewire.h`. -/
def OWReadBit (link : Nat → OWResp) (ops : List OWOp) : Nat × List OWOp :=
  ((link ops.length).ret % 2, ops ++ [OWOp.ReadBit])

/-- Modelled from the spec: reset-bus of the link layer, `OWReset` of `onewire.h`. -/
def OWReset (link : Nat → OWResp) (ops : List OWOp) : Nat × List OWOp :=
  ((link ops.length).ret, ops ++ [OWOp.Reset])

/-- Modelled from the spec: set-power-level of the link layer, `OWLevel` of `onewire.h`. -/
def OWLevel (link : Nat → OWResp) (ops : List OWOp) (level : Nat) : Nat × List OWOp :=
  ((link ops.length).ret, ops ++ [OWOp.Level level])

/-- Modelled from the spec: select-channel of the link layer, `OWP_BusSelect` of the
platform layer; returns 1 when the bus was selected. -/
def OWP_BusSelect (link : Nat → OWResp) (ops : List OWOp) : Nat × List OWOp :=
  ((link ops.length).ret, ops ++ [OWOp.BusSelect])

/-- Modelled from the spec: release-channel of the link layer, `OWP_BusRelease` of the
platform layer. -/
def OWP_BusRelease (ops : List OWOp) : List OWOp := ops ++ [OWOp.BusRelease]

/-- Modelled from the spec: the timed-delay primitive of section 6, `vTaskDelay`. -/
def vTaskDelay (ops : List OWOp) (ms : Nat) : List OWOp := ops ++ [OWOp.TaskDelay ms]

/-- Modelled from the spec: the fields of the device record `ds18x20_t` (declared in the
missing `ds18x20.h`) that `ds18x20.c` uses: the family byte of the ROM code, the nine
scratchpad bytes `RegX` (Tlsb, Tmsb, Thi, Tlo, Conf, three reserved bytes, CRC), the
resolution index, the power flag (their bit widths are not known, values are kept as
assigned), and the converted temperature, kept here as the integer `u16Adj`
(sixteenths of a degree) that the code divides by 16.0. -/
structure ds18x20_t where
  Family : Nat
  RegX : List Nat
  Res : Nat
  Pwr : Nat
  u16Adj : Nat
deriving DecidableEq, Repr

/-- Value of a byte read as `int8_t`. -/
def toInt8 (b : Nat) : Int := if b % 256 < 128 then (b % 256 : Nat) else (b % 256 : Nat) - 256

/-- Scratchpad byte 0, temperature LSB. -/
def ds18x20_t.Tlsb (d : ds18x20_t) : Nat := d.RegX.getD 0 0
/-- Scratchpad byte 1, temperature MSB. -/
def ds18x20_t.Tmsb (d : ds18x20_t) : Nat := d.RegX.getD 1 0
/-- Scratchpad byte 2, high alarm limit (signed). -/
def ds18x20_t.Thi (d : ds18x20_t) : Int := toInt8 (d.RegX.getD 2 0)
/-- Scratchpad byte 3, low alarm limit (signed). -/
def ds18x20_t.Tlo (d : ds18x20_t) : Int := toInt8 (d.RegX.getD 3 0)
/-- Scratchpad byte 4, configuration byte of family 0x28 (`fam28.Conf`). -/
def ds18x20_t.Conf (d : ds18x20_t) : Nat := d.RegX.getD 4 0

/-- Store a byte-sized value in scratchpad byte `i`. -/
def ds18x20_t.setReg (d : ds18x20_t) (i : Nat) (v : Int) : ds18x20_t :=
  { d with RegX := d.RegX.set i (v % 256).toNat }

/-- Function `ds18x20CheckPower`: read the power status bit. -/
def ds18x20CheckPower (link : Nat → OWResp) (d : ds18x20_t) (ops : List OWOp) :
    Int × ds18x20_t × List OWOp :=
  let (r, ops1) := OWResetCommand link ops DS18X20_READ_PSU 1
  if r = 0 then (0, d, ops1)
  else
    let (bit, ops2) := OWReadBit link ops1
    let d1 : ds18x20_t := { d with Pwr := bit }
    (d1.Pwr, d1, ops2)

/-- Function `ds18x20ReadSP`: read the first `Len` scratchpad bytes; the result of the
CRC check of a full read is not used by the code. -/
def ds18x20ReadSP (link : Nat → OWResp) (d : ds18x20_t) (ops : List OWOp) (Len : Nat) :
    Int × ds18x20_t × List OWOp :=
  let (r, ops1) := OWResetCommand link ops DS18X20_READ_SP 0
  if r = 0 then (0, d, ops1)
  else
    let (rx, ops2) := OWBlock link ops1 (List.replicate Len 0xFF)
    let d1 : ds18x20_t := { d with RegX := rx ++ d.RegX.drop Len }
    if Len = 9 then (1, d1, ops2)
    else (1, d1, (OWReset link ops2).2)

/-- Function `ds18x20WriteSP`: write Thi, Tlo and, for family 0x28, Conf to the
scratchpad. -/
def ds18x20WriteSP (link : Nat → OWResp) (d : ds18x20_t) (ops : List OWOp) :
    Int × ds18x20_t × List OWOp :=
  let (r, ops1) := OWResetCommand link ops DS18X20_WRITE_SP 0
  if r = 0 then (0, d, ops1)
  else
    let n := if d.Family = OWFAMILY_28 then 3 else 2
    let (rx, ops2) := OWBlock link ops1 ((d.RegX.drop 2).take n)
    (1, { d with RegX := d.RegX.take 2 ++ rx ++ d.RegX.drop (2 + n) }, ops2)

/-- Function `ds18x20WriteEE`: copy the scratchpad to the non-volatile memory of the
device. -/
def ds18x20WriteEE (link : Nat → OWResp) (d : ds18x20_t) (ops : List OWOp) :
    Int × ds18x20_t × List OWOp :=
  let (r, ops1) := OWResetCommand link ops DS18X20_COPY_SP 0
  if r = 0 then (0, d, ops1)
  else
    let ops2 := vTaskDelay ops1 ds18x20DELAY_SP_COPY
    (1, d, (OWLevel link ops2 owPOWER_STANDARD).2)

/-- Function `ds18x20ConvertTemperature`: mask the unused low bits for the resolution
and convert. -/
def ds18x20ConvertTemperature (d : ds18x20_t) : Int × ds18x20_t :=
  let u8Mask := [0xF8, 0xFC, 0xFE, 0xFF]
  let u16Adj := ((d.Tmsb <<< 8) ||| (d.Tlsb &&& u8Mask.getD d.Res 0)) % 65536
  (1, { d with u16Adj := u16Adj })

/-- Function `ds18x20Initialize`: read the scratchpad, derive the resolution, read the
power status and convert the temperature. -/
def ds18x20Initialize (link : Nat → OWResp) (d : ds18x20_t) (ops : List OWOp) :
    Int × ds18x20_t × List OWOp :=
  let (r, d1, ops1) := ds18x20ReadSP link d ops 9
  if r ≠ 0 then (0, d1, ops1)
  else
    let d2 : ds18x20_t :=
      { d1 with Res := if d1.Family = OWFAMILY_28 then d1.Conf >>> 5 else owFAM28_RES9B }
    let (p, d3, ops3) := ds18x20CheckPower link d2 ops1
    let d4 : ds18x20_t := { d3 with Pwr := p.toNat }
    ((1 : Int), (ds18x20ConvertTemperature d4).2, ops3)

/-- Function `ds18x20SetResolution`: set the resolution of a family-0x28 device to `Res`
bits (9 to 12) when it differs from the configuration held. -/
def ds18x20SetResolution (link : Nat → OWResp) (d : ds18x20_t) (ops : List OWOp) (Res : Int) :
    Int × ds18x20_t × List OWOp :=
  if d.Family = OWFAMILY_28 ∧ (9 ≤ Res ∧ Res ≤ 12) then
    let u8Res := (((Res - 9).toNat <<< 5) ||| 0x1F) % 256
    if d.Conf ≠ u8Res then
      let d1 := d.setReg 4 Res
      let d2 : ds18x20_t := { d1 with Res := (Res - 9).toNat }
      let (_, d3, ops3) := ds18x20WriteSP link d2 ops
      (1, d3, ops3)
    else (0, d, ops)
  else (erSCRIPT_INV_VALUE, d, ops)

/-- Function `ds18x20SetAlarms`: set the alarm limits when they differ from those held. -/
def ds18x20SetAlarms (link : Nat → OWResp) (d : ds18x20_t) (ops : List OWOp) (Lo Hi : Int) :
    Int × ds18x20_t × List OWOp :=
  if (-128 ≤ Lo ∧ Lo ≤ 127) ∧ (-128 ≤ Hi ∧ Hi ≤ 127) then
    if d.Tlo ≠ Lo ∨ d.Thi ≠ Hi then
      let d1 := (d.setReg 3 Lo).setReg 2 Hi
      let (_, d2, ops2) := ds18x20WriteSP link d1 ops
      (1, d2, ops2)
    else (0, d, ops)
  else (erSCRIPT_INV_VALUE, d, ops)

/-- One pass of the loop body of `ds18x20ConfigMode` for device `Xcur`: select the bus,
set resolution, then alarms, then the write for the persist flag, release the bus.
`none` stands for an index outside the device table. -/
def ds18x20ConfigMode_body (link : Nat → OWResp) (lo hi res : Int) (wr : Nat) (Xcur iRV : Int)
    (psa : List ds18x20_t) (ops : List OWOp) : Option (Int × List ds18x20_t × List OWOp) :=
  if Xcur < 0 then none
  else
    match psa.get? Xcur.toNat with
    | none => none
    | some d =>
      let (sel, ops1) := OWP_BusSelect link ops
      if sel = 1 then
        let (iRV1, d1, ops2) := ds18x20SetResolution link d ops1 res
        if iRV1 ≥ erSUCCESS then
          let (iRV2, d2, ops3) := ds18x20SetAlarms link d1 ops2 lo hi
          if iRV2 ≥ erSUCCESS ∧ wr = 1 then
            let (iRV3, d3, ops4) := ds18x20WriteSP link d2 ops3
            some (iRV3, psa.set Xcur.toNat d3, OWP_BusRelease ops4)
          else some (iRV2, psa.set Xcur.toNat d2, OWP_BusRelease ops3)
        else some (iRV1, psa.set Xcur.toNat d1, OWP_BusRelease ops2)
      else some (iRV, psa, ops1)

/-- The `do ... while (++Xcur < Xmax)` loop of `ds18x20ConfigMode`; the first argument is
the number of passes that remain after the current one, `Xmax - Xcur - 1`. -/
def ds18x20ConfigMode_loop (link : Nat → OWResp) (lo hi res : Int) (wr : Nat) :
    Nat → Int → Int → List ds18x20_t → List OWOp → Option (Int × List ds18x20_t × List OWOp)
  | 0, Xcur, iRV, psa, ops => ds18x20ConfigMode_body link lo hi res wr Xcur iRV psa ops
  | n + 1, Xcur, iRV, psa, ops =>
    match ds18x20ConfigMode_body link lo hi res wr Xcur iRV psa ops with
    | none => none
    | some (iRV1, psa1, ops1) =>
      if iRV1 < erSUCCESS then some (iRV1, psa1, ops1)
      else ds18x20ConfigMode_loop link lo hi res wr n (Xcur + 1) iRV1 psa1 ops1

/-- Function `ds18x20ConfigMode`: apply alarm limits and resolution to one device or to
all.  The rule parameters are taken already decoded: `Xcur` the device index (255 for
all), `Xmax` the device count of the endpoint, `lo`, `hi`, `res` and the persist flag
`wr`; `psaDS18X20` is `none` for the NULL table. -/
def ds18x20ConfigMode (link : Nat → OWResp) (psaDS18X20 : Option (List ds18x20_t))
    (Xcur Xmax lo hi res : Int) (wr : Nat) (ops : List OWOp) :
    Option (Int × Option (List ds18x20_t) × List OWOp) :=
  match psaDS18X20 with
  | none => some (erSCRIPT_INV_OPERATION, none, ops)
  | some psa =>
    if Xcur ≠ 255 ∧ Xcur > Xmax then some (erSCRIPT_INV_INDEX, some psa, ops)
    else
      let Xcur1 := if Xcur = 255 then Xmax else Xcur
      let Xcur2 := if Xcur1 = Xmax then 0 else Xcur1
      let Xmax2 := if Xcur1 = Xmax then Xmax else Xcur1
      if wr = 0 ∨ wr = 1 then
        match ds18x20ConfigMode_loop link lo hi res wr (Xmax2 - Xcur2 - 1).toNat Xcur2 0 psa ops with
        | none => none
        | some (iRV, psa1, ops1) => some (iRV, some psa1, ops1)
      else some (erSCRIPT_INV_MODE, some psa, ops)

/-! ## Specification vocabulary -/

/-- The transaction that carries the Device Reset command. -/
def txnDRST : I2CTxn := ⟨[ds248xCMD_DRST], 0⟩

/-- A response that does not make the status check fail: a failed transaction (no
check is made) or a status byte with the busy bit clear. -/
def I2CResp.notBusy : I2CResp → Bool
  | I2CResp.ok b => b % 2 == 0
  | I2CResp.fail => true

/-- The default state that a device reset leaves in the bridge record. -/
def IsDefault (d : ds248x_t) : Prop :=
  d.Rptr = ds248xREG_STAT ∧ d.Rdata = 0 ∧ d.Rconf = 0 ∧ d.CurChan = 0 ∧
    d.Rchan = 0xB8 ∧ d.Rpadj = 0

instance (d : ds248x_t) : Decidable (IsDefault d) := by
  unfold IsDefault; infer_instance

/-- The byte that carries nibble `c` with its complement in the high nibble. -/
def nibblePair (c : Nat) : Nat := ((c ^^^ 0xF) <<< 4) ||| c

/-- Number of Device Reset commands in a transaction log. -/
def countDRST (l : List I2CTxn) : Nat := l.count txnDRST

/-- The bridge record after a reset that read status `st` and left history `pv`. -/
def resetDev (d : ds248x_t) (st : Nat) (pv : List Nat) : ds248x_t :=
  { d with
    Rstat := st, Rptr := 0, Rdata := 0, Rconf := 0, CurChan := 0, Rchan := 0xB8, Rpadj := 0,
    PrvStat := pv }

/-- The Write Config transaction for config shadow `Rconf`. -/
def txnWCFG (Rconf : Nat) : I2CTxn := ⟨[0xD2, nibblePair (Rconf &&& 0x0F)], 0⟩

/-- The Channel Select transaction for channel `Bus`. -/
def txnCHSL (Bus : Nat) : I2CTxn := ⟨[0xC3, nibblePair Bus], 0⟩

/-- The Set Read Pointer transaction for register `Reg`. -/
def txnSRP (Reg : Nat) : I2CTxn := ⟨[0xE1, nibblePair Reg], 0⟩

/-- No Copy Scratchpad command occurs in a log of link operations. -/
def NoCopySP (ops : List OWOp) : Prop := ∀ a, OWOp.ResetCommand DS18X20_COPY_SP a ∉ ops

/-! ## Concrete inputs used to exercise the theorems -/

/-- A DS2482-800 bridge record in its power-on state. -/
def dev800 : ds248x_t := sDS248X_init ⟨i2cDEV_DS2482_800, 0, 0, 0⟩

/-- A DS2482-100 bridge record in its power-on state. -/
def dev10X : ds248x_t := sDS248X_init ⟨i2cDEV_DS2482_10X, 0, 0, 0⟩

/-- A transport on which every transaction fails. -/
def busDead : Nat → I2CResp := fun _ => I2CResp.fail

/-- A transport that answers every transaction with status RST|LL, not busy. -/
def busIdle : Nat → I2CResp := fun _ => I2CResp.ok 0x18

/-- A DS2482-800 record whose config shadow holds 0x05. -/
def wConf5 : World := ⟨{ dev800 with Rconf := 0x05 }, []⟩

/-- A DS2482-800 record with channel 3 current. -/
def wChan3 : World := ⟨{ dev800 with CurChan := 3 }, []⟩

/-- A transport whose first answer is 0x00 and whose later answers are status RST|LL:
a config or channel readback that matches nothing, followed by a quiet reset. -/
def busMismatch : Nat → I2CResp
  | 0 => I2CResp.ok 0x00
  | _ => I2CResp.ok 0x18

/-- A transport that answers 0x00, then a busy status, then status RST: a readback
mismatch whose forced reset reads back busy once. -/
def busMismatchBusy : Nat → I2CResp
  | 0 => I2CResp.ok 0x00
  | 1 => I2CResp.ok 0x01
  | _ => I2CResp.ok 0x10

/-- A transport whose first answer is a busy status and whose later answers are
status RST|LL. -/
def busBusyOnce : Nat → I2CResp
  | 0 => I2CResp.ok 0x01
  | _ => I2CResp.ok 0x18

/-- A transport that answers every transaction with 0xA5, the encoding of config 0x05. -/
def busEchoA5 : Nat → I2CResp := fun _ => I2CResp.ok 0xA5

/-- A transport that answers every transaction with 0x95, the channel code of channel 5. -/
def busChan5 : Nat → I2CResp := fun _ => I2CResp.ok 0x95

/-- A device-info record as found by the I2C scan, type not yet known. -/
def diNew : i2c_di_t := ⟨i2cDEV_UNDEF, 0, 0, 0⟩

/-- The world of `ds248xIdentify` on `diNew` after its initial reset read status RST|LL. -/
def wIdentReset : World :=
  ⟨resetDev (sDS248X_init { diNew with Test := 1 }) 0x18 [0x18, 0, 0, 0, 0, 0, 0, 0], [txnDRST]⟩

/-- A DS2484: reset status RST|LL, then the port-adjust byte 0x06. -/
def busDS2484 : Nat → I2CResp
  | 0 => I2CResp.ok 0x18
  | _ => I2CResp.ok 0x06

/-- A DS2482-100: reset status RST|LL, then both register probes fail. -/
def busDS2482_10X : Nat → I2CResp
  | 0 => I2CResp.ok 0x18
  | _ => I2CResp.fail

/-- A DS2482-800: reset status RST|LL, the PortAdjust probe fails, the Channel probe
reads the channel-0 code 0xB8. -/
def busDS2482_800 : Nat → I2CResp
  | 0 => I2CResp.ok 0x18
  | 1 => I2CResp.fail
  | _ => I2CResp.ok 0xB8

/-- An unsupported device: reset status RST|LL, the PortAdjust probe fails, the Channel
probe succeeds with code 0x00, later reads give status RST|LL. -/
def busOtherCode : Nat → I2CResp
  | 0 => I2CResp.ok 0x18
  | 1 => I2CResp.fail
  | 2 => I2CResp.ok 0x00
  | _ => I2CResp.ok 0x18

/-- The world after `ds248xBusSelect` of channel 3 on `dev800` with a failed transaction. -/
def wSel3Failed : World := ⟨{ dev800 with Rptr := 2, CurChan := 3 }, [txnCHSL 3]⟩

/-- A transport that answers every transaction with a busy status. -/
def busAlwaysBusy : Nat → I2CResp := fun _ => I2CResp.ok 0x01

/-- A DS2482-800 record whose config shadow has the overdrive-speed bit set (APU|1WS). -/
def wOverdrive : World := ⟨{ dev800 with Rconf := 0x09 }, []⟩

/-- A DS2482-800 record in its configured state: config shadow 0x01 (APU). -/
def wAPU : World := ⟨{ dev800 with Rconf := 0x01 }, []⟩

/-- A transport that answers the first transaction with 0x01 (the configuration byte
APU) and later ones with status RST|LL. -/
def busConfAPU : Nat → I2CResp
  | 0 => I2CResp.ok 0x01
  | _ => I2CResp.ok 0x18

/-- A device-info record that already carries a type and handle 7. -/
def diKnown : i2c_di_t := ⟨i2cDEV_DS2482_800, 7, 0, 0⟩

/-- A device whose reset status is RST|LL and whose port-adjust byte is 0xF6: value
nibble 0110 with PAR = 111 and OD = 1. -/
def busPadjF6 : Nat → I2CResp
  | 0 => I2CResp.ok 0x18
  | _ => I2CResp.ok 0xF6

/-- The first seven bytes of a ROM code (family 0x02, serial 00 00 00 01 B8 1C), whose
check byte is 0xA2. -/
def romBytes : List Nat := [0x02, 0x1C, 0xB8, 0x01, 0x00, 0x00, 0x00]

/-- A link on which every operation succeeds (return value 1) and every byte sent is
read back unchanged. -/
def linkEcho : Nat → OWResp := fun _ => ⟨1, []⟩

/-- A link on which every operation succeeds and a block read returns the power-on
scratchpad of a DS18B20 (85 degrees, limits 75/70, 12-bit configuration 0x7F, CRC 0x1C). -/
def linkScratchpad : Nat → OWResp :=
  fun _ => ⟨1, [0x50, 0x05, 0x4B, 0x46, 0x7F, 0xFF, 0x0C, 0x10, 0x1C]⟩

/-- A link on which no device answers: every operation returns 0. -/
def linkDead : Nat → OWResp := fun _ => ⟨0, []⟩

/-- A DS18B20 record holding the power-on scratchpad: 12-bit configuration 0x7F, alarm
limits 75/70, resolution index 3, externally powered. -/
def dsB20 : ds18x20_t :=
  ⟨OWFAMILY_28, [0x50, 0x05, 0x4B, 0x46, 0x7F, 0xFF, 0x0C, 0x10, 0x1C], 3, 1, 0⟩

/-- The record `dsB20` after `ds18x20SetResolution` with `Res = 10`: the configuration
byte holds 10 and the resolution index is 1. -/
def dsB20_res10 : ds18x20_t :=
  ⟨OWFAMILY_28, [0x50, 0x05, 0x4B, 0x46, 10, 0xFF, 0x0C, 0x10, 0x1C], 1, 1, 0⟩

/-- A DS18B20 record before its first initialisation: scratchpad image, resolution index
and power flag all zero. -/
def dsFresh : ds18x20_t := ⟨OWFAMILY_28, [0, 0, 0, 0, 0, 0, 0, 0, 0], 0, 0, 0⟩

/-- A transport for a plain byte read: status RST|LL (not busy) for the command, then
the data byte 0x55. -/
def busRead55 : Nat → I2CResp
  | 0 => I2CResp.ok 0x18
  | _ => I2CResp.ok 0x55

/-- The world in which the Device Reset forced by the config mismatch on `wConf5` has read
back the busy status 0x01: `ds248xCheckRead` enters the nested `ds248xReset` here. -/
def wResetBusy : World :=
  ⟨{ dev800 with Rstat := 0x01, PrvStat := [0x01, 0, 0, 0, 0, 0, 0, 0] },
    [⟨[0xD2, 0xA5], 0⟩, ⟨[0xF0], 0⟩]⟩

/-! # Theorems -/

/-! ## Basic lemmas -/

theorem enc_eq_nibblePair (c : Nat) (hc : c < 16) :
    u8 (shl32 (not32 c) 4 ||| c) = nibblePair c := by
  unfold u8 shl32 not32 nibblePair
  interval_cases c <;> rfl

theorem and_0F_lt (x : Nat) : x &&& 0x0F < 16 := by
  have h : x &&& 15 ≤ 15 := Nat.and_le_right
  omega

theorem and_0F_eq_mod (x : Nat) : x &&& 0x0F = x % 16 := by
  exact Nat.and_pow_two_sub_one_eq_mod x 4

theorem WDR_fail (bus : Nat → I2CResp) (reset : World → Option (Nat × World)) (w : World)
    (tx : List Nat) (dly : Nat) (h : bus w.log.length = I2CResp.fail) :
    ds248xI2C_WriteDelayRead bus reset w tx dly = some (0, ⟨w.dev, w.log ++ [⟨tx, dly⟩]⟩) := by
  simp [ds248xI2C_WriteDelayRead, halI2C_Queue, h]

theorem WDR_ok (bus : Nat → I2CResp) (reset : World → Option (Nat × World)) (w : World)
    (tx : List Nat) (dly : Nat) (b : Nat) (h : bus w.log.length = I2CResp.ok b) :
    ds248xI2C_WriteDelayRead bus reset w tx dly =
      ds248xCheckRead reset ⟨RegX_set w.dev w.dev.Rptr (b % 256), w.log ++ [⟨tx, dly⟩]⟩
        (tx.getD 1 0) := by
  simp [ds248xI2C_WriteDelayRead, halI2C_Queue, h]

theorem reset_fail_eq (bus : Nat → I2CResp) (fuel : Nat) (w : World)
    (hb : bus w.log.length = I2CResp.fail) :
    ds248xReset bus (fuel + 1) w =
      some ((resetDev w.dev w.dev.Rstat w.dev.PrvStat).RST,
        ⟨resetDev w.dev w.dev.Rstat w.dev.PrvStat, w.log ++ [txnDRST]⟩) := by
  rw [ds248xReset]
  simp only [WDR_fail bus (ds248xReset bus fuel) { w with dev := { w.dev with Rptr := ds248xREG_STAT } } [ds248xCMD_DRST] 0 hb]
  rfl

theorem reset_ok_eq (bus : Nat → I2CResp) (fuel : Nat) (w : World) (b : Nat)
    (hb : bus w.log.length = I2CResp.ok b) (h2 : b % 2 = 0) :
    ds248xReset bus (fuel + 1) w =
      some ((resetDev w.dev (b % 256) (w.dev.PrvStat.set w.dev.CurChan (b % 256))).RST,
        ⟨resetDev w.dev (b % 256) (w.dev.PrvStat.set w.dev.CurChan (b % 256)), w.log ++ [txnDRST]⟩) := by
  have hb2 : b % 256 % 2 = 0 := by omega
  rw [ds248xReset]
  simp only [WDR_ok bus (ds248xReset bus fuel) { w with dev := { w.dev with Rptr := ds248xREG_STAT } } [ds248xCMD_DRST] 0 b hb]
  simp [ds248xCheckRead, RegX_set, ds248xREG_STAT, ds248x_t.OWB, hb2, resetDev, ds248x_V2N, txnDRST]

theorem reset_busy_eq (bus : Nat → I2CResp) (fuel : Nat) (w : World) (b : Nat)
    (hb : bus w.log.length = I2CResp.ok b) (h2 : b % 2 = 1) :
    ds248xReset bus (fuel + 1) w =
      match ds248xReset bus fuel ⟨{ w.dev with Rptr := 0, Rstat := b % 256, PrvStat := w.dev.PrvStat.set w.dev.CurChan (b % 256) }, w.log ++ [txnDRST]⟩ with
      | none => none
      | some (_, w2) =>
        some ((resetDev w2.dev w2.dev.Rstat w2.dev.PrvStat).RST,
          ⟨{resetDev w2.dev w2.dev.Rstat w2.dev.PrvStat with Rptr := w2.dev.Rptr}, w2.log⟩) := by
  have hb2 : b % 256 % 2 = 1 := by omega
  rw [ds248xReset]
  simp only [WDR_ok bus (ds248xReset bus fuel) { w with dev := { w.dev with Rptr := ds248xREG_STAT } } [ds248xCMD_DRST] 0 b hb]
  simp only [ds248xCheckRead, RegX_set, ds248xREG_STAT, ds248x_t.OWB, hb2, ds248xLogError, txnDRST]
  simp
  cases ds248xReset bus fuel _ with
  | none => rfl
  | some p => rfl

theorem reset_post (bus : Nat → I2CResp) (fuel : Nat) :
    ∀ (w : World) (r : Nat) (w' : World), ds248xReset bus fuel w = some (r, w') →
      IsDefault w'.dev ∧ r = w'.dev.RST ∧ w'.dev.psI2C = w.dev.psI2C ∧
      ∃ rest, w'.log = w.log ++ txnDRST :: rest ∧ ∀ t ∈ rest, t = txnDRST := by
  induction fuel with
  | zero => intro w r w' h; simp [ds248xReset] at h
  | succ n ih =>
    intro w r w' h
    cases hb : bus w.log.length with
    | fail =>
      rw [reset_fail_eq bus n w hb] at h
      simp only [Option.some.injEq, Prod.mk.injEq] at h
      obtain ⟨rfl, rfl⟩ := h
      exact ⟨by simp [IsDefault, resetDev, ds248xREG_STAT], rfl, rfl, [], rfl, by simp⟩
    | ok b =>
      rcases Nat.mod_two_eq_zero_or_one b with h2 | h2
      · rw [reset_ok_eq bus n w b hb h2] at h
        simp only [Option.some.injEq, Prod.mk.injEq] at h
        obtain ⟨rfl, rfl⟩ := h
        exact ⟨by simp [IsDefault, resetDev, ds248xREG_STAT], rfl, rfl, [], rfl, by simp⟩
      · rw [reset_busy_eq bus n w b hb h2] at h
        cases hin : ds248xReset bus n ⟨{ w.dev with Rptr := 0, Rstat := b % 256, PrvStat := w.dev.PrvStat.set w.dev.CurChan (b % 256) }, w.log ++ [txnDRST]⟩ with
        | none => rw [hin] at h; simp at h
        | some p =>
          obtain ⟨r2, w2⟩ := p
          rw [hin] at h
          simp only [Option.some.injEq, Prod.mk.injEq] at h
          obtain ⟨rfl, rfl⟩ := h
          obtain ⟨hd, -, hp, rest, hl, hall⟩ := ih _ _ _ hin
          refine ⟨?_, rfl, ?_, txnDRST :: rest, ?_, ?_⟩
          · simp [IsDefault, resetDev, ds248xREG_STAT]; exact hd.1
          · simpa [resetDev] using hp
          · simpa using hl
          · intro t ht
            rcases List.mem_cons.mp ht with h1 | h1
            · exact h1
            · exact hall t h1

theorem nibblePair_lo (c : Nat) (hc : c < 16) : nibblePair c % 16 = c ∧ nibblePair c / 16 = 15 - c := by
  unfold nibblePair
  interval_cases c <;> exact ⟨rfl, rfl⟩

theorem reset_quiet (bus : Nat → I2CResp) (fuel : Nat) (w : World)
    (h : (bus w.log.length).notBusy = true) :
    ∃ r w', ds248xReset bus (fuel + 1) w = some (r, w') ∧ IsDefault w'.dev ∧
      r = w'.dev.RST ∧ w'.log = w.log ++ [txnDRST] ∧ w'.dev.psI2C = w.dev.psI2C := by
  cases hb : bus w.log.length with
  | fail =>
    exact ⟨_, _, reset_fail_eq bus fuel w hb, by simp [IsDefault, resetDev, ds248xREG_STAT],
      rfl, rfl, rfl⟩
  | ok b =>
    have h2 : b % 2 = 0 := by simpa [hb, I2CResp.notBusy] using h
    exact ⟨_, _, reset_ok_eq bus fuel w b hb h2, by simp [IsDefault, resetDev, ds248xREG_STAT],
      rfl, rfl, rfl⟩

theorem logError_quiet (bus : Nat → I2CResp) (fuel : Nat) (w : World)
    (h : (bus w.log.length).notBusy = true) :
    ∃ w', ds248xLogError (ds248xReset bus (fuel + 1)) w = some (0, w') ∧ IsDefault w'.dev ∧
      w'.log = w.log ++ [txnDRST] ∧ w'.dev.psI2C = w.dev.psI2C := by
  obtain ⟨r, w', he, hd, -, hl, hp⟩ := reset_quiet bus fuel w h
  exact ⟨w', by simp [ds248xLogError, he], hd, hl, hp⟩

theorem logError_post (bus : Nat → I2CResp) (fuel : Nat) (w : World) (r : Nat) (w' : World)
    (h : ds248xLogError (ds248xReset bus fuel) w = some (r, w')) :
    r = 0 ∧ IsDefault w'.dev ∧ w'.dev.psI2C = w.dev.psI2C ∧
      ∃ rest, w'.log = w.log ++ txnDRST :: rest ∧ ∀ t ∈ rest, t = txnDRST := by
  unfold ds248xLogError at h
  cases hin : ds248xReset bus fuel w with
  | none => rw [hin] at h; simp at h
  | some p =>
    obtain ⟨r2, w2⟩ := p
    rw [hin] at h
    simp only [Option.some.injEq, Prod.mk.injEq] at h
    obtain ⟨rfl, rfl⟩ := h
    obtain ⟨hd, -, hp, hrest⟩ := reset_post bus fuel _ _ _ hin
    exact ⟨rfl, hd, hp, hrest⟩

theorem writeConfig_tx (w : World) :
    [ds248xCMD_WCFG, u8 (shl32 (not32 (u8 (w.dev.Rconf &&& 0x0F))) 4 ||| u8 (w.dev.Rconf &&& 0x0F))]
      = [0xD2, nibblePair (w.dev.Rconf &&& 0x0F)] := by
  have h := and_0F_lt w.dev.Rconf
  have h2 : u8 (w.dev.Rconf &&& 0x0F) = w.dev.Rconf &&& 0x0F := by unfold u8; omega
  rw [h2, enc_eq_nibblePair _ h]; rfl

theorem writeConfig_fail (bus : Nat → I2CResp) (fuel : Nat) (w : World)
    (hb : bus w.log.length = I2CResp.fail) :
    ds248xWriteConfig bus fuel w =
      some (0, ⟨{ w.dev with Rptr := 3 }, w.log ++ [txnWCFG w.dev.Rconf]⟩) := by
  unfold ds248xWriteConfig
  simp only [writeConfig_tx]
  exact WDR_fail bus _ { w with dev := { w.dev with Rptr := ds248xREG_CONF } } _ 0 hb

theorem writeConfig_ok (bus : Nat → I2CResp) (fuel : Nat) (w : World) (b : Nat)
    (hb : bus w.log.length = I2CResp.ok b) :
    ds248xWriteConfig bus fuel w =
      if nibblePair (w.dev.Rconf &&& 0x0F) ≠ b % 256 then
        ds248xLogError (ds248xReset bus fuel)
          ⟨{ w.dev with Rptr := 3, Rconf := b % 256 }, w.log ++ [txnWCFG w.dev.Rconf]⟩
      else some (1, ⟨{ w.dev with Rptr := 3, Rconf := b % 256 }, w.log ++ [txnWCFG w.dev.Rconf]⟩) := by
  unfold ds248xWriteConfig
  simp only [writeConfig_tx]
  rw [WDR_ok bus _ { w with dev := { w.dev with Rptr := ds248xREG_CONF } } _ 0 b hb]
  simp [ds248xCheckRead, RegX_set, ds248xREG_CONF, ds248xREG_STAT, txnWCFG]




theorem busSelect_noop (bus : Nat → I2CResp) (fuel : Nat) (w : World) (Bus : Nat)
    (h : w.dev.psI2C.Type_ ≠ i2cDEV_DS2482_800 ∨ w.dev.CurChan = Bus) :
    ds248xBusSelect bus fuel w Bus = some (1, w) := by
  unfold ds248xBusSelect
  rw [if_neg]
  rintro ⟨h1, h2⟩
  rcases h with h | h
  · exact h h1
  · exact h2 h

theorem busSelect_tx (Bus : Nat) (hB : Bus < 8) :
    [ds2482CMD_CHSL, u8 (shl32 (not32 Bus) 4 ||| Bus)] = [0xC3, nibblePair Bus] := by
  rw [enc_eq_nibblePair _ (by omega)]; rfl

theorem busSelect_fail (bus : Nat → I2CResp) (fuel : Nat) (w : World) (Bus : Nat)
    (hB : Bus < 8) (ht : w.dev.psI2C.Type_ = i2cDEV_DS2482_800) (hc : w.dev.CurChan ≠ Bus)
    (hb : bus w.log.length = I2CResp.fail) :
    ds248xBusSelect bus fuel w Bus =
      some (0, ⟨{ w.dev with Rptr := 2, CurChan := Bus }, w.log ++ [txnCHSL Bus]⟩) := by
  unfold ds248xBusSelect
  rw [if_pos ⟨ht, hc⟩]
  simp only [busSelect_tx Bus hB, Nat.mod_eq_of_lt hB]
  exact WDR_fail bus _ ⟨{ w.dev with Rptr := ds248xREG_CHAN, CurChan := Bus }, w.log⟩ _ 0 hb

theorem busSelect_ok (bus : Nat → I2CResp) (fuel : Nat) (w : World) (Bus b : Nat)
    (hB : Bus < 8) (ht : w.dev.psI2C.Type_ = i2cDEV_DS2482_800) (hc : w.dev.CurChan ≠ Bus)
    (hb : bus w.log.length = I2CResp.ok b) :
    ds248xBusSelect bus fuel w Bus =
      if b % 256 ≠ ds248x_V2N.getD Bus 0 then
        ds248xLogError (ds248xReset bus fuel)
          ⟨{ w.dev with Rptr := 2, CurChan := Bus, Rchan := b % 256 }, w.log ++ [txnCHSL Bus]⟩
      else
        some (1, ⟨{ w.dev with Rptr := 2, CurChan := Bus, Rchan := b % 256 },
          w.log ++ [txnCHSL Bus]⟩) := by
  unfold ds248xBusSelect
  rw [if_pos ⟨ht, hc⟩]
  simp only [busSelect_tx Bus hB, Nat.mod_eq_of_lt hB]
  rw [WDR_ok bus _ ⟨{ w.dev with Rptr := ds248xREG_CHAN, CurChan := Bus }, w.log⟩ _ 0 b hb]
  simp [ds248xCheckRead, RegX_set, ds248xREG_CHAN, ds248xREG_CONF, ds248xREG_STAT, txnCHSL]

theorem readRegister_reject (bus : Nat → I2CResp) (fuel : Nat) (w : World) (Reg : Nat)
    (h : (Reg = ds248xREG_CHAN ∧ w.dev.psI2C.Type_ ≠ i2cDEV_DS2482_800) ∨
      (Reg = ds248xREG_PADJ ∧ w.dev.psI2C.Type_ ≠ i2cDEV_DS2484)) :
    ds248xReadRegister bus fuel w Reg = some (0, w) := by
  unfold ds248xReadRegister
  rw [if_pos h]

theorem readRegister_PADJ_fail (bus : Nat → I2CResp) (fuel : Nat) (w : World)
    (ht : w.dev.psI2C.Type_ = i2cDEV_DS2484) (hb : bus w.log.length = I2CResp.fail) :
    ds248xReadRegister bus fuel w ds248xREG_PADJ =
      some (0, ⟨{ w.dev with Rptr := 4 }, w.log ++ [txnSRP 4]⟩) := by
  unfold ds248xReadRegister
  rw [if_neg (by simp [ht, ds248xREG_PADJ, ds248xREG_CHAN])]
  exact WDR_fail bus _ ⟨{ w.dev with Rptr := 4 }, w.log⟩ _ 0 hb

theorem readRegister_PADJ_ok (bus : Nat → I2CResp) (fuel : Nat) (w : World) (b : Nat)
    (ht : w.dev.psI2C.Type_ = i2cDEV_DS2484) (hb : bus w.log.length = I2CResp.ok b) :
    ds248xReadRegister bus fuel w ds248xREG_PADJ =
      some (1, ⟨{ w.dev with Rptr := 4, Rpadj := b % 256 }, w.log ++ [txnSRP 4]⟩) := by
  unfold ds248xReadRegister
  rw [if_neg (by simp [ht, ds248xREG_PADJ, ds248xREG_CHAN])]
  have := WDR_ok bus (ds248xReset bus fuel) ⟨{ w.dev with Rptr := 4 }, w.log⟩ [ds248xCMD_SRP, u8 (shl32 (not32 4) 4 ||| 4)] 0 b hb
  simp only [ds248xREG_PADJ]
  rw [show (4 % 8 : Nat) = 4 from rfl, this]
  simp [ds248xCheckRead, RegX_set, ds248xREG_CHAN, ds248xREG_CONF, ds248xREG_STAT]
  rfl

theorem readRegister_CHAN_fail (bus : Nat → I2CResp) (fuel : Nat) (w : World)
    (ht : w.dev.psI2C.Type_ = i2cDEV_DS2482_800) (hb : bus w.log.length = I2CResp.fail) :
    ds248xReadRegister bus fuel w ds248xREG_CHAN =
      some (0, ⟨{ w.dev with Rptr := 2 }, w.log ++ [txnSRP 2]⟩) := by
  unfold ds248xReadRegister
  rw [if_neg (by simp [ht, ds248xREG_PADJ, ds248xREG_CHAN])]
  exact WDR_fail bus _ ⟨{ w.dev with Rptr := 2 }, w.log⟩ _ 0 hb

theorem readRegister_CHAN_ok (bus : Nat → I2CResp) (fuel : Nat) (w : World) (b : Nat)
    (ht : w.dev.psI2C.Type_ = i2cDEV_DS2482_800) (hb : bus w.log.length = I2CResp.ok b) :
    ds248xReadRegister bus fuel w ds248xREG_CHAN =
      if b % 256 ≠ ds248x_V2N.getD w.dev.CurChan 0 then
        ds248xLogError (ds248xReset bus fuel)
          ⟨{ w.dev with Rptr := 2, Rchan := b % 256 }, w.log ++ [txnSRP 2]⟩
      else some (1, ⟨{ w.dev with Rptr := 2, Rchan := b % 256 }, w.log ++ [txnSRP 2]⟩) := by
  unfold ds248xReadRegister
  rw [if_neg (by simp [ht, ds248xREG_PADJ, ds248xREG_CHAN])]
  have := WDR_ok bus (ds248xReset bus fuel) ⟨{ w.dev with Rptr := 2 }, w.log⟩ [ds248xCMD_SRP, u8 (shl32 (not32 2) 4 ||| 2)] 0 b hb
  simp only [ds248xREG_CHAN]
  rw [show (2 % 8 : Nat) = 2 from rfl, this]
  simp [ds248xCheckRead, RegX_set, ds248xREG_CHAN, ds248xREG_CONF, ds248xREG_STAT]
  rfl

theorem writeConfig_returns (bus : Nat → I2CResp) (fuel : Nat) (w : World)
    (h : ∀ b, bus w.log.length = I2CResp.ok b → b % 256 ≠ nibblePair (w.dev.Rconf &&& 0x0F) →
      (bus (w.log.length + 1)).notBusy = true) :
    ∃ r w', ds248xWriteConfig bus (fuel + 1) w = some (r, w') := by
  cases hb : bus w.log.length with
  | fail => exact ⟨_, _, writeConfig_fail bus _ w hb⟩
  | ok b =>
    rw [writeConfig_ok bus _ w b hb]
    by_cases hm : nibblePair (w.dev.Rconf &&& 0x0F) ≠ b % 256
    · rw [if_pos hm]
      obtain ⟨w', he, -⟩ := logError_quiet bus fuel
        ⟨{ w.dev with Rptr := 3, Rconf := b % 256 }, w.log ++ [txnWCFG w.dev.Rconf]⟩
        (by simpa using h b hb (Ne.symm hm))
      exact ⟨_, _, he⟩
    · rw [if_neg hm]; exact ⟨_, _, rfl⟩

theorem writeConfig_log (bus : Nat → I2CResp) (fuel : Nat) (w : World) (r : Nat) (w' : World)
    (h : ds248xWriteConfig bus fuel w = some (r, w')) :
    ∃ rest, w'.log = w.log ++ txnWCFG w.dev.Rconf :: rest ∧ ∀ t ∈ rest, t = txnDRST := by
  cases hb : bus w.log.length with
  | fail =>
    rw [writeConfig_fail bus _ w hb] at h
    simp only [Option.some.injEq, Prod.mk.injEq] at h
    obtain ⟨-, rfl⟩ := h
    exact ⟨[], rfl, by simp⟩
  | ok b =>
    rw [writeConfig_ok bus _ w b hb] at h
    by_cases hm : nibblePair (w.dev.Rconf &&& 0x0F) ≠ b % 256
    · rw [if_pos hm] at h
      obtain ⟨-, -, -, rest, hl, hall⟩ := logError_post bus fuel _ _ _ h
      refine ⟨txnDRST :: rest, by simpa using hl, ?_⟩
      intro t ht
      rcases List.mem_cons.mp ht with h1 | h1
      · exact h1
      · exact hall t h1
    · rw [if_neg hm] at h
      simp only [Option.some.injEq, Prod.mk.injEq] at h
      obtain ⟨-, rfl⟩ := h
      exact ⟨[], rfl, by simp⟩

/-- C1: for every value of the config shadow, `ds248xWriteConfig` transmits exactly the
two bytes 0xD2 and B, the low nibble of B being `Rconf & 0x0F` and the high nibble its
4-bit complement; config value 0x05 is transmitted as 0xA5.  The Write Config
transaction is the first one issued (any later ones are Device Resets), and the call
returns whenever a forced reset does not read back a busy status. -/
theorem C1_writeConfig_transmits (bus : Nat → I2CResp) (fuel : Nat) (w : World) :
    (nibblePair (w.dev.Rconf &&& 0x0F) % 16 = w.dev.Rconf &&& 0x0F ∧
      nibblePair (w.dev.Rconf &&& 0x0F) / 16 = 15 - (w.dev.Rconf &&& 0x0F)) ∧
    (w.dev.Rconf = 0x05 → nibblePair (w.dev.Rconf &&& 0x0F) = 0xA5) ∧
    (∀ r w', ds248xWriteConfig bus fuel w = some (r, w') →
      ∃ rest, w'.log = w.log ++ ⟨[0xD2, nibblePair (w.dev.Rconf &&& 0x0F)], 0⟩ :: rest ∧
        ∀ t ∈ rest, t = txnDRST) ∧
    ((∀ b, bus w.log.length = I2CResp.ok b → b % 256 ≠ nibblePair (w.dev.Rconf &&& 0x0F) →
        (bus (w.log.length + 1)).notBusy = true) →
      ∃ r w', ds248xWriteConfig bus (fuel + 1) w = some (r, w')) := by
  refine ⟨nibblePair_lo _ (and_0F_lt _), ?_, ?_, writeConfig_returns bus fuel w⟩
  · intro h; rw [h]; rfl
  · intro r w' h
    exact writeConfig_log bus fuel w r w' h

theorem C1_writeConfig_transmits_witness :
    nibblePair (wConf5.dev.Rconf &&& 0x0F) = 0xA5 ∧
      ∃ r w', ds248xWriteConfig busIdle 1 wConf5 = some (r, w') :=
  ⟨(C1_writeConfig_transmits busIdle 0 wConf5).2.1 rfl,
    (C1_writeConfig_transmits busIdle 0 wConf5).2.2.2 (fun _ _ _ => rfl)⟩

/-- C2: `ds248xBusSelect` performs no I2C transaction, returns 1 and leaves the whole
bridge record (register pointer, the five shadow registers, current channel) unchanged
when `Bus` is the current channel of a DS2482-800, and for every `Bus` on a device
that is not a DS2482-800. -/
theorem C2_busSelect_idempotent (bus : Nat → I2CResp) (fuel : Nat) (w : World) (Bus : Nat)
    (h : w.dev.psI2C.Type_ ≠ i2cDEV_DS2482_800 ∨ w.dev.CurChan = Bus) :
    ds248xBusSelect bus fuel w Bus = some (1, w) :=
  busSelect_noop bus fuel w Bus h

theorem C2_busSelect_idempotent_witness :
    wChan3.dev.psI2C.Type_ = i2cDEV_DS2482_800 ∧ wChan3.dev.CurChan = 3 ∧
      ds248xBusSelect busDead 0 wChan3 3 = some (1, wChan3) :=
  ⟨rfl, rfl, C2_busSelect_idempotent busDead 0 wChan3 3 (Or.inr rfl)⟩

/-- C10: `ds248xReadRegister` rejects the Channel register on a device that is not a
DS2482-800 and the PortAdjust register on a device that is not a DS2484: it returns 0,
issues no I2C transaction and leaves the whole bridge record unchanged. -/
theorem C10_readRegister_rejects (bus : Nat → I2CResp) (fuel : Nat) (w : World) (Reg : Nat)
    (h : (Reg = ds248xREG_CHAN ∧ w.dev.psI2C.Type_ ≠ i2cDEV_DS2482_800) ∨
      (Reg = ds248xREG_PADJ ∧ w.dev.psI2C.Type_ ≠ i2cDEV_DS2484)) :
    ds248xReadRegister bus fuel w Reg = some (0, w) :=
  readRegister_reject bus fuel w Reg h

theorem C10_readRegister_rejects_witness :
    wChan3.dev.psI2C.Type_ ≠ i2cDEV_DS2484 ∧
      ds248xReadRegister busIdle 0 wChan3 ds248xREG_PADJ = some (0, wChan3) :=
  ⟨by decide,
    C10_readRegister_rejects busIdle 0 wChan3 ds248xREG_PADJ (Or.inr ⟨rfl, by decide⟩)⟩

theorem writeConfig_mismatch_quiet (bus : Nat → I2CResp) (fuel : Nat) (w : World) (b : Nat)
    (hb : bus w.log.length = I2CResp.ok b)
    (hm : b % 256 ≠ nibblePair (w.dev.Rconf &&& 0x0F))
    (hq : (bus (w.log.length + 1)).notBusy = true) :
    ∃ w', ds248xWriteConfig bus (fuel + 1) w = some (0, w') ∧ IsDefault w'.dev ∧
      w'.log = w.log ++ [txnWCFG w.dev.Rconf, txnDRST] := by
  rw [writeConfig_ok bus _ w b hb, if_pos (Ne.symm hm)]
  obtain ⟨w', he, hd, hl, -⟩ := logError_quiet bus fuel
    ⟨{ w.dev with Rptr := 3, Rconf := b % 256 }, w.log ++ [txnWCFG w.dev.Rconf]⟩
    (by simpa using hq)
  exact ⟨w', he, hd, by simpa using hl⟩

theorem busSelect_mismatch_quiet (bus : Nat → I2CResp) (fuel : Nat) (w : World) (Bus b : Nat)
    (hB : Bus < 8) (ht : w.dev.psI2C.Type_ = i2cDEV_DS2482_800) (hc : w.dev.CurChan ≠ Bus)
    (hb : bus w.log.length = I2CResp.ok b) (hm : b % 256 ≠ ds248x_V2N.getD Bus 0)
    (hq : (bus (w.log.length + 1)).notBusy = true) :
    ∃ w', ds248xBusSelect bus (fuel + 1) w Bus = some (0, w') ∧ IsDefault w'.dev ∧
      w'.log = w.log ++ [txnCHSL Bus, txnDRST] := by
  rw [busSelect_ok bus _ w Bus b hB ht hc hb, if_pos hm]
  obtain ⟨w', he, hd, hl, -⟩ := logError_quiet bus fuel
    ⟨{ w.dev with Rptr := 2, CurChan := Bus, Rchan := b % 256 }, w.log ++ [txnCHSL Bus]⟩
    (by simpa using hq)
  exact ⟨w', he, hd, by simpa using hl⟩

/-- C5: `ds248xReset` leaves the bridge in the default state (pointer = Status, Rdata = 0,
Rconf = 0, current channel = 0, Rchan = 0xB8, Rpadj = 0) and returns bit 4 (RST) of the
status shadow, both when its transaction fails and when it reads back a non-busy
status; the same state results when the reset is forced by a config-write mismatch in
`ds248xWriteConfig` or a channel-select mismatch in `ds248xBusSelect`; and every reset
that returns at all returns in that state. -/
theorem C5_reset_default_state (bus : Nat → I2CResp) (fuel : Nat) :
    (∀ w : World, (bus w.log.length).notBusy = true →
      ∃ r w', ds248xReset bus (fuel + 1) w = some (r, w') ∧ IsDefault w'.dev ∧
        r = w'.dev.Rstat / 16 % 2) ∧
    (∀ (w : World) (b : Nat), bus w.log.length = I2CResp.ok b →
      b % 256 ≠ nibblePair (w.dev.Rconf &&& 0x0F) → (bus (w.log.length + 1)).notBusy = true →
      ∃ w', ds248xWriteConfig bus (fuel + 1) w = some (0, w') ∧ IsDefault w'.dev) ∧
    (∀ (w : World) (Bus b : Nat), Bus < 8 → w.dev.psI2C.Type_ = i2cDEV_DS2482_800 →
      w.dev.CurChan ≠ Bus → bus w.log.length = I2CResp.ok b →
      b % 256 ≠ ds248x_V2N.getD Bus 0 → (bus (w.log.length + 1)).notBusy = true →
      ∃ w', ds248xBusSelect bus (fuel + 1) w Bus = some (0, w') ∧ IsDefault w'.dev) ∧
    (∀ (w : World) (r : Nat) (w' : World), ds248xReset bus fuel w = some (r, w') →
      IsDefault w'.dev ∧ r = w'.dev.Rstat / 16 % 2) := by
  refine ⟨?_, ?_, ?_, ?_⟩
  · intro w hq
    obtain ⟨r, w', he, hd, hr, -⟩ := reset_quiet bus fuel w hq
    exact ⟨r, w', he, hd, hr⟩
  · intro w b hb hm hq
    obtain ⟨w', he, hd, -⟩ := writeConfig_mismatch_quiet bus fuel w b hb hm hq
    exact ⟨w', he, hd⟩
  · intro w Bus b hB ht hc hb hm hq
    obtain ⟨w', he, hd, -⟩ := busSelect_mismatch_quiet bus fuel w Bus b hB ht hc hb hm hq
    exact ⟨w', he, hd⟩
  · intro w r w' h
    obtain ⟨hd, hr, -⟩ := reset_post bus fuel w r w' h
    exact ⟨hd, hr⟩

theorem C5_reset_default_state_witness :
    ((busDead wConf5.log.length).notBusy = true ∧
      ∃ r w', ds248xReset busDead 1 wConf5 = some (r, w') ∧ IsDefault w'.dev ∧
        r = w'.dev.Rstat / 16 % 2) ∧
    ((busMismatch wConf5.log.length = I2CResp.ok 0x00 ∧
        0x00 % 256 ≠ nibblePair (wConf5.dev.Rconf &&& 0x0F) ∧
        (busMismatch (wConf5.log.length + 1)).notBusy = true) ∧
      ∃ w', ds248xWriteConfig busMismatch 1 wConf5 = some (0, w') ∧ IsDefault w'.dev) ∧
    ∃ w', ds248xBusSelect busMismatch 1 wChan3 5 = some (0, w') ∧ IsDefault w'.dev :=
  ⟨⟨rfl, (C5_reset_default_state busDead 0).1 wConf5 rfl⟩,
    ⟨⟨rfl, by decide, rfl⟩,
      (C5_reset_default_state busMismatch 0).2.1 wConf5 0x00 rfl (by decide) rfl⟩,
    (C5_reset_default_state busMismatch 0).2.2.1 wChan3 5 0x00 (by decide) rfl (by decide) rfl
      (by decide) rfl⟩

theorem writeConfig_one_iff (bus : Nat → I2CResp) (fuel : Nat) (w : World) :
    (∃ w', ds248xWriteConfig bus fuel w = some (1, w')) ↔
      ∃ b, bus w.log.length = I2CResp.ok b ∧ b % 256 = nibblePair (w.dev.Rconf &&& 0x0F) := by
  cases hb : bus w.log.length with
  | fail => simp [writeConfig_fail bus fuel w hb]
  | ok b =>
    rw [writeConfig_ok bus fuel w b hb]
    by_cases hm : nibblePair (w.dev.Rconf &&& 0x0F) ≠ b % 256
    · rw [if_pos hm]
      constructor
      · rintro ⟨w', h⟩
        have := (logError_post bus fuel _ _ _ h).1
        omega
      · rintro ⟨b', hb', hm'⟩
        cases hb'
        exact absurd hm'.symm hm
    · rw [if_neg hm]
      push_neg at hm
      exact ⟨fun _ => ⟨b, rfl, hm.symm⟩, fun _ => ⟨_, rfl⟩⟩

theorem writeConfig_one_state (bus : Nat → I2CResp) (fuel : Nat) (w w' : World)
    (h : ds248xWriteConfig bus fuel w = some (1, w')) :
    w'.dev.Rconf = nibblePair (w.dev.Rconf &&& 0x0F) ∧
      w'.log = w.log ++ [txnWCFG w.dev.Rconf] ∧ w'.dev.Rptr = ds248xREG_CONF := by
  cases hb : bus w.log.length with
  | fail => simp [writeConfig_fail bus fuel w hb] at h
  | ok b =>
    rw [writeConfig_ok bus fuel w b hb] at h
    by_cases hm : nibblePair (w.dev.Rconf &&& 0x0F) ≠ b % 256
    · rw [if_pos hm] at h
      have := (logError_post bus fuel _ _ _ h).1
      omega
    · rw [if_neg hm] at h
      push_neg at hm
      simp only [Option.some.injEq, Prod.mk.injEq, true_and] at h
      subst h
      exact ⟨hm.symm, rfl, rfl⟩

/-- C6: `ds248xWriteConfig` returns 1 exactly when the I2C transaction succeeds and the
byte read back equals the transmitted complement-encoded byte; when it returns 1 the
config shadow holds that byte, whose low nibble is the requested configuration; on a
readback mismatch it issues a Device Reset and returns 0 (the reset reading back a
non-busy status or failing), and whenever it returns after a mismatch it returns 0 with
a Device Reset issued right after the write; on a failed transaction it returns 0. -/
theorem C6_writeConfig_verified (bus : Nat → I2CResp) (fuel : Nat) (w : World) :
    ((∃ w', ds248xWriteConfig bus fuel w = some (1, w')) ↔
      ∃ b, bus w.log.length = I2CResp.ok b ∧ b % 256 = nibblePair (w.dev.Rconf &&& 0x0F)) ∧
    (∀ w', ds248xWriteConfig bus fuel w = some (1, w') →
      w'.dev.Rconf = nibblePair (w.dev.Rconf &&& 0x0F) ∧
        w'.dev.Rconf % 16 = w.dev.Rconf % 16) ∧
    (∀ b, bus w.log.length = I2CResp.ok b → b % 256 ≠ nibblePair (w.dev.Rconf &&& 0x0F) →
      (bus (w.log.length + 1)).notBusy = true →
      ∃ w', ds248xWriteConfig bus (fuel + 1) w = some (0, w') ∧ IsDefault w'.dev ∧
        w'.log = w.log ++ [⟨[0xD2, nibblePair (w.dev.Rconf &&& 0x0F)], 0⟩, txnDRST]) ∧
    (∀ b r w', bus w.log.length = I2CResp.ok b →
      b % 256 ≠ nibblePair (w.dev.Rconf &&& 0x0F) →
      ds248xWriteConfig bus fuel w = some (r, w') →
      r = 0 ∧ IsDefault w'.dev ∧
        ∃ rest, w'.log =
          w.log ++ ⟨[0xD2, nibblePair (w.dev.Rconf &&& 0x0F)], 0⟩ :: txnDRST :: rest) ∧
    (bus w.log.length = I2CResp.fail →
      ∃ w', ds248xWriteConfig bus fuel w = some (0, w') ∧
        w'.log = w.log ++ [⟨[0xD2, nibblePair (w.dev.Rconf &&& 0x0F)], 0⟩]) := by
  refine ⟨writeConfig_one_iff bus fuel w, ?_, ?_, ?_, ?_⟩
  · intro w' h
    obtain ⟨h1, -, -⟩ := writeConfig_one_state bus fuel w w' h
    refine ⟨h1, ?_⟩
    rw [h1, (nibblePair_lo _ (and_0F_lt _)).1, and_0F_eq_mod]
  · intro b hb hm hq
    exact writeConfig_mismatch_quiet bus fuel w b hb hm hq
  · intro b r w' hb hm h
    rw [writeConfig_ok bus fuel w b hb, if_pos (Ne.symm hm)] at h
    obtain ⟨hr, hd, -, rest, hl, -⟩ := logError_post bus fuel _ _ _ h
    exact ⟨hr, hd, rest, by simpa [txnWCFG] using hl⟩
  · intro hb
    exact ⟨_, writeConfig_fail bus fuel w hb, rfl⟩

theorem C6_writeConfig_verified_witness :
    ((busMismatch wConf5.log.length = I2CResp.ok 0x00 ∧
        0x00 % 256 ≠ nibblePair (wConf5.dev.Rconf &&& 0x0F) ∧
        (busMismatch (wConf5.log.length + 1)).notBusy = true) ∧
      ∃ w', ds248xWriteConfig busMismatch 1 wConf5 = some (0, w') ∧ IsDefault w'.dev ∧
        w'.log = wConf5.log ++ [⟨[0xD2, nibblePair (wConf5.dev.Rconf &&& 0x0F)], 0⟩, txnDRST]) ∧
    ∃ w', ds248xWriteConfig busEchoA5 0 wConf5 = some (1, w') :=
  ⟨⟨⟨rfl, by decide, rfl⟩,
      (C6_writeConfig_verified busMismatch 0 wConf5).2.2.1 0x00 rfl (by decide) rfl⟩,
    (C6_writeConfig_verified busEchoA5 0 wConf5).1.mpr ⟨0xA5, rfl, by decide⟩⟩

theorem busSelect_one_iff (bus : Nat → I2CResp) (fuel : Nat) (w : World) (Bus : Nat)
    (hB : Bus < 8) (ht : w.dev.psI2C.Type_ = i2cDEV_DS2482_800) (hc : w.dev.CurChan ≠ Bus) :
    (∃ w', ds248xBusSelect bus fuel w Bus = some (1, w')) ↔
      ∃ b, bus w.log.length = I2CResp.ok b ∧ b % 256 = ds248x_V2N.getD Bus 0 := by
  cases hb : bus w.log.length with
  | fail => simp [busSelect_fail bus fuel w Bus hB ht hc hb]
  | ok b =>
    rw [busSelect_ok bus fuel w Bus b hB ht hc hb]
    by_cases hm : b % 256 ≠ ds248x_V2N.getD Bus 0
    · rw [if_pos hm]
      constructor
      · rintro ⟨w', h⟩
        have := (logError_post bus fuel _ _ _ h).1
        omega
      · rintro ⟨b', hb', hm'⟩
        cases hb'
        exact absurd hm' hm
    · rw [if_neg hm]
      push_neg at hm
      exact ⟨fun _ => ⟨b, rfl, hm⟩, fun _ => ⟨_, rfl⟩⟩

theorem busSelect_one_state (bus : Nat → I2CResp) (fuel : Nat) (w w' : World) (Bus : Nat)
    (hB : Bus < 8) (ht : w.dev.psI2C.Type_ = i2cDEV_DS2482_800) (hc : w.dev.CurChan ≠ Bus)
    (h : ds248xBusSelect bus fuel w Bus = some (1, w')) :
    w'.dev.CurChan = Bus ∧ w'.dev.Rptr = ds248xREG_CHAN ∧
      w'.dev.Rchan = ds248x_V2N.getD Bus 0 ∧ w'.log = w.log ++ [txnCHSL Bus] := by
  cases hb : bus w.log.length with
  | fail => simp [busSelect_fail bus fuel w Bus hB ht hc hb] at h
  | ok b =>
    rw [busSelect_ok bus fuel w Bus b hB ht hc hb] at h
    by_cases hm : b % 256 ≠ ds248x_V2N.getD Bus 0
    · rw [if_pos hm] at h
      have := (logError_post bus fuel _ _ _ h).1
      omega
    · rw [if_neg hm] at h
      push_neg at hm
      simp only [Option.some.injEq, Prod.mk.injEq, true_and] at h
      subst h
      exact ⟨rfl, rfl, hm, rfl⟩

theorem busSelect_log (bus : Nat → I2CResp) (fuel : Nat) (w : World) (Bus : Nat)
    (hB : Bus < 8) (ht : w.dev.psI2C.Type_ = i2cDEV_DS2482_800) (hc : w.dev.CurChan ≠ Bus)
    (r : Nat) (w' : World) (h : ds248xBusSelect bus fuel w Bus = some (r, w')) :
    ∃ rest, w'.log = w.log ++ txnCHSL Bus :: rest ∧ ∀ t ∈ rest, t = txnDRST := by
  cases hb : bus w.log.length with
  | fail =>
    rw [busSelect_fail bus fuel w Bus hB ht hc hb] at h
    simp only [Option.some.injEq, Prod.mk.injEq] at h
    obtain ⟨-, rfl⟩ := h
    exact ⟨[], rfl, by simp⟩
  | ok b =>
    rw [busSelect_ok bus fuel w Bus b hB ht hc hb] at h
    by_cases hm : b % 256 ≠ ds248x_V2N.getD Bus 0
    · rw [if_pos hm] at h
      obtain ⟨-, -, -, rest, hl, hall⟩ := logError_post bus fuel _ _ _ h
      refine ⟨txnDRST :: rest, by simpa using hl, ?_⟩
      intro t ht
      rcases List.mem_cons.mp ht with h1 | h1
      · exact h1
      · exact hall t h1
    · rw [if_neg hm] at h
      simp only [Option.some.injEq, Prod.mk.injEq] at h
      obtain ⟨-, rfl⟩ := h
      exact ⟨[], rfl, by simp⟩

theorem busSelect_returns (bus : Nat → I2CResp) (fuel : Nat) (w : World) (Bus : Nat)
    (hB : Bus < 8) (ht : w.dev.psI2C.Type_ = i2cDEV_DS2482_800) (hc : w.dev.CurChan ≠ Bus)
    (h : ∀ b, bus w.log.length = I2CResp.ok b → b % 256 ≠ ds248x_V2N.getD Bus 0 →
      (bus (w.log.length + 1)).notBusy = true) :
    ∃ r w', ds248xBusSelect bus (fuel + 1) w Bus = some (r, w') := by
  cases hb : bus w.log.length with
  | fail => exact ⟨_, _, busSelect_fail bus _ w Bus hB ht hc hb⟩
  | ok b =>
    by_cases hm : b % 256 ≠ ds248x_V2N.getD Bus 0
    · obtain ⟨w', he, -⟩ := busSelect_mismatch_quiet bus fuel w Bus b hB ht hc hb hm (h b hb hm)
      exact ⟨_, _, he⟩
    · rw [busSelect_ok bus _ w Bus b hB ht hc hb, if_neg hm]; exact ⟨_, _, rfl⟩

/-- C8: on a DS2482-800, for every `Bus` in 0..7 different from the current channel,
`ds248xBusSelect` issues one Channel Select transaction with bytes 0xC3 and
`((~Bus & 0xF) << 4) | Bus` (0xF0, 0xE1, 0xD2, 0xC3, 0xB4, 0xA5, 0x96, 0x87), any
further transaction being a Device Reset; it returns 1 exactly when the transaction
succeeds and the echoed code equals `ds248x_V2N[Bus]` (0xB8, 0xB1, 0xAA, 0xA3, 0x9C,
0x95, 0x8E, 0x87); when it returns 1 the current channel is `Bus`, the register pointer
is Channel and `Rchan = ds248x_V2N[Bus]`; and it returns whenever a forced reset does
not read back a busy status. -/
theorem C8_busSelect_switch (bus : Nat → I2CResp) (fuel : Nat) (w : World) (Bus : Nat)
    (hB : Bus < 8) (ht : w.dev.psI2C.Type_ = i2cDEV_DS2482_800) (hc : w.dev.CurChan ≠ Bus) :
    (nibblePair Bus = [0xF0, 0xE1, 0xD2, 0xC3, 0xB4, 0xA5, 0x96, 0x87].getD Bus 0 ∧
      ds248x_V2N.getD Bus 0 = [0xB8, 0xB1, 0xAA, 0xA3, 0x9C, 0x95, 0x8E, 0x87].getD Bus 0) ∧
    (∀ r w', ds248xBusSelect bus fuel w Bus = some (r, w') →
      ∃ rest, w'.log = w.log ++ ⟨[0xC3, nibblePair Bus], 0⟩ :: rest ∧
        ∀ t ∈ rest, t = txnDRST) ∧
    ((∃ w', ds248xBusSelect bus fuel w Bus = some (1, w')) ↔
      ∃ b, bus w.log.length = I2CResp.ok b ∧ b % 256 = ds248x_V2N.getD Bus 0) ∧
    (∀ w', ds248xBusSelect bus fuel w Bus = some (1, w') →
      w'.dev.CurChan = Bus ∧ w'.dev.Rptr = ds248xREG_CHAN ∧
        w'.dev.Rchan = ds248x_V2N.getD Bus 0 ∧
        w'.log = w.log ++ [⟨[0xC3, nibblePair Bus], 0⟩]) ∧
    ((∀ b, bus w.log.length = I2CResp.ok b → b % 256 ≠ ds248x_V2N.getD Bus 0 →
        (bus (w.log.length + 1)).notBusy = true) →
      ∃ r w', ds248xBusSelect bus (fuel + 1) w Bus = some (r, w')) := by
  refine ⟨?_, ?_, busSelect_one_iff bus fuel w Bus hB ht hc, ?_,
    busSelect_returns bus fuel w Bus hB ht hc⟩
  · interval_cases Bus <;> exact ⟨rfl, rfl⟩
  · intro r w' h
    exact busSelect_log bus fuel w Bus hB ht hc r w' h
  · intro w' h
    exact busSelect_one_state bus fuel w w' Bus hB ht hc h

theorem C8_busSelect_switch_witness :
    ((5 < 8 ∧ wChan3.dev.psI2C.Type_ = i2cDEV_DS2482_800 ∧ wChan3.dev.CurChan ≠ 5) ∧
      ∃ w', ds248xBusSelect busChan5 0 wChan3 5 = some (1, w')) ∧
    ∃ r w', ds248xBusSelect busMismatch 1 wChan3 5 = some (r, w') :=
  ⟨⟨⟨by decide, rfl, by decide⟩,
      (C8_busSelect_switch busChan5 0 wChan3 5 (by decide) rfl (by decide)).2.2.1.mpr
        ⟨0x95, rfl, by decide⟩⟩,
    (C8_busSelect_switch busMismatch 0 wChan3 5 (by decide) rfl (by decide)).2.2.2.2
      (fun _ _ _ => rfl)⟩

theorem identify_DS2484 (bus : Nat → I2CResp) (fuel : Nat) (di : i2c_di_t) (count : Nat)
    (log : List I2CTxn) (w1 : World)
    (hrst : ds248xReset bus fuel ⟨sDS248X_init { di with Test := 1 }, log⟩ = some (1, w1))
    (b : Nat) (hb : bus w1.log.length = I2CResp.ok b) (h6 : b % 16 = 6) :
    ds248xIdentify bus fuel di count log =
      some (erSUCCESS, ⟨i2cDEV_DS2484, count, i2cSPEED_400, 0⟩, count + 1,
        w1.log ++ [txnSRP 4]) := by
  have h6' : b % 256 % 16 = 6 := by omega
  have e := readRegister_PADJ_ok bus fuel
    ⟨{ w1.dev with psI2C := { w1.dev.psI2C with Type_ := i2cDEV_DS2484 } }, w1.log⟩ b rfl hb
  unfold ds248xIdentify
  simp only [hrst, if_true]
  rw [e]
  simp [ds248x_t.VAL, h6', erSUCCESS, erFAILURE]

theorem identify_10X_fail (bus : Nat → I2CResp) (fuel : Nat) (di : i2c_di_t) (count : Nat)
    (log : List I2CTxn) (w1 : World)
    (hrst : ds248xReset bus fuel ⟨sDS248X_init { di with Test := 1 }, log⟩ = some (1, w1))
    (hn : ¬ ∃ b, bus w1.log.length = I2CResp.ok b ∧ b % 16 = 6)
    (hb1 : bus (w1.log.length + 1) = I2CResp.fail) :
    ds248xIdentify bus fuel di count log =
      some (erSUCCESS, ⟨i2cDEV_DS2482_10X, count, i2cSPEED_400, 0⟩, count + 1,
        w1.log ++ [txnSRP 4, txnSRP 2]) := by
  unfold ds248xIdentify
  simp only [hrst, if_true]
  cases hb0 : bus w1.log.length with
  | fail =>
    rw [readRegister_PADJ_fail bus fuel
      ⟨{ w1.dev with psI2C := { w1.dev.psI2C with Type_ := i2cDEV_DS2484 } }, w1.log⟩ rfl hb0]
    simp only [zero_ne_one, false_and, if_false]
    rw [readRegister_CHAN_fail]
    · simp [erSUCCESS, erFAILURE]
    · rfl
    · simpa using hb1
  | ok b0 =>
    have h6 : ¬ b0 % 256 % 16 = 6 := fun h => hn ⟨b0, hb0, by omega⟩
    rw [readRegister_PADJ_ok bus fuel
      ⟨{ w1.dev with psI2C := { w1.dev.psI2C with Type_ := i2cDEV_DS2484 } }, w1.log⟩ b0 rfl hb0]
    simp only [ds248x_t.VAL, h6, and_false, if_false]
    rw [readRegister_CHAN_fail]
    · simp [erSUCCESS, erFAILURE]
    · rfl
    · simpa using hb1
theorem identify_800 (bus : Nat → I2CResp) (fuel : Nat) (di : i2c_di_t) (count : Nat)
    (log : List I2CTxn) (w1 : World)
    (hrst : ds248xReset bus fuel ⟨sDS248X_init { di with Test := 1 }, log⟩ = some (1, w1))
    (hn : ¬ ∃ b, bus w1.log.length = I2CResp.ok b ∧ b % 16 = 6)
    (b : Nat) (hb1 : bus (w1.log.length + 1) = I2CResp.ok b) (hB8 : b % 256 = 0xB8) :
    ds248xIdentify bus fuel di count log =
      some (erSUCCESS, ⟨i2cDEV_DS2482_800, count, i2cSPEED_400, 0⟩, count + 1,
        w1.log ++ [txnSRP 4, txnSRP 2]) := by
  obtain ⟨hd, -, -, -⟩ := reset_post bus fuel _ _ _ hrst
  have hcc : w1.dev.CurChan = 0 := hd.2.2.2.1
  unfold ds248xIdentify
  simp only [hrst, if_true]
  cases hb0 : bus w1.log.length with
  | fail =>
    rw [readRegister_PADJ_fail bus fuel
      ⟨{ w1.dev with psI2C := { w1.dev.psI2C with Type_ := i2cDEV_DS2484 } }, w1.log⟩ rfl hb0]
    simp only [zero_ne_one, false_and, if_false]
    rw [readRegister_CHAN_ok (b := b)]
    · simp [erSUCCESS, erFAILURE, hcc, ds248x_V2N, hB8]
    · rfl
    · simpa using hb1
  | ok b0 =>
    have h6 : ¬ b0 % 256 % 16 = 6 := fun h => hn ⟨b0, hb0, by omega⟩
    rw [readRegister_PADJ_ok bus fuel
      ⟨{ w1.dev with psI2C := { w1.dev.psI2C with Type_ := i2cDEV_DS2484 } }, w1.log⟩ b0 rfl hb0]
    simp only [ds248x_t.VAL, h6, and_false, if_false]
    rw [readRegister_CHAN_ok (b := b)]
    · simp [erSUCCESS, erFAILURE, hcc, ds248x_V2N, hB8]
    · rfl
    · simpa using hb1

theorem identify_other_code (bus : Nat → I2CResp) (fuel : Nat) (di : i2c_di_t) (count : Nat)
    (log : List I2CTxn) (w1 : World)
    (hrst : ds248xReset bus (fuel + 1) ⟨sDS248X_init { di with Test := 1 }, log⟩ = some (1, w1))
    (hn : ¬ ∃ b, bus w1.log.length = I2CResp.ok b ∧ b % 16 = 6)
    (b : Nat) (hb1 : bus (w1.log.length + 1) = I2CResp.ok b) (hB8 : b % 256 ≠ 0xB8)
    (hq : (bus (w1.log.length + 2)).notBusy = true) :
    ds248xIdentify bus (fuel + 1) di count log =
      some (erSUCCESS, ⟨i2cDEV_DS2482_10X, count, i2cSPEED_400, 0⟩, count + 1,
        w1.log ++ [txnSRP 4, txnSRP 2, txnDRST]) := by
  obtain ⟨hd, -, -, -⟩ := reset_post bus _ _ _ _ hrst
  have hcc : w1.dev.CurChan = 0 := hd.2.2.2.1
  unfold ds248xIdentify
  simp only [hrst, if_true]
  cases hb0 : bus w1.log.length with
  | fail =>
    rw [readRegister_PADJ_fail bus _
      ⟨{ w1.dev with psI2C := { w1.dev.psI2C with Type_ := i2cDEV_DS2484 } }, w1.log⟩ rfl hb0]
    simp only [zero_ne_one, false_and, if_false]
    rw [readRegister_CHAN_ok (b := b)]
    · rw [if_pos (by simpa [hcc, ds248x_V2N] using hB8)]
      obtain ⟨w', he, -, hl, -⟩ := logError_quiet bus fuel
        ⟨{ w1.dev with
            psI2C := { w1.dev.psI2C with Type_ := i2cDEV_DS2482_800 }, Rptr := 2,
            Rchan := b % 256 }, w1.log ++ [txnSRP 4] ++ [txnSRP 2]⟩
        (by simpa [Nat.add_assoc] using hq)
      rw [he]
      simp [erSUCCESS, erFAILURE, hl]
    · rfl
    · simpa using hb1
  | ok b0 =>
    have h6 : ¬ b0 % 256 % 16 = 6 := fun h => hn ⟨b0, hb0, by omega⟩
    rw [readRegister_PADJ_ok bus _
      ⟨{ w1.dev with psI2C := { w1.dev.psI2C with Type_ := i2cDEV_DS2484 } }, w1.log⟩ b0 rfl hb0]
    simp only [ds248x_t.VAL, h6, and_false, if_false]
    rw [readRegister_CHAN_ok (b := b)]
    · rw [if_pos (by simpa [hcc, ds248x_V2N] using hB8)]
      obtain ⟨w', he, -, hl, -⟩ := logError_quiet bus fuel
        ⟨{ w1.dev with
            psI2C := { w1.dev.psI2C with Type_ := i2cDEV_DS2482_800 }, Rptr := 2,
            Rpadj := b0 % 256, Rchan := b % 256 }, w1.log ++ [txnSRP 4] ++ [txnSRP 2]⟩
        (by simpa [Nat.add_assoc] using hq)
      rw [he]
      simp [erSUCCESS, erFAILURE, hl]
    · rfl
    · simpa using hb1

/-- C3: when the initial device reset of `ds248xIdentify` reports RST = 1, the variant
recorded follows the decision table: the PortAdjust read succeeds with value nibble
0110 gives DS2484; otherwise a failed Channel read gives DS2482-10x; otherwise a
Channel read that succeeds with the channel-0 code 0xB8 gives DS2482-800; in each of
the three cases the function returns erSUCCESS. -/
theorem C3_identify_decision_table (bus : Nat → I2CResp) (fuel : Nat) (di : i2c_di_t)
    (count : Nat) (log : List I2CTxn) (w1 : World)
    (hrst : ds248xReset bus fuel ⟨sDS248X_init { di with Test := 1 }, log⟩ = some (1, w1)) :
    (∀ b, bus w1.log.length = I2CResp.ok b → b % 16 = 0b0110 →
      ds248xIdentify bus fuel di count log =
        some (erSUCCESS, ⟨i2cDEV_DS2484, count, i2cSPEED_400, 0⟩, count + 1,
          w1.log ++ [txnSRP ds248xREG_PADJ])) ∧
    ((¬ ∃ b, bus w1.log.length = I2CResp.ok b ∧ b % 16 = 0b0110) →
      bus (w1.log.length + 1) = I2CResp.fail →
      ds248xIdentify bus fuel di count log =
        some (erSUCCESS, ⟨i2cDEV_DS2482_10X, count, i2cSPEED_400, 0⟩, count + 1,
          w1.log ++ [txnSRP ds248xREG_PADJ, txnSRP ds248xREG_CHAN])) ∧
    ((¬ ∃ b, bus w1.log.length = I2CResp.ok b ∧ b % 16 = 0b0110) →
      ∀ b, bus (w1.log.length + 1) = I2CResp.ok b → b % 256 = 0xB8 →
      ds248xIdentify bus fuel di count log =
        some (erSUCCESS, ⟨i2cDEV_DS2482_800, count, i2cSPEED_400, 0⟩, count + 1,
          w1.log ++ [txnSRP ds248xREG_PADJ, txnSRP ds248xREG_CHAN])) :=
  ⟨fun b hb h6 => identify_DS2484 bus fuel di count log w1 hrst b hb h6,
    fun hn hb1 => identify_10X_fail bus fuel di count log w1 hrst hn hb1,
    fun hn b hb1 hB8 => identify_800 bus fuel di count log w1 hrst hn b hb1 hB8⟩

theorem C3_identify_decision_table_witness :
    (ds248xReset busDS2484 1 ⟨sDS248X_init { diNew with Test := 1 }, []⟩ =
        some (1, wIdentReset) ∧
      ds248xIdentify busDS2484 1 diNew 0 [] =
        some (erSUCCESS, ⟨i2cDEV_DS2484, 0, i2cSPEED_400, 0⟩, 1,
          [txnDRST, txnSRP ds248xREG_PADJ])) ∧
    (ds248xReset busDS2482_10X 1 ⟨sDS248X_init { diNew with Test := 1 }, []⟩ =
        some (1, wIdentReset) ∧
      ds248xIdentify busDS2482_10X 1 diNew 0 [] =
        some (erSUCCESS, ⟨i2cDEV_DS2482_10X, 0, i2cSPEED_400, 0⟩, 1,
          [txnDRST, txnSRP ds248xREG_PADJ, txnSRP ds248xREG_CHAN])) ∧
    (ds248xReset busDS2482_800 1 ⟨sDS248X_init { diNew with Test := 1 }, []⟩ =
        some (1, wIdentReset) ∧
      ds248xIdentify busDS2482_800 1 diNew 0 [] =
        some (erSUCCESS, ⟨i2cDEV_DS2482_800, 0, i2cSPEED_400, 0⟩, 1,
          [txnDRST, txnSRP ds248xREG_PADJ, txnSRP ds248xREG_CHAN])) :=
  ⟨⟨rfl, (C3_identify_decision_table busDS2484 1 diNew 0 [] wIdentReset rfl).1 0x06 rfl rfl⟩,
    ⟨rfl, (C3_identify_decision_table busDS2482_10X 1 diNew 0 [] wIdentReset rfl).2.1
      (by rintro ⟨b, hb, -⟩; cases hb) rfl⟩,
    ⟨rfl, (C3_identify_decision_table busDS2482_800 1 diNew 0 [] wIdentReset rfl).2.2
      (by rintro ⟨b, hb, -⟩; cases hb) 0xB8 rfl rfl⟩⟩

/-- C4 fails on the code: a Channel-register read that succeeds with a code other than
0xB8 (here 0x00, after a failed PortAdjust read) is caught by `ds248xCheckRead` as a
channel mismatch, so `ds248xReadRegister` returns 0 and `ds248xIdentify` takes the
"read failed" branch: the device is recorded as DS2482-10x, erSUCCESS is returned and
`ds248xCount` goes from 0 to 1. -/
theorem C4_identify_other_code_registered :
    busOtherCode 1 = I2CResp.fail ∧ busOtherCode 2 = I2CResp.ok 0x00 ∧
      ds248xIdentify busOtherCode 1 diNew 0 [] =
        some (erSUCCESS, ⟨i2cDEV_DS2482_10X, 0, i2cSPEED_400, 0⟩, 1,
          [txnDRST, txnSRP ds248xREG_PADJ, txnSRP ds248xREG_CHAN, txnDRST]) :=
  ⟨rfl, rfl, rfl⟩

/-- C9 fails on the code: when the Channel Select transaction itself fails,
`ds248xBusSelect` returns 0 without any reset, the current channel stays at the
pre-committed value 3, and a repeated select of channel 3 is skipped as already
active: it returns 1 without any I2C transaction. -/
theorem C9_busSelect_failed_keeps_channel :
    ds248xBusSelect busDead 0 ⟨dev800, []⟩ 3 = some (0, wSel3Failed) ∧
      wSel3Failed.dev.CurChan = 3 ∧ countDRST wSel3Failed.log = 0 ∧
      ds248xBusSelect busDead 0 wSel3Failed 3 = some (1, wSel3Failed) :=
  ⟨rfl, rfl, rfl, rfl⟩

theorem owReset_busy_quiet (bus : Nat → I2CResp) (fuel : Nat) (w : World) (b : Nat)
    (hb : bus w.log.length = I2CResp.ok b) (h2 : b % 2 = 1)
    (hq : (bus (w.log.length + 1)).notBusy = true) :
    ∃ r w', ds248xOWReset bus (fuel + 1) w = some (r, w') ∧ IsDefault w'.dev ∧
      w'.log = w.log ++
        [⟨[ds248xCMD_1WRS], if w.dev.OWS ≠ 0 then owDELAY_RST_OD else owDELAY_RST⟩, txnDRST] := by
  have hb2 : b % 256 % 2 = 1 := by omega
  obtain ⟨w', he, hd, hl, -⟩ := logError_quiet bus fuel
    ⟨{ w.dev with
        Rptr := 0, Rstat := b % 256,
        PrvStat := w.dev.PrvStat.set w.dev.CurChan (b % 256) },
      w.log ++ [⟨[ds248xCMD_1WRS], if w.dev.OWS ≠ 0 then owDELAY_RST_OD else owDELAY_RST⟩]⟩
    (by simpa using hq)
  refine ⟨w'.dev.PPD, w', ?_, hd, by simpa using hl⟩
  unfold ds248xOWReset
  simp only []
  rw [WDR_ok bus _ ⟨{ w.dev with Rptr := ds248xREG_STAT }, w.log⟩ _ _ b hb]
  simp only [ds248xCheckRead, RegX_set, ds248xREG_STAT, ds248x_t.OWB, hb2, if_true, ne_eq,
    one_ne_zero, not_false_eq_true]
  have he' := he
  simp only [ds248x_t.OWS] at he' ⊢
  rw [he']

theorem countDRST_pair (t : I2CTxn) (h : t ≠ txnDRST) : countDRST [t, txnDRST] = 1 := by
  simp [countDRST, List.count_cons, h]

/-- When the Device Reset forced by an inconsistency fails or reads back a status that
is not busy, exactly one Device Reset (0xF0) is issued and the failing operation
returns; shown for a config readback mismatch in `ds248xWriteConfig`, a channel readback
mismatch in `ds248xBusSelect` and a busy status read by `ds248xOWReset`. -/
theorem single_reset_when_quiet (bus : Nat → I2CResp) (fuel : Nat) :
    (∀ (w : World) (b : Nat), bus w.log.length = I2CResp.ok b →
      b % 256 ≠ nibblePair (w.dev.Rconf &&& 0x0F) → (bus (w.log.length + 1)).notBusy = true →
      ∃ w', ds248xWriteConfig bus (fuel + 1) w = some (0, w') ∧
        w'.log = w.log ++ [⟨[0xD2, nibblePair (w.dev.Rconf &&& 0x0F)], 0⟩, txnDRST] ∧
        countDRST (w'.log.drop w.log.length) = 1) ∧
    (∀ (w : World) (Bus b : Nat), Bus < 8 → w.dev.psI2C.Type_ = i2cDEV_DS2482_800 →
      w.dev.CurChan ≠ Bus → bus w.log.length = I2CResp.ok b →
      b % 256 ≠ ds248x_V2N.getD Bus 0 → (bus (w.log.length + 1)).notBusy = true →
      ∃ w', ds248xBusSelect bus (fuel + 1) w Bus = some (0, w') ∧
        w'.log = w.log ++ [⟨[0xC3, nibblePair Bus], 0⟩, txnDRST] ∧
        countDRST (w'.log.drop w.log.length) = 1) ∧
    (∀ (w : World) (b : Nat), bus w.log.length = I2CResp.ok b → b % 2 = 1 →
      (bus (w.log.length + 1)).notBusy = true →
      ∃ r w', ds248xOWReset bus (fuel + 1) w = some (r, w') ∧
        w'.log = w.log ++
          [⟨[0xB4], if w.dev.OWS ≠ 0 then owDELAY_RST_OD else owDELAY_RST⟩, txnDRST] ∧
        countDRST (w'.log.drop w.log.length) = 1) := by
  refine ⟨?_, ?_, ?_⟩
  · intro w b hb hm hq
    obtain ⟨w', he, -, hl⟩ := writeConfig_mismatch_quiet bus fuel w b hb hm hq
    refine ⟨w', he, hl, ?_⟩
    rw [hl, List.drop_left]
    exact countDRST_pair _ (by simp [txnWCFG, txnDRST])
  · intro w Bus b hB ht hc hb hm hq
    obtain ⟨w', he, -, hl⟩ := busSelect_mismatch_quiet bus fuel w Bus b hB ht hc hb hm hq
    refine ⟨w', he, hl, ?_⟩
    rw [hl, List.drop_left]
    exact countDRST_pair _ (by simp [txnCHSL, txnDRST])
  · intro w b hb h2 hq
    obtain ⟨r, w', he, -, hl⟩ := owReset_busy_quiet bus fuel w b hb h2 hq
    refine ⟨r, w', he, hl, ?_⟩
    rw [hl, List.drop_left]
    exact countDRST_pair _ (by simp [txnDRST, ds248xCMD_1WRS, ds248xCMD_DRST])

theorem single_reset_when_quiet_example :
    ((busMismatch wConf5.log.length = I2CResp.ok 0x00 ∧
        0x00 % 256 ≠ nibblePair (wConf5.dev.Rconf &&& 0x0F) ∧
        (busMismatch (wConf5.log.length + 1)).notBusy = true) ∧
      ∃ w', ds248xWriteConfig busMismatch 1 wConf5 = some (0, w') ∧
        w'.log = wConf5.log ++ [⟨[0xD2, nibblePair (wConf5.dev.Rconf &&& 0x0F)], 0⟩, txnDRST] ∧
        countDRST (w'.log.drop wConf5.log.length) = 1) ∧
    ((busBusyOnce wConf5.log.length = I2CResp.ok 0x01 ∧
        (busBusyOnce (wConf5.log.length + 1)).notBusy = true) ∧
      ∃ r w', ds248xOWReset busBusyOnce 1 wConf5 = some (r, w') ∧
        w'.log = wConf5.log ++
          [⟨[0xB4], if wConf5.dev.OWS ≠ 0 then owDELAY_RST_OD else owDELAY_RST⟩, txnDRST] ∧
        countDRST (w'.log.drop wConf5.log.length) = 1) :=
  ⟨⟨⟨rfl, by decide, rfl⟩,
      (single_reset_when_quiet busMismatch 0).1 wConf5 0x00 rfl (by decide) rfl⟩,
    ⟨⟨rfl, rfl⟩, (single_reset_when_quiet busBusyOnce 0).2.2 wConf5 0x01 rfl rfl rfl⟩⟩

theorem reset_diverges_when_always_busy (fuel : Nat) :
    ∀ w : World, ds248xReset busAlwaysBusy fuel w = none := by
  induction fuel with
  | zero => intro w; rfl
  | succ n ih =>
    intro w
    rw [reset_busy_eq busAlwaysBusy n w 0x01 rfl rfl, ih]

theorem RegX_set_psI2C (d : ds248x_t) (i b : Nat) : (RegX_set d i b).psI2C = d.psI2C := by
  unfold RegX_set; split <;> rfl

theorem RegX_set_Rptr (d : ds248x_t) (i b : Nat) : (RegX_set d i b).Rptr = d.Rptr := by
  unfold RegX_set; split <;> rfl

theorem RegX_set_CurChan (d : ds248x_t) (i b : Nat) : (RegX_set d i b).CurChan = d.CurChan := by
  unfold RegX_set; split <;> rfl

theorem checkRead_post (bus : Nat → I2CResp) (fuel : Nat) (w : World) (v r : Nat) (w' : World)
    (h : ds248xCheckRead (ds248xReset bus fuel) w v = some (r, w')) :
    w'.dev.psI2C = w.dev.psI2C ∧
      ((r = 1 ∧ w'.log = w.log ∧ w'.dev.Rptr = w.dev.Rptr) ∨
        (r = 0 ∧ IsDefault w'.dev ∧
          ∃ rest, w'.log = w.log ++ txnDRST :: rest ∧ ∀ t ∈ rest, t = txnDRST)) := by
  unfold ds248xCheckRead at h
  by_cases h1 : w.dev.Rptr = ds248xREG_STAT
  · rw [if_pos h1] at h
    dsimp only at h
    split_ifs at h
    · obtain ⟨hr, hd, hp, hl⟩ := logError_post bus fuel _ _ _ h
      exact ⟨hp, Or.inr ⟨hr, hd, hl⟩⟩
    · simp only [Option.some.injEq, Prod.mk.injEq] at h
      obtain ⟨rfl, rfl⟩ := h
      exact ⟨rfl, Or.inl ⟨rfl, rfl, rfl⟩⟩
  · rw [if_neg h1] at h
    split_ifs at h
    · obtain ⟨hr, hd, hp, hl⟩ := logError_post bus fuel _ _ _ h
      exact ⟨hp, Or.inr ⟨hr, hd, hl⟩⟩
    · simp only [Option.some.injEq, Prod.mk.injEq] at h
      obtain ⟨rfl, rfl⟩ := h
      exact ⟨rfl, Or.inl ⟨rfl, rfl, rfl⟩⟩
    · obtain ⟨hr, hd, hp, hl⟩ := logError_post bus fuel _ _ _ h
      exact ⟨hp, Or.inr ⟨hr, hd, hl⟩⟩
    · simp only [Option.some.injEq, Prod.mk.injEq] at h
      obtain ⟨rfl, rfl⟩ := h
      exact ⟨rfl, Or.inl ⟨rfl, rfl, rfl⟩⟩

theorem WDR_post (bus : Nat → I2CResp) (fuel : Nat) (w : World) (tx : List Nat) (dly r : Nat)
    (w' : World)
    (h : ds248xI2C_WriteDelayRead bus (ds248xReset bus fuel) w tx dly = some (r, w')) :
    w'.dev.psI2C = w.dev.psI2C ∧
      (w'.dev.Rptr = w.dev.Rptr ∨ IsDefault w'.dev) ∧
      ∃ rest, w'.log = w.log ++ ⟨tx, dly⟩ :: rest ∧ ∀ t ∈ rest, t = txnDRST := by
  cases hb : bus w.log.length with
  | fail =>
    rw [WDR_fail bus _ w tx dly hb] at h
    simp only [Option.some.injEq, Prod.mk.injEq] at h
    obtain ⟨-, rfl⟩ := h
    exact ⟨rfl, Or.inl rfl, [], rfl, by simp⟩
  | ok b =>
    rw [WDR_ok bus _ w tx dly b hb] at h
    obtain ⟨hp, hc⟩ := checkRead_post bus fuel _ _ _ _ h
    refine ⟨by rw [hp]; exact RegX_set_psI2C _ _ _, ?_, ?_⟩
    · rcases hc with ⟨-, -, hr⟩ | ⟨-, hd, -⟩
      · left; rw [hr]; exact RegX_set_Rptr _ _ _
      · right; exact hd
    · rcases hc with ⟨-, hl, -⟩ | ⟨-, -, rest, hl, hall⟩
      · exact ⟨[], by rw [hl], by simp⟩
      · refine ⟨txnDRST :: rest, by simpa using hl, ?_⟩
        intro t ht
        rcases List.mem_cons.mp ht with h1 | h1
        · exact h1
        · exact hall t h1

theorem WDR_returns (bus : Nat → I2CResp) (fuel : Nat) (w : World) (tx : List Nat) (dly : Nat)
    (hq : (bus (w.log.length + 1)).notBusy = true) :
    ∃ r w', ds248xI2C_WriteDelayRead bus (ds248xReset bus (fuel + 1)) w tx dly = some (r, w') := by
  cases hb : bus w.log.length with
  | fail => exact ⟨_, _, WDR_fail bus _ w tx dly hb⟩
  | ok b =>
    rw [WDR_ok bus _ w tx dly b hb]
    have key : ∀ W : World, W.log = w.log ++ [⟨tx, dly⟩] →
        ∃ r w', ds248xLogError (ds248xReset bus (fuel + 1)) W = some (r, w') := by
      intro W hW
      obtain ⟨w', he, -⟩ := logError_quiet bus fuel W (by rw [hW]; simpa using hq)
      exact ⟨0, w', he⟩
    unfold ds248xCheckRead
    by_cases h1 : (RegX_set w.dev w.dev.Rptr (b % 256)).Rptr = ds248xREG_STAT
    · rw [if_pos h1]
      dsimp only
      split_ifs
      · refine key _ ?_; rfl
      · exact ⟨_, _, rfl⟩
    · rw [if_neg h1]
      split_ifs
      · refine key _ ?_; rfl
      · exact ⟨_, _, rfl⟩
      · refine key _ ?_; rfl
      · exact ⟨_, _, rfl⟩

theorem readRegister_DATA_fail (bus : Nat → I2CResp) (fuel : Nat) (w : World)
    (hb : bus w.log.length = I2CResp.fail) :
    ds248xReadRegister bus fuel w ds248xREG_DATA =
      some (0, ⟨{ w.dev with Rptr := 1 }, w.log ++ [txnSRP 1]⟩) := by
  unfold ds248xReadRegister
  rw [if_neg (by simp [ds248xREG_DATA, ds248xREG_PADJ, ds248xREG_CHAN])]
  exact WDR_fail bus _ ⟨{ w.dev with Rptr := 1 }, w.log⟩ _ 0 hb

theorem readRegister_DATA_ok (bus : Nat → I2CResp) (fuel : Nat) (w : World) (b : Nat)
    (hb : bus w.log.length = I2CResp.ok b) :
    ds248xReadRegister bus fuel w ds248xREG_DATA =
      some (1, ⟨{ w.dev with Rptr := 1, Rdata := b % 256 }, w.log ++ [txnSRP 1]⟩) := by
  unfold ds248xReadRegister
  rw [if_neg (by simp [ds248xREG_DATA, ds248xREG_PADJ, ds248xREG_CHAN])]
  have := WDR_ok bus (ds248xReset bus fuel) ⟨{ w.dev with Rptr := 1 }, w.log⟩
    [ds248xCMD_SRP, u8 (shl32 (not32 1) 4 ||| 1)] 0 b hb
  simp only [ds248xREG_DATA]
  rw [show (1 % 8 : Nat) = 1 from rfl, this]
  simp [ds248xCheckRead, RegX_set, ds248xREG_CHAN, ds248xREG_CONF, ds248xREG_STAT]
  rfl

/-- A command issued under the STATus pointer leaves the pointer at STATus. -/
theorem statCmd_post (bus : Nat → I2CResp) (fuel : Nat) (w : World) (tx : List Nat)
    (dly r : Nat) (w' : World)
    (h : ds248xI2C_WriteDelayRead bus (ds248xReset bus fuel)
      ⟨{ w.dev with Rptr := ds248xREG_STAT }, w.log⟩ tx dly = some (r, w')) :
    w'.dev.Rptr = ds248xREG_STAT ∧
      ∃ rest, w'.log = w.log ++ ⟨tx, dly⟩ :: rest ∧ ∀ t ∈ rest, t = txnDRST := by
  obtain ⟨-, hp, hl⟩ := WDR_post bus fuel _ tx dly r w' h
  refine ⟨?_, hl⟩
  rcases hp with hp | hp
  · exact hp
  · exact hp.1

theorem owReset_post (bus : Nat → I2CResp) (fuel : Nat) (w : World) (r : Nat) (w' : World)
    (h : ds248xOWReset bus fuel w = some (r, w')) :
    w'.dev.Rptr = ds248xREG_STAT ∧ r = w'.dev.PPD ∧
      ∃ rest, w'.log = w.log ++
          ⟨[ds248xCMD_1WRS], if w.dev.OWS ≠ 0 then owDELAY_RST_OD else owDELAY_RST⟩ :: rest ∧
        ∀ t ∈ rest, t = txnDRST := by
  unfold ds248xOWReset at h
  dsimp only at h
  split at h
  · simp at h
  · next r2 w2 he =>
    simp only [Option.some.injEq, Prod.mk.injEq] at h
    obtain ⟨rfl, rfl⟩ := h
    obtain ⟨hp, hl⟩ := statCmd_post bus fuel w _ _ _ _ he
    exact ⟨hp, rfl, hl⟩

theorem owTouchBit_post (bus : Nat → I2CResp) (fuel : Nat) (w : World) (Bit r : Nat)
    (w' : World) (h : ds248xOWTouchBit bus fuel w Bit = some (r, w')) :
    w'.dev.Rptr = ds248xREG_STAT ∧ r = w'.dev.SBR ∧
      ∃ rest, w'.log = w.log ++
          ⟨[ds248xCMD_1WSB, if Bit ≠ 0 then 0x80 else 0x00],
            if w.dev.OWS ≠ 0 then owDELAY_SB_OD else owDELAY_SB⟩ :: rest ∧
        ∀ t ∈ rest, t = txnDRST := by
  unfold ds248xOWTouchBit at h
  dsimp only at h
  split at h
  · simp at h
  · next r2 w2 he =>
    simp only [Option.some.injEq, Prod.mk.injEq] at h
    obtain ⟨rfl, rfl⟩ := h
    obtain ⟨hp, hl⟩ := statCmd_post bus fuel w _ _ _ _ he
    exact ⟨hp, rfl, hl⟩

theorem owWriteByte_post (bus : Nat → I2CResp) (fuel : Nat) (w : World) (Byte : Nat)
    (w' : World) (h : ds248xOWWriteByte bus fuel w Byte = some w') :
    w'.dev.Rptr = ds248xREG_STAT ∧
      ∃ rest, w'.log = w.log ++
          ⟨[ds248xCMD_1WWB, Byte],
            if w.dev.OWS ≠ 0 then owDELAY_WB_OD else owDELAY_WB⟩ :: rest ∧
        ∀ t ∈ rest, t = txnDRST := by
  unfold ds248xOWWriteByte at h
  dsimp only at h
  split at h
  · simp at h
  · next r2 w2 he =>
    simp only [Option.some.injEq] at h
    subst h
    exact statCmd_post bus fuel w _ _ _ _ he

theorem owSearchTriplet_post (bus : Nat → I2CResp) (fuel : Nat) (w : World) (dir r : Nat)
    (w' : World) (h : ds248xOWSearchTriplet bus fuel w dir = some (r, w')) :
    w'.dev.Rptr = ds248xREG_STAT ∧ r = w'.dev.Rstat ∧
      ∃ rest, w'.log = w.log ++
          ⟨[ds248xCMD_1WT, if dir ≠ 0 then 0x80 else 0x00],
            if w.dev.OWS ≠ 0 then owDELAY_ST_OD else owDELAY_ST⟩ :: rest ∧
        ∀ t ∈ rest, t = txnDRST := by
  unfold ds248xOWSearchTriplet at h
  dsimp only at h
  split at h
  · simp at h
  · next r2 w2 he =>
    simp only [Option.some.injEq, Prod.mk.injEq] at h
    obtain ⟨rfl, rfl⟩ := h
    obtain ⟨hp, hl⟩ := statCmd_post bus fuel w _ _ _ _ he
    exact ⟨hp, rfl, hl⟩

theorem owReadByte_post (bus : Nat → I2CResp) (fuel : Nat) (w : World) (r : Nat) (w' : World)
    (h : ds248xOWReadByte bus fuel w = some (r, w')) :
    w'.dev.Rptr = ds248xREG_DATA ∧ r = w'.dev.Rdata ∧
      ∃ rest, w'.log = w.log ++
          ⟨[ds248xCMD_1WRB], if w.dev.OWS ≠ 0 then owDELAY_RB_OD else owDELAY_RB⟩ :: rest ∧
        ∀ t ∈ rest, t.dly = 0 := by
  unfold ds248xOWReadByte at h
  dsimp only at h
  split at h
  · simp at h
  · next r2 w2 he =>
    obtain ⟨-, rest, hl0, hall⟩ := statCmd_post bus fuel w _ _ _ _ he
    have hl : w2.log = w.log ++
        ⟨[ds248xCMD_1WRB], if w.dev.OWS ≠ 0 then owDELAY_RB_OD else owDELAY_RB⟩ :: rest := hl0
    clear hl0 he
    have hall0 : ∀ t ∈ rest, t.dly = 0 := fun t ht => by rw [hall t ht]; rfl
    cases hb : bus w2.log.length with
    | fail =>
      rw [readRegister_DATA_fail bus fuel w2 hb] at h
      simp only [Option.some.injEq, Prod.mk.injEq] at h
      obtain ⟨rfl, rfl⟩ := h
      refine ⟨rfl, rfl, rest ++ [txnSRP 1], by simp [hl], ?_⟩
      intro t ht
      rcases List.mem_append.mp ht with h1 | h1
      · exact hall0 t h1
      · rw [List.mem_singleton.mp h1]; rfl
    | ok b =>
      rw [readRegister_DATA_ok bus fuel w2 b hb] at h
      simp only [Option.some.injEq, Prod.mk.injEq] at h
      obtain ⟨rfl, rfl⟩ := h
      refine ⟨rfl, rfl, rest ++ [txnSRP 1], by simp [hl], ?_⟩
      intro t ht
      rcases List.mem_append.mp ht with h1 | h1
      · exact hall0 t h1
      · rw [List.mem_singleton.mp h1]; rfl

theorem readRegister_DATA_returns (bus : Nat → I2CResp) (fuel : Nat) (w : World) :
    ∃ r w', ds248xReadRegister bus fuel w ds248xREG_DATA = some (r, w') := by
  cases hb : bus w.log.length with
  | fail => exact ⟨_, _, readRegister_DATA_fail bus fuel w hb⟩
  | ok b => exact ⟨_, _, readRegister_DATA_ok bus fuel w b hb⟩

theorem match_returns (x : Option (Nat × World)) (g : World → Nat)
    (hx : ∃ r w', x = some (r, w')) :
    ∃ r w', (match x with
      | none => none
      | some (_, w2) => some (g w2, w2)) = some (r, w') := by
  obtain ⟨r, w', rfl⟩ := hx
  exact ⟨_, _, rfl⟩

theorem owCommands_return (bus : Nat → I2CResp) (fuel : Nat) (w : World)
    (hq : (bus (w.log.length + 1)).notBusy = true) :
    (∃ r w', ds248xOWReset bus (fuel + 1) w = some (r, w')) ∧
    (∀ Bit, ∃ r w', ds248xOWTouchBit bus (fuel + 1) w Bit = some (r, w')) ∧
    (∀ Byte, ∃ w', ds248xOWWriteByte bus (fuel + 1) w Byte = some w') ∧
    (∀ dir, ∃ r w', ds248xOWSearchTriplet bus (fuel + 1) w dir = some (r, w')) ∧
    (∃ r w', ds248xOWReadByte bus (fuel + 1) w = some (r, w')) := by
  have key : ∀ tx dly, ∃ r w', ds248xI2C_WriteDelayRead bus (ds248xReset bus (fuel + 1))
      ⟨{ w.dev with Rptr := ds248xREG_STAT }, w.log⟩ tx dly = some (r, w') :=
    fun tx dly => WDR_returns bus fuel ⟨{ w.dev with Rptr := ds248xREG_STAT }, w.log⟩ tx dly hq
  refine ⟨?_, ?_, ?_, ?_, ?_⟩
  · exact match_returns _ (fun w2 => w2.dev.PPD) (key _ _)
  · intro Bit
    exact match_returns _ (fun w2 => w2.dev.SBR) (key _ _)
  · intro Byte
    obtain ⟨r, w', he⟩ := key [ds248xCMD_1WWB, Byte]
      (if w.dev.OWS ≠ 0 then owDELAY_WB_OD else owDELAY_WB)
    refine ⟨w', ?_⟩
    show (match ds248xI2C_WriteDelayRead bus (ds248xReset bus (fuel + 1))
      ⟨{ w.dev with Rptr := ds248xREG_STAT }, w.log⟩ [ds248xCMD_1WWB, Byte]
      (if w.dev.OWS ≠ 0 then owDELAY_WB_OD else owDELAY_WB) with
      | none => none
      | some (_, w2) => some w2) = some w'
    rw [he]
  · intro dir
    exact match_returns _ (fun w2 => w2.dev.Rstat) (key _ _)
  · obtain ⟨r, w2, he⟩ := key [ds248xCMD_1WRB]
      (if w.dev.OWS ≠ 0 then owDELAY_RB_OD else owDELAY_RB)
    obtain ⟨r3, w3, he3⟩ := readRegister_DATA_returns bus (fuel + 1) w2
    refine ⟨w3.dev.Rdata, w3, ?_⟩
    show (match ds248xI2C_WriteDelayRead bus (ds248xReset bus (fuel + 1))
      ⟨{ w.dev with Rptr := ds248xREG_STAT }, w.log⟩ [ds248xCMD_1WRB]
      (if w.dev.OWS ≠ 0 then owDELAY_RB_OD else owDELAY_RB) with
      | none => none
      | some (_, w2) =>
        match ds248xReadRegister bus (fuel + 1) w2 ds248xREG_DATA with
        | none => none
        | some (_, w3) => some (w3.dev.Rdata, w3)) = some (w3.dev.Rdata, w3)
    rw [he]
    dsimp only
    rw [he3]

theorem OWS_ite (d : ds248x_t) (a b : Nat) :
    (if d.OWS ≠ 0 then a else b) = if d.Rconf / 8 % 2 = 1 then a else b := by
  unfold ds248x_t.OWS
  by_cases h : d.Rconf / 8 % 2 = 1
  · rw [if_pos h, if_pos (by omega)]
  · rw [if_neg h, if_neg (by omega)]

theorem drop_all_dly0 (l0 : List I2CTxn) (t0 : I2CTxn) (rest l : List I2CTxn)
    (h0 : t0.dly = 0) (hl : l = l0 ++ t0 :: rest) (hall : ∀ t ∈ rest, t = txnDRST) :
    ∀ t ∈ l.drop l0.length, t.dly = 0 := by
  rw [hl, List.drop_left]
  intro t ht
  rcases List.mem_cons.mp ht with h1 | h1
  · rw [h1]; exact h0
  · rw [hall t h1]; rfl

theorem readRegister_dly0 (bus : Nat → I2CResp) (fuel : Nat) (w : World) (Reg r : Nat)
    (w' : World) (h : ds248xReadRegister bus fuel w Reg = some (r, w')) :
    ∀ t ∈ w'.log.drop w.log.length, t.dly = 0 := by
  unfold ds248xReadRegister at h
  split_ifs at h
  · simp only [Option.some.injEq, Prod.mk.injEq] at h
    obtain ⟨-, rfl⟩ := h
    simp
  · obtain ⟨-, -, rest, hl, hall⟩ := WDR_post bus fuel _ _ _ _ _ h
    exact drop_all_dly0 w.log _ rest _ rfl hl hall

theorem busSelect_dly0 (bus : Nat → I2CResp) (fuel : Nat) (w : World) (Bus r : Nat)
    (w' : World) (h : ds248xBusSelect bus fuel w Bus = some (r, w')) :
    ∀ t ∈ w'.log.drop w.log.length, t.dly = 0 := by
  unfold ds248xBusSelect at h
  split_ifs at h
  · obtain ⟨-, -, rest, hl, hall⟩ := WDR_post bus fuel _ _ _ _ _ h
    exact drop_all_dly0 w.log _ rest _ rfl hl hall
  · simp only [Option.some.injEq, Prod.mk.injEq] at h
    obtain ⟨-, rfl⟩ := h
    simp

theorem readRegister_psI2C (bus : Nat → I2CResp) (fuel : Nat) (w : World) (Reg r : Nat)
    (w' : World) (h : ds248xReadRegister bus fuel w Reg = some (r, w')) :
    w'.dev.psI2C = w.dev.psI2C := by
  unfold ds248xReadRegister at h
  split_ifs at h
  · simp only [Option.some.injEq, Prod.mk.injEq] at h
    obtain ⟨-, rfl⟩ := h
    rfl
  · exact (WDR_post bus fuel _ _ _ _ _ h).1

theorem identify_handle (bus : Nat → I2CResp) (fuel : Nat) (di : i2c_di_t) (count : Nat)
    (log : List I2CTxn) (res : Int) (di' : i2c_di_t) (count' : Nat) (log' : List I2CTxn)
    (h : ds248xIdentify bus fuel di count log = some (res, di', count', log')) :
    (res = erSUCCESS ∧ di'.DevIdx = count ∧ count' = count + 1 ∧ di'.Speed = i2cSPEED_400) ∨
    (res = erFAILURE ∧ count' = count) ∨
    (res = erSUCCESS ∧ count' = count ∧ di.Type_ ≠ i2cDEV_UNDEF ∧ di'.DevIdx = di.DevIdx) := by
  unfold ds248xIdentify at h
  dsimp only at h
  cases hR : ds248xReset bus fuel ⟨sDS248X_init { di with Test := 1 }, log⟩ with
  | none => rw [hR] at h; simp at h
  | some p =>
    obtain ⟨rst, w1⟩ := p
    rw [hR] at h
    dsimp only at h
    have hp1 : w1.dev.psI2C = { di with Test := 1 } := (reset_post bus fuel _ _ _ hR).2.2.1
    by_cases hrst : rst = 1
    · rw [if_pos hrst] at h
      cases hP : ds248xReadRegister bus fuel
          ⟨{ w1.dev with psI2C := { w1.dev.psI2C with Type_ := i2cDEV_DS2484 } }, w1.log⟩
          ds248xREG_PADJ with
      | none => rw [hP] at h; simp at h
      | some p3 =>
        obtain ⟨iRV, w3⟩ := p3
        rw [hP] at h
        dsimp only at h
        have hp3 := readRegister_psI2C bus fuel _ _ _ _ hP
        by_cases hc : iRV = 1 ∧ w3.dev.VAL = 0b00000110
        · rw [if_pos hc] at h
          left
          simp only [hp3, ne_eq, ite_not, Option.some.injEq, Prod.mk.injEq] at h
          obtain ⟨h1, h2, h3, -⟩ := h
          simp only [reduceCtorEq, if_false] at h1 h2
          exact ⟨h1.symm, by rw [← h2], h3.symm, by rw [← h2]⟩
        · rw [if_neg hc] at h
          cases hC : ds248xReadRegister bus fuel
              ⟨{ w3.dev with psI2C := { w3.dev.psI2C with Type_ := i2cDEV_DS2482_800 } }, w3.log⟩
              ds248xREG_CHAN with
          | none => rw [hC] at h; simp at h
          | some p5 =>
            obtain ⟨iRV5, w5⟩ := p5
            rw [hC] at h
            dsimp only at h
            have hp5 := readRegister_psI2C bus fuel _ _ _ _ hC
            by_cases h0 : iRV5 = 0
            · rw [if_pos h0] at h
              left
              simp only [ne_eq, ite_not, Option.some.injEq, Prod.mk.injEq] at h
              obtain ⟨h1, h2, h3, -⟩ := h
              simp only [reduceCtorEq, if_false] at h1 h2
              exact ⟨h1.symm, by rw [← h2], h3.symm, by rw [← h2]⟩
            · rw [if_neg h0] at h
              by_cases hB8 : w5.dev.Rchan = ds248x_V2N.getD 0 0
              · rw [if_pos hB8] at h
                left
                simp only [hp5, ne_eq, ite_not, Option.some.injEq, Prod.mk.injEq] at h
                obtain ⟨h1, h2, h3, -⟩ := h
                simp only [reduceCtorEq, if_false] at h1 h2
                exact ⟨h1.symm, by rw [← h2], h3.symm, by rw [← h2]⟩
              · rw [if_neg hB8] at h
                right; left
                simp only [ne_eq, ite_not, Option.some.injEq, Prod.mk.injEq] at h
                obtain ⟨h1, -, h3, -⟩ := h
                simp only [if_true] at h1
                exact ⟨h1.symm, h3.symm⟩
    · rw [if_neg hrst] at h
      simp only [hp1, ne_eq, ite_not, Option.some.injEq, Prod.mk.injEq] at h
      obtain ⟨h1, h2, h3, -⟩ := h
      by_cases hU : di.Type_ = i2cDEV_UNDEF
      · right; left
        simp only [hU, if_true] at h1
        exact ⟨h1.symm, h3.symm⟩
      · right; right
        simp only [hU, if_false] at h1 h2
        refine ⟨h1.symm, h3.symm, hU, by rw [← h2]⟩

/-- C11 fails on the code for the Config register: a Set-Read-Pointer to Config whose
I2C transaction succeeds and reads 0x01, the very value of the config shadow, is checked
by `ds248xCheckRead` against the pointer code 0xC3 as if it were a config write; the
mismatch forces a Device Reset, `ds248xReadRegister` returns 0, and afterwards the
pointer is Status and the config shadow is 0. -/
theorem C11_readRegister_config_returns_0 :
    busConfAPU wAPU.log.length = I2CResp.ok 0x01 ∧
      ds248xReadRegister busConfAPU 1 wAPU ds248xREG_CONF =
        some (0, ⟨resetDev wAPU.dev 0x18 [0x18, 0, 0, 0, 0, 0, 0, 0],
          [⟨[0xE1, 0xC3], 0⟩, txnDRST]⟩) ∧
      (resetDev wAPU.dev 0x18 [0x18, 0, 0, 0, 0, 0, 0, 0]).Rptr = ds248xREG_STAT ∧
      (resetDev wAPU.dev 0x18 [0x18, 0, 0, 0, 0, 0, 0, 0]).Rconf = 0 :=
  ⟨rfl, rfl, rfl, rfl⟩

/-- C19 fails on the code for the reset hold time: `owDELAY_RST` is 1148 while the sum
documented beside it, 600 + 584, is 1184, so a standard-speed 1-Wire reset is held 36
microseconds less than its documented duration; the nine other constants equal their
documented sums. -/
theorem C19_owDELAY_RST_below_documented_sum :
    owDELAY_RST = 1148 ∧ 600 + 584 = 1184 ∧ owDELAY_RST + 36 = 600 + 584 ∧
      owDELAY_RB = 8 * 70 ∧ owDELAY_WB = 8 * 70 ∧ owDELAY_ST = 3 * 70 ∧ owDELAY_SB = 70 ∧
      owDELAY_RST_OD = 72 + 74 ∧ owDELAY_RB_OD = 8 * 11 ∧ owDELAY_WB_OD = 8 * 11 ∧
      owDELAY_ST_OD = 3 * 11 ∧ owDELAY_SB_OD = 11 := by
  decide

/-- C20 fails on the code: `ds248xIdentify` compares only the 4-bit field VAL with 0110,
so a PortAdjust byte 0xF6 (PAR = 111, OD = 1, VAL = 0110), which is not the pattern
0b00000110, is classified as DS2484. -/
theorem C20_identify_checks_VAL_only :
    busPadjF6 1 = I2CResp.ok 0xF6 ∧ 0xF6 ≠ 0b00000110 ∧
      ds248xIdentify busPadjF6 1 diNew 0 [] =
        some (erSUCCESS, ⟨i2cDEV_DS2484, 0, i2cSPEED_400, 0⟩, 1,
          [txnDRST, txnSRP ds248xREG_PADJ]) :=
  ⟨rfl, by decide, rfl⟩

theorem writeConfig_mismatch_post (bus : Nat → I2CResp) (fuel : Nat) (w : World) (b r : Nat)
    (w' : World) (hb : bus w.log.length = I2CResp.ok b)
    (hm : b % 256 ≠ nibblePair (w.dev.Rconf &&& 0x0F))
    (h : ds248xWriteConfig bus fuel w = some (r, w')) :
    r = 0 ∧ IsDefault w'.dev := by
  rw [writeConfig_ok bus fuel w b hb, if_pos (Ne.symm hm)] at h
  obtain ⟨hr, hd, -⟩ := logError_post bus fuel _ _ _ h
  exact ⟨hr, hd⟩

theorem writeConfig_match (bus : Nat → I2CResp) (fuel : Nat) (w : World) (b : Nat)
    (hb : bus w.log.length = I2CResp.ok b)
    (hm : b % 256 = nibblePair (w.dev.Rconf &&& 0x0F)) :
    ds248xWriteConfig bus fuel w =
      some (1, ⟨{ w.dev with Rptr := 3, Rconf := nibblePair (w.dev.Rconf &&& 0x0F) },
        w.log ++ [txnWCFG w.dev.Rconf]⟩) := by
  rw [writeConfig_ok bus fuel w b hb, if_neg (by rw [hm]; simp), hm]

theorem setBit8_clear (r pos : Nat) : setBit8 r pos 0 = r &&& (0xFF ^^^ (1 <<< pos)) := by
  simp [setBit8]

theorem setBit8_testBit (r pos v i : Nat) (hp : pos < 8) (hi : i < 8) :
    (setBit8 r pos v).testBit i = if i = pos then decide (v % 2 = 1) else r.testBit i := by
  unfold setBit8
  rw [Nat.testBit_or, Nat.testBit_and]
  interval_cases pos <;> interval_cases i <;>
    rcases Nat.mod_two_eq_zero_or_one v with hv | hv <;> simp [hv, Nat.testBit]
theorem writeConfig_cases (bus : Nat → I2CResp) (fuel : Nat) (w : World) (r : Nat)
    (w' : World) (h : ds248xWriteConfig bus fuel w = some (r, w')) :
    (bus w.log.length = I2CResp.fail ∧ r = 0 ∧ w'.dev.Rconf = w.dev.Rconf) ∨
    (∃ b, bus w.log.length = I2CResp.ok b ∧ b % 256 = nibblePair (w.dev.Rconf &&& 0x0F) ∧
      r = 1 ∧ w'.dev.Rconf = nibblePair (w.dev.Rconf &&& 0x0F)) ∨
    (∃ b, bus w.log.length = I2CResp.ok b ∧ b % 256 ≠ nibblePair (w.dev.Rconf &&& 0x0F) ∧
      r = 0 ∧ IsDefault w'.dev) := by
  cases hb : bus w.log.length with
  | fail =>
    rw [writeConfig_fail bus fuel w hb] at h
    simp only [Option.some.injEq, Prod.mk.injEq] at h
    obtain ⟨rfl, rfl⟩ := h
    exact Or.inl ⟨rfl, rfl, rfl⟩
  | ok b =>
    by_cases hm : b % 256 = nibblePair (w.dev.Rconf &&& 0x0F)
    · rw [writeConfig_match bus fuel w b hb hm] at h
      simp only [Option.some.injEq, Prod.mk.injEq] at h
      obtain ⟨rfl, rfl⟩ := h
      exact Or.inr (Or.inl ⟨b, rfl, hm, rfl, rfl⟩)
    · obtain ⟨hr, hd⟩ := writeConfig_mismatch_post bus fuel w b r w' hb hm h
      exact Or.inr (Or.inr ⟨b, rfl, hm, hr, hd⟩)

theorem owSetSPU_eq (bus : Nat → I2CResp) (fuel : Nat) (w : World) :
    ds248xOWSetSPU bus fuel w =
      (ds248xWriteConfig bus fuel ⟨{ w.dev with Rconf := setBit8 w.dev.Rconf 2 1 }, w.log⟩).map
        fun p => (p.2.dev.SPU, p.2) := by
  unfold ds248xOWSetSPU
  dsimp only
  cases ds248xWriteConfig bus fuel _ <;> rfl

theorem owSpeed_eq (bus : Nat → I2CResp) (fuel : Nat) (w : World) (speed : Bool) :
    ds248xOWSpeed bus fuel w speed =
      (ds248xWriteConfig bus fuel
        ⟨{ w.dev with Rconf := setBit8 w.dev.Rconf 3 speed.toNat }, w.log⟩).map
        fun p => (p.2.dev.OWS, p.2) := by
  unfold ds248xOWSpeed
  dsimp only
  cases ds248xWriteConfig bus fuel _ <;> rfl

theorem owLevel_std_eq (bus : Nat → I2CResp) (fuel : Nat) (w : World) :
    ds248xOWLevel bus fuel w false =
      (ds248xWriteConfig bus fuel ⟨{ w.dev with Rconf := setBit8 w.dev.Rconf 2 0 }, w.log⟩).map
        fun p => (p.2.dev.SPU, p.2) := by
  unfold ds248xOWLevel
  rw [if_neg (by decide)]
  simp only [Bool.toNat_false]
  cases ds248xWriteConfig bus fuel _ <;> rfl

theorem cfgCmd_spec (bus : Nat → I2CResp) (fuel : Nat) (w1 : World) (g : World → Nat) :
    (∀ b, bus w1.log.length = I2CResp.ok b →
      b % 256 ≠ nibblePair (w1.dev.Rconf &&& 0x0F) →
      (∀ r w', (ds248xWriteConfig bus fuel w1).map (fun p => (g p.2, p.2)) = some (r, w') →
        w'.dev.Rconf = 0) ∧
      ((bus (w1.log.length + 1)).notBusy = true →
        ∃ r w', (ds248xWriteConfig bus (fuel + 1) w1).map (fun p => (g p.2, p.2)) =
          some (r, w') ∧ w'.dev.Rconf = 0)) ∧
    (∀ b, bus w1.log.length = I2CResp.ok b →
      b % 256 = nibblePair (w1.dev.Rconf &&& 0x0F) →
      ∃ r w', (ds248xWriteConfig bus fuel w1).map (fun p => (g p.2, p.2)) = some (r, w') ∧
        w'.dev.Rconf = nibblePair (w1.dev.Rconf &&& 0x0F)) := by
  refine ⟨fun b hb hm => ⟨?_, ?_⟩, fun b hb hm => ?_⟩
  · intro r w' h
    cases hW : ds248xWriteConfig bus fuel w1 with
    | none => rw [hW] at h; simp at h
    | some p =>
      obtain ⟨r2, w2⟩ := p
      rw [hW] at h
      simp only [Option.map_some', Option.some.injEq, Prod.mk.injEq] at h
      obtain ⟨-, rfl⟩ := h
      exact (writeConfig_mismatch_post bus fuel w1 b r2 w2 hb hm hW).2.2.2.1
  · intro hq
    obtain ⟨w', he, hd, -⟩ := writeConfig_mismatch_quiet bus fuel w1 b hb hm hq
    exact ⟨g w', w', by rw [he]; rfl, hd.2.2.1⟩
  · rw [writeConfig_match bus fuel w1 b hb hm]
    exact ⟨_, _, rfl, rfl⟩

/-- C15 as stated fails: with the config shadow at 0x01 (APU), a `ds248xOWSetSPU` whose
config write is answered with a mismatching byte (0x00 instead of 0xA5) forces a reset
and leaves the config shadow at 0, not at its value before the call. -/
theorem C15_counterexample_shadow_cleared :
    wAPU.dev.Rconf = 0x01 ∧ busMismatch wAPU.log.length = I2CResp.ok 0x00 ∧
      0x00 % 256 ≠ nibblePair (setBit8 wAPU.dev.Rconf 2 1 &&& 0x0F) ∧
      (ds248xOWSetSPU busMismatch 1 wAPU).map (fun p => (p.1, p.2.dev.Rconf)) =
        some (0, 0) := by
  decide

/-- C15 amended: for `ds248xOWSetSPU`, `ds248xOWSpeed` and `ds248xOWLevel` (standard),
when the readback of the config write mismatches, the bridge is reset and the config
shadow is 0 after the call (and the call returns when that reset does not read back
busy); when the write is verified, the config shadow holds the verified
complement-encoded byte of the new configuration. -/
theorem C15_config_shadow_after_write (bus : Nat → I2CResp) (fuel : Nat) (w : World) :
    ((∀ b, bus w.log.length = I2CResp.ok b →
        b % 256 ≠ nibblePair (setBit8 w.dev.Rconf 2 1 &&& 0x0F) →
        (∀ r w', ds248xOWSetSPU bus fuel w = some (r, w') → w'.dev.Rconf = 0) ∧
        ((bus (w.log.length + 1)).notBusy = true →
          ∃ r w', ds248xOWSetSPU bus (fuel + 1) w = some (r, w') ∧ w'.dev.Rconf = 0)) ∧
      (∀ b, bus w.log.length = I2CResp.ok b →
        b % 256 = nibblePair (setBit8 w.dev.Rconf 2 1 &&& 0x0F) →
        ∃ r w', ds248xOWSetSPU bus fuel w = some (r, w') ∧
          w'.dev.Rconf = nibblePair (setBit8 w.dev.Rconf 2 1 &&& 0x0F))) ∧
    (∀ speed : Bool,
      (∀ b, bus w.log.length = I2CResp.ok b →
        b % 256 ≠ nibblePair (setBit8 w.dev.Rconf 3 speed.toNat &&& 0x0F) →
        (∀ r w', ds248xOWSpeed bus fuel w speed = some (r, w') → w'.dev.Rconf = 0) ∧
        ((bus (w.log.length + 1)).notBusy = true →
          ∃ r w', ds248xOWSpeed bus (fuel + 1) w speed = some (r, w') ∧ w'.dev.Rconf = 0)) ∧
      (∀ b, bus w.log.length = I2CResp.ok b →
        b % 256 = nibblePair (setBit8 w.dev.Rconf 3 speed.toNat &&& 0x0F) →
        ∃ r w', ds248xOWSpeed bus fuel w speed = some (r, w') ∧
          w'.dev.Rconf = nibblePair (setBit8 w.dev.Rconf 3 speed.toNat &&& 0x0F))) ∧
    ((∀ b, bus w.log.length = I2CResp.ok b →
        b % 256 ≠ nibblePair (setBit8 w.dev.Rconf 2 0 &&& 0x0F) →
        (∀ r w', ds248xOWLevel bus fuel w false = some (r, w') → w'.dev.Rconf = 0) ∧
        ((bus (w.log.length + 1)).notBusy = true →
          ∃ r w', ds248xOWLevel bus (fuel + 1) w false = some (r, w') ∧ w'.dev.Rconf = 0)) ∧
      (∀ b, bus w.log.length = I2CResp.ok b →
        b % 256 = nibblePair (setBit8 w.dev.Rconf 2 0 &&& 0x0F) →
        ∃ r w', ds248xOWLevel bus fuel w false = some (r, w') ∧
          w'.dev.Rconf = nibblePair (setBit8 w.dev.Rconf 2 0 &&& 0x0F))) := by
  refine ⟨?_, fun speed => ?_, ?_⟩
  · simp only [owSetSPU_eq]
    exact cfgCmd_spec bus fuel ⟨{ w.dev with Rconf := setBit8 w.dev.Rconf 2 1 }, w.log⟩
      (fun w2 => w2.dev.SPU)
  · simp only [owSpeed_eq]
    exact cfgCmd_spec bus fuel
      ⟨{ w.dev with Rconf := setBit8 w.dev.Rconf 3 speed.toNat }, w.log⟩ (fun w2 => w2.dev.OWS)
  · simp only [owLevel_std_eq]
    exact cfgCmd_spec bus fuel ⟨{ w.dev with Rconf := setBit8 w.dev.Rconf 2 0 }, w.log⟩
      (fun w2 => w2.dev.SPU)

theorem C15_config_shadow_after_write_witness :
    ((busMismatch wAPU.log.length = I2CResp.ok 0x00 ∧
        0x00 % 256 ≠ nibblePair (setBit8 wAPU.dev.Rconf 2 1 &&& 0x0F) ∧
        (busMismatch (wAPU.log.length + 1)).notBusy = true) ∧
      ∃ r w', ds248xOWSetSPU busMismatch 1 wAPU = some (r, w') ∧ w'.dev.Rconf = 0) ∧
    ((busEchoA5 wAPU.log.length = I2CResp.ok 0xA5 ∧
        0xA5 % 256 = nibblePair (setBit8 wAPU.dev.Rconf 2 1 &&& 0x0F)) ∧
      ∃ r w', ds248xOWSetSPU busEchoA5 0 wAPU = some (r, w') ∧
        w'.dev.Rconf = nibblePair (setBit8 wAPU.dev.Rconf 2 1 &&& 0x0F)) :=
  ⟨⟨⟨rfl, by decide, rfl⟩,
      ((C15_config_shadow_after_write busMismatch 0 wAPU).1.1 0x00 rfl (by decide)).2 rfl⟩,
    ⟨⟨rfl, by decide⟩,
      (C15_config_shadow_after_write busEchoA5 0 wAPU).1.2 0xA5 rfl (by decide)⟩⟩

theorem setBit8_2_0_nibble (r : Nat) :
    setBit8 r 2 0 &&& 0x0F = r % 16 - 4 * (r / 4 % 2) := by
  have h1 : setBit8 r 2 0 = r &&& 251 := by simp [setBit8]
  have h2 : (r &&& 251) &&& 15 = (r % 16) &&& 11 := by
    rw [Nat.and_assoc, show (251 &&& 15 : Nat) = 15 &&& 11 from rfl, ← Nat.and_assoc,
      and_0F_eq_mod]
  rw [h1, h2]
  have h3 : r / 4 % 2 = r % 16 / 4 % 2 := by omega
  rw [h3]
  have hx : r % 16 < 16 := Nat.mod_lt _ (by decide)
  generalize r % 16 = x at hx
  interval_cases x <;> rfl

theorem setBit8_2_0_SPU (r : Nat) : setBit8 r 2 0 / 4 % 2 = 0 := by
  have h1 : setBit8 r 2 0 = r &&& 251 := by simp [setBit8]
  have h2 : (r &&& 251).testBit 2 = false := by
    rw [Nat.testBit_and]; simp [Nat.testBit]
  rw [h1]
  rw [Nat.testBit_to_div_mod] at h2
  have := of_decide_eq_false h2
  omega

theorem nibblePair_SPU (c : Nat) (hc : c < 16) : nibblePair c / 4 % 2 = c / 4 % 2 := by
  have := (nibblePair_lo c hc).1
  omega

theorem owLevel_std_post (bus : Nat → I2CResp) (fuel : Nat) (w : World) (r : Nat) (w' : World)
    (h : ds248xOWLevel bus fuel w false = some (r, w')) :
    r = w'.dev.Rconf / 4 % 2 ∧ r = 0 ∧
      ∃ rest, w'.log = w.log ++
          ⟨[0xD2, nibblePair (w.dev.Rconf % 16 - 4 * (w.dev.Rconf / 4 % 2))], 0⟩ :: rest ∧
        ∀ t ∈ rest, t = txnDRST := by
  rw [owLevel_std_eq] at h
  cases hW : ds248xWriteConfig bus fuel
      ⟨{ w.dev with Rconf := setBit8 w.dev.Rconf 2 0 }, w.log⟩ with
  | none => rw [hW] at h; simp at h
  | some p =>
    obtain ⟨r2, w2⟩ := p
    rw [hW] at h
    simp only [Option.map_some', Option.some.injEq, Prod.mk.injEq] at h
    obtain ⟨rfl, rfl⟩ := h
    have hlog := writeConfig_log bus fuel _ r2 w2 hW
    simp only [txnWCFG, setBit8_2_0_nibble] at hlog
    refine ⟨rfl, ?_, hlog⟩
    have hc : setBit8 w.dev.Rconf 2 0 &&& 0x0F < 16 := and_0F_lt _
    have hc0 : (setBit8 w.dev.Rconf 2 0 &&& 0x0F) / 4 % 2 = 0 := by
      have := setBit8_2_0_SPU w.dev.Rconf
      rw [and_0F_eq_mod]; omega
    show w2.dev.Rconf / 4 % 2 = 0
    rcases writeConfig_cases bus fuel _ r2 w2 hW with ⟨-, -, h3⟩ | ⟨b, -, -, -, h3⟩ |
      ⟨b, -, -, -, h3⟩
    · rw [h3]; exact setBit8_2_0_SPU _
    · rw [h3, nibblePair_SPU _ hc]; exact hc0
    · rw [h3.2.2.1]

/-- C16: `ds248xOWLevel` only allows the standard level: with owPOWER_STRONG it issues no
I2C transaction, changes no state and returns the current SPU bit; with
owPOWER_STANDARD it clears the SPU bit of the config shadow, writes the configuration
(the Write Config byte carries the low nibble of the shadow with bit 2 cleared) and
returns the SPU bit of the resulting shadow, which is 0; the call returns whenever a
forced reset does not read back a busy status. -/
theorem C16_owLevel_standard_only (bus : Nat → I2CResp) (fuel : Nat) (w : World) :
    (true.toNat = owPOWER_STRONG ∧ false.toNat = owPOWER_STANDARD) ∧
    ds248xOWLevel bus fuel w true = some (w.dev.Rconf / 4 % 2, w) ∧
    (∀ r w', ds248xOWLevel bus fuel w false = some (r, w') →
      r = w'.dev.Rconf / 4 % 2 ∧ r = 0 ∧
        ∃ rest, w'.log = w.log ++
            ⟨[0xD2, nibblePair (w.dev.Rconf % 16 - 4 * (w.dev.Rconf / 4 % 2))], 0⟩ :: rest ∧
          ∀ t ∈ rest, t = txnDRST) ∧
    ((bus (w.log.length + 1)).notBusy = true →
      ∃ r w', ds248xOWLevel bus (fuel + 1) w false = some (r, w')) := by
  refine ⟨⟨rfl, rfl⟩, ?_, owLevel_std_post bus fuel w, ?_⟩
  · unfold ds248xOWLevel
    rw [if_pos (by decide)]
    rfl
  · intro hq
    rw [owLevel_std_eq]
    obtain ⟨r, w', he⟩ := writeConfig_returns bus fuel
      ⟨{ w.dev with Rconf := setBit8 w.dev.Rconf 2 0 }, w.log⟩ (fun _ _ _ => hq)
    exact ⟨_, _, by rw [he]; rfl⟩

theorem C16_owLevel_standard_only_witness :
    ds248xOWLevel busDead 0 wConf5 true = some (1, wConf5) ∧
      ((busMismatch (wConf5.log.length + 1)).notBusy = true ∧
        ∃ r w', ds248xOWLevel busMismatch 1 wConf5 false = some (r, w')) :=
  ⟨(C16_owLevel_standard_only busDead 0 wConf5).2.1,
    rfl, (C16_owLevel_standard_only busMismatch 0 wConf5).2.2.2 rfl⟩

set_option maxRecDepth 100000 in
theorem crc8Unshift_shift : ∀ x < 256, crc8Unshift (crc8Shift x) = x := by decide

set_option maxRecDepth 100000 in
theorem crc8Shift_lt : ∀ x < 256, crc8Shift x < 256 := by decide

theorem crc8Shift_inj (x y : Nat) (hx : x < 256) (hy : y < 256)
    (h : crc8Shift x = crc8Shift y) : x = y := by
  rw [← crc8Unshift_shift x hx, ← crc8Unshift_shift y hy, h]

theorem crc8Shift_iter_lt (n : Nat) : ∀ x < 256, crc8Shift^[n] x < 256 := by
  induction n with
  | zero => intro x hx; exact hx
  | succ k ih =>
    intro x hx
    rw [Function.iterate_succ_apply]
    exact ih _ (crc8Shift_lt x hx)

theorem crc8Shift_iter_inj (n : Nat) :
    ∀ x y, x < 256 → y < 256 → crc8Shift^[n] x = crc8Shift^[n] y → x = y := by
  induction n with
  | zero => intro x y _ _ h; exact h
  | succ k ih =>
    intro x y hx hy h
    rw [Function.iterate_succ_apply, Function.iterate_succ_apply] at h
    exact crc8Shift_inj x y hx hy (ih _ _ (crc8Shift_lt x hx) (crc8Shift_lt y hy) h)

theorem xor_byte_lt (a b : Nat) (ha : a < 256) (hb : b < 256) : a ^^^ b < 256 :=
  Nat.xor_lt_two_pow (n := 8) ha hb

theorem OWCalcCRC8_lt (c d : Nat) : OWCalcCRC8 c d < 256 :=
  crc8Shift_iter_lt 8 _ (Nat.mod_lt _ (by decide))

theorem OWCalcCRC8_inj_crc (c1 c2 d : Nat) (h1 : c1 < 256) (h2 : c2 < 256) (hd : d < 256)
    (h : OWCalcCRC8 c1 d = OWCalcCRC8 c2 d) : c1 = c2 := by
  unfold OWCalcCRC8 u8 at h
  rw [Nat.mod_eq_of_lt (xor_byte_lt _ _ h1 hd), Nat.mod_eq_of_lt (xor_byte_lt _ _ h2 hd)] at h
  exact Nat.xor_left_injective
    (crc8Shift_iter_inj 8 _ _ (xor_byte_lt _ _ h1 hd) (xor_byte_lt _ _ h2 hd) h)

theorem OWCalcCRC8_inj_data (c d1 d2 : Nat) (hc : c < 256) (h1 : d1 < 256) (h2 : d2 < 256)
    (h : OWCalcCRC8 c d1 = OWCalcCRC8 c d2) : d1 = d2 := by
  unfold OWCalcCRC8 u8 at h
  rw [Nat.mod_eq_of_lt (xor_byte_lt _ _ hc h1), Nat.mod_eq_of_lt (xor_byte_lt _ _ hc h2)] at h
  exact Nat.xor_right_injective
    (crc8Shift_iter_inj 8 _ _ (xor_byte_lt _ _ hc h1) (xor_byte_lt _ _ hc h2) h)

theorem crc8_foldl_ne (buf : List Nat) (hbuf : ∀ b ∈ buf, b < 256) :
    ∀ s1 s2, s1 < 256 → s2 < 256 → s1 ≠ s2 →
      buf.foldl OWCalcCRC8 s1 ≠ buf.foldl OWCalcCRC8 s2 := by
  induction buf with
  | nil => intro s1 s2 _ _ h; exact h
  | cons x xs ih =>
    intro s1 s2 h1 h2 hne
    have hx : x < 256 := hbuf x (List.mem_cons_self _ _)
    rw [List.foldl_cons, List.foldl_cons]
    exact ih (fun b hb => hbuf b (List.mem_cons_of_mem _ hb)) _ _ (OWCalcCRC8_lt _ _)
      (OWCalcCRC8_lt _ _) (fun h => hne (OWCalcCRC8_inj_crc s1 s2 x h1 h2 hx h))

theorem flip_ne (x j : Nat) : x ^^^ (1 <<< j) ≠ x := by
  intro h
  have h0 : x ^^^ (1 <<< j) = x ^^^ 0 := by rw [h, Nat.xor_zero]
  have := Nat.xor_right_injective h0
  have hpos : 0 < 1 <<< j := by rw [Nat.one_shiftLeft]; exact Nat.two_pow_pos j
  omega

theorem flip_lt (x j : Nat) (hx : x < 256) (hj : j < 8) : x ^^^ (1 <<< j) < 256 := by
  apply xor_byte_lt _ _ hx
  rw [Nat.one_shiftLeft]
  calc 2 ^ j < 2 ^ 8 := Nat.pow_lt_pow_right (by decide) hj
    _ = 256 := rfl

theorem crc8_flip_data (buf : List Nat) (hbuf : ∀ b ∈ buf, b < 256) (j : Nat) (hj : j < 8) :
    ∀ (s i : Nat), s < 256 → i < buf.length →
      (flipBit buf i j).foldl OWCalcCRC8 s ≠ buf.foldl OWCalcCRC8 s := by
  induction buf with
  | nil => intro s i _ hi; simp at hi
  | cons x xs ih =>
    intro s i hs hi
    have hx : x < 256 := hbuf x (List.mem_cons_self _ _)
    have hxs : ∀ b ∈ xs, b < 256 := fun b hb => hbuf b (List.mem_cons_of_mem _ hb)
    cases i with
    | zero =>
      simp only [flipBit, List.set_cons_zero, List.getD_cons_zero, List.foldl_cons]
      exact crc8_foldl_ne xs hxs _ _ (OWCalcCRC8_lt _ _) (OWCalcCRC8_lt _ _)
        (fun h => flip_ne x j (OWCalcCRC8_inj_data s _ _ hs (flip_lt x j hx hj) hx h))
    | succ k =>
      have hk : k < xs.length := by simpa using hi
      have := ih hxs (OWCalcCRC8 s x) k (OWCalcCRC8_lt _ _) hk
      simpa [flipBit] using this

theorem flipBit_append_left (buf : List Nat) (c i j : Nat) (hi : i < buf.length) :
    flipBit (buf ++ [c]) i j = flipBit buf i j ++ [c] := by
  unfold flipBit
  rw [List.set_append_left _ _ hi, List.getD_append _ _ _ _ hi]

theorem flipBit_append_last (buf : List Nat) (c j : Nat) :
    flipBit (buf ++ [c]) buf.length j = buf ++ [c ^^^ (1 <<< j)] := by
  unfold flipBit
  rw [List.set_append_right _ _ (Nat.le_refl _), List.getD_append_right _ _ _ _ (Nat.le_refl _)]
  simp

theorem OWCheckCRC_concat (buf : List Nat) (c : Nat) :
    OWCheckCRC (buf ++ [c]) = (crc8Of buf == c) := by
  unfold OWCheckCRC
  rw [List.getLast?_concat, List.dropLast_concat]

/-- C17 (CRC8 round-trip): for every byte sequence, the buffer extended with the check
byte computed with the 1-Wire polynomial verifies, and flipping any single bit of the
extended buffer (in a data byte or in the check byte) makes verification fail. -/
theorem C17_crc8_roundtrip (buf : List Nat) (hbuf : ∀ b ∈ buf, b < 256) :
    OWCheckCRC (buf ++ [crc8Of buf]) = true ∧
      ∀ i j, i < (buf ++ [crc8Of buf]).length → j < 8 →
        OWCheckCRC (flipBit (buf ++ [crc8Of buf]) i j) = false := by
  refine ⟨by rw [OWCheckCRC_concat]; exact beq_self_eq_true _, ?_⟩
  intro i j hi hj
  rw [List.length_append, List.length_singleton] at hi
  rcases Nat.lt_succ_iff_lt_or_eq.mp hi with h | h
  · rw [flipBit_append_left buf _ i j h, OWCheckCRC_concat]
    exact beq_false_of_ne (crc8_flip_data buf hbuf j hj 0 i (by decide) h)
  · rw [h, flipBit_append_last, OWCheckCRC_concat]
    exact beq_false_of_ne (fun e => flip_ne _ j e.symm)

set_option maxRecDepth 100000 in
theorem C17_crc8_roundtrip_witness :
    (∀ b ∈ romBytes, b < 256) ∧ crc8Of romBytes = 0xA2 ∧
      OWCheckCRC (romBytes ++ [crc8Of romBytes]) = true ∧
      OWCheckCRC (flipBit (romBytes ++ [crc8Of romBytes]) 3 5) = false :=
  ⟨by decide, by decide, (C17_crc8_roundtrip romBytes (by decide)).1,
    (C17_crc8_roundtrip romBytes (by decide)).2 3 5 (by decide) (by decide)⟩

/-- C21 fails on the code: `ds18x20SetResolution` compares the configuration byte with
`((Res - 9) << 5) | 0x1F` but stores `Res` itself.  On a DS18B20 with configuration 0x7F
the call with `Res = 10` writes the scratchpad and returns 1, leaving the configuration
byte at 10 instead of 0x3F; the immediately repeated call finds 10 different from 0x3F,
writes the scratchpad again and returns 1.  The same happens for each `Res` from 9 to
12 on a record whose configuration byte is 0. -/
theorem C21_setResolution_not_idempotent :
    ds18x20SetResolution linkEcho dsB20 [] 10 =
        (1, dsB20_res10, [OWOp.ResetCommand DS18X20_WRITE_SP 0, OWOp.Block [0x4B, 0x46, 10]]) ∧
      dsB20_res10.Conf = 10 ∧ (((10 - 9 : Int).toNat <<< 5) ||| 0x1F) % 256 = 0x3F ∧
      ds18x20SetResolution linkEcho dsB20_res10
          [OWOp.ResetCommand DS18X20_WRITE_SP 0, OWOp.Block [0x4B, 0x46, 10]] 10 =
        (1, dsB20_res10,
          [OWOp.ResetCommand DS18X20_WRITE_SP 0, OWOp.Block [0x4B, 0x46, 10],
            OWOp.ResetCommand DS18X20_WRITE_SP 0, OWOp.Block [0x4B, 0x46, 10]]) ∧
      ∀ Res ∈ [(9 : Int), 10, 11, 12],
        (ds18x20SetResolution linkEcho dsFresh [] Res).1 = 1 ∧
          (ds18x20SetResolution linkEcho dsFresh [] Res).2.1.Conf = Res.toNat ∧
          (ds18x20SetResolution linkEcho dsFresh [] Res).2.1.Conf ≠
            (((Res - 9).toNat <<< 5) ||| 0x1F) % 256 ∧
          (ds18x20SetResolution linkEcho (ds18x20SetResolution linkEcho dsFresh [] Res).2.1
            (ds18x20SetResolution linkEcho dsFresh [] Res).2.2 Res).1 = 1 := by
  decide

/-- C22 fails on the code: with persist flag 1 `ds18x20ConfigMode` calls `ds18x20WriteSP`
a second time instead of `ds18x20WriteEE`.  For one DS18B20, limits 20/30, resolution
12 and flag 1 the link operations are bus select, two Write Scratchpad transfers and
bus release; no Copy Scratchpad command is among them, and the only difference from
flag 0 is the repeated scratchpad write.  `ds18x20WriteEE` is what would issue it. -/
theorem C22_configMode_persist_writes_scratchpad :
    ds18x20ConfigMode linkEcho (some [dsB20]) 0 1 20 30 12 1 [] =
        some (1, some [{ dsB20 with RegX := [0x50, 0x05, 30, 20, 0x7F, 0xFF, 0x0C, 0x10, 0x1C] }],
          [OWOp.BusSelect,
            OWOp.ResetCommand DS18X20_WRITE_SP 0, OWOp.Block [30, 20, 0x7F],
            OWOp.ResetCommand DS18X20_WRITE_SP 0, OWOp.Block [30, 20, 0x7F],
            OWOp.BusRelease]) ∧
      ds18x20ConfigMode linkEcho (some [dsB20]) 0 1 20 30 12 0 [] =
        some (1, some [{ dsB20 with RegX := [0x50, 0x05, 30, 20, 0x7F, 0xFF, 0x0C, 0x10, 0x1C] }],
          [OWOp.BusSelect,
            OWOp.ResetCommand DS18X20_WRITE_SP 0, OWOp.Block [30, 20, 0x7F],
            OWOp.BusRelease]) ∧
      (∀ op ∈ [OWOp.BusSelect,
            OWOp.ResetCommand DS18X20_WRITE_SP 0, OWOp.Block [30, 20, 0x7F],
            OWOp.ResetCommand DS18X20_WRITE_SP 0, OWOp.Block [30, 20, 0x7F],
            OWOp.BusRelease], op ≠ OWOp.ResetCommand DS18X20_COPY_SP 0) ∧
      (ds18x20WriteEE linkEcho dsB20 []).2.2 =
        [OWOp.ResetCommand DS18X20_COPY_SP 0, OWOp.TaskDelay ds18x20DELAY_SP_COPY,
          OWOp.Level owPOWER_STANDARD] := by
  decide

/-- C23 fails on the code: `ds18x20Initialize` tests `if (ds18x20ReadSP(...)) return 0`.
When the full scratchpad read succeeds (returns 1) it returns 0 and leaves the
resolution and power fields as they were; when the read fails (returns 0) it goes on,
sets the resolution from the configuration byte it already held, reads the power
status, converts the temperature and returns 1. -/
theorem C23_initialize_inverted_test :
    (ds18x20ReadSP linkScratchpad dsFresh [] 9).1 = 1 ∧
      (ds18x20Initialize linkScratchpad dsFresh []).1 = 0 ∧
      (ds18x20Initialize linkScratchpad dsFresh []).2.1.Res = dsFresh.Res ∧
      (ds18x20Initialize linkScratchpad dsFresh []).2.1.Pwr = dsFresh.Pwr ∧
      (ds18x20Initialize linkScratchpad dsFresh []).2.1.Conf = 0x7F ∧
      (ds18x20ReadSP linkDead { dsB20 with Res := 0, Pwr := 1 } [] 9).1 = 0 ∧
      ds18x20Initialize linkDead { dsB20 with Res := 0, Pwr := 1 } [] =
        (1, { dsB20 with Res := 3, Pwr := 0, u16Adj := 0x0550 },
          [OWOp.ResetCommand DS18X20_READ_SP 0, OWOp.ResetCommand DS18X20_READ_PSU 1]) := by
  decide

theorem initialize_returns_negation (link : Nat → OWResp) (d : ds18x20_t) (ops : List OWOp) :
    (ds18x20Initialize link d ops).1 =
      if (ds18x20ReadSP link d ops 9).1 ≠ 0 then 0 else 1 := by
  unfold ds18x20Initialize
  by_cases h : (ds18x20ReadSP link d ops 9).1 ≠ 0
  · simp only [h, ne_eq, not_false_eq_true, if_true]
  · simp only [h, ne_eq, not_true_eq_false, if_false]

theorem noCopy_snoc (ops : List OWOp) (op : OWOp) (h : NoCopySP ops)
    (hop : ∀ a, op ≠ OWOp.ResetCommand DS18X20_COPY_SP a) : NoCopySP (ops ++ [op]) := by
  intro a hm
  rcases List.mem_append.mp hm with h1 | h1
  · exact h a h1
  · exact hop a (List.mem_singleton.mp h1).symm

theorem writeSP_noCopy (link : Nat → OWResp) (d : ds18x20_t) (ops : List OWOp)
    (h : NoCopySP ops) : NoCopySP (ds18x20WriteSP link d ops).2.2 := by
  have h1 : NoCopySP (ops ++ [OWOp.ResetCommand DS18X20_WRITE_SP 0]) :=
    noCopy_snoc ops _ h (fun a => by simp [DS18X20_WRITE_SP, DS18X20_COPY_SP])
  unfold ds18x20WriteSP OWResetCommand OWBlock
  dsimp only
  split_ifs
  · exact h1
  · exact noCopy_snoc _ _ h1 (fun a => by simp)
  · exact noCopy_snoc _ _ h1 (fun a => by simp)

theorem setResolution_noCopy (link : Nat → OWResp) (d : ds18x20_t) (ops : List OWOp)
    (Res : Int) (h : NoCopySP ops) : NoCopySP (ds18x20SetResolution link d ops Res).2.2 := by
  unfold ds18x20SetResolution
  dsimp only
  split_ifs
  · exact writeSP_noCopy link _ ops h
  · exact h
  · exact h

theorem setAlarms_noCopy (link : Nat → OWResp) (d : ds18x20_t) (ops : List OWOp)
    (Lo Hi : Int) (h : NoCopySP ops) : NoCopySP (ds18x20SetAlarms link d ops Lo Hi).2.2 := by
  unfold ds18x20SetAlarms
  dsimp only
  split_ifs
  · exact writeSP_noCopy link _ ops h
  · exact h
  · exact h

theorem configMode_body_noCopy (link : Nat → OWResp) (lo hi res : Int) (wr : Nat)
    (Xcur iRV : Int) (psa : List ds18x20_t) (ops : List OWOp) (h : NoCopySP ops)
    (r : Int × List ds18x20_t × List OWOp)
    (hr : ds18x20ConfigMode_body link lo hi res wr Xcur iRV psa ops = some r) :
    NoCopySP r.2.2 := by
  unfold ds18x20ConfigMode_body at hr
  split_ifs at hr
  cases hd : psa.get? Xcur.toNat with
  | none => rw [hd] at hr; simp at hr
  | some d =>
    rw [hd] at hr
    have h1 : NoCopySP (OWP_BusSelect link ops).2 :=
      noCopy_snoc ops _ h (fun a => by simp)
    have h2 := setResolution_noCopy link d (OWP_BusSelect link ops).2 res h1
    have h3 := setAlarms_noCopy link (ds18x20SetResolution link d (OWP_BusSelect link ops).2 res).2.1
      (ds18x20SetResolution link d (OWP_BusSelect link ops).2 res).2.2 lo hi h2
    have h4 := writeSP_noCopy link
      (ds18x20SetAlarms link (ds18x20SetResolution link d (OWP_BusSelect link ops).2 res).2.1
        (ds18x20SetResolution link d (OWP_BusSelect link ops).2 res).2.2 lo hi).2.1 _ h3
    dsimp only at hr
    split_ifs at hr <;> simp only [Option.some.injEq] at hr <;> subst hr
    · exact noCopy_snoc _ _ h4 (fun a => by simp)
    · exact noCopy_snoc _ _ h3 (fun a => by simp)
    · exact noCopy_snoc _ _ h2 (fun a => by simp)
    · exact h1

theorem configMode_loop_noCopy (link : Nat → OWResp) (lo hi res : Int) (wr : Nat) (n : Nat) :
    ∀ (Xcur iRV : Int) (psa : List ds18x20_t) (ops : List OWOp), NoCopySP ops →
      ∀ r, ds18x20ConfigMode_loop link lo hi res wr n Xcur iRV psa ops = some r →
        NoCopySP r.2.2 := by
  induction n with
  | zero =>
    intro Xcur iRV psa ops h r hr
    exact configMode_body_noCopy link lo hi res wr Xcur iRV psa ops h r hr
  | succ k ih =>
    intro Xcur iRV psa ops h r hr
    rw [ds18x20ConfigMode_loop] at hr
    cases hb : ds18x20ConfigMode_body link lo hi res wr Xcur iRV psa ops with
    | none => rw [hb] at hr; simp at hr
    | some p =>
      obtain ⟨iRV1, psa1, ops1⟩ := p
      rw [hb] at hr
      have h1 : NoCopySP ops1 := configMode_body_noCopy link lo hi res wr Xcur iRV psa ops h _ hb
      dsimp only at hr
      split_ifs at hr
      · simp only [Option.some.injEq] at hr
        subst hr
        exact h1
      · exact ih _ _ _ _ h1 r hr

/-- Whatever the link answers and whatever the parameters, `ds18x20ConfigMode` issues no
Copy Scratchpad command. -/
theorem configMode_never_copies (link : Nat → OWResp) (psaDS18X20 : Option (List ds18x20_t))
    (Xcur Xmax lo hi res : Int) (wr : Nat) (r : Int × Option (List ds18x20_t) × List OWOp)
    (hr : ds18x20ConfigMode link psaDS18X20 Xcur Xmax lo hi res wr [] = some r) :
    NoCopySP r.2.2 := by
  have h0 : NoCopySP [] := fun a hm => by simp at hm
  unfold ds18x20ConfigMode at hr
  cases psaDS18X20 with
  | none =>
    simp only [Option.some.injEq] at hr
    subst hr
    exact h0
  | some psa =>
    dsimp only at hr
    by_cases h1 : Xcur ≠ 255 ∧ Xcur > Xmax
    · rw [if_pos h1] at hr
      simp only [Option.some.injEq] at hr; subst hr; exact h0
    · rw [if_neg h1] at hr
      by_cases h2 : wr = 0 ∨ wr = 1
      · rw [if_pos h2] at hr
        split at hr
        · simp at hr
        · rename_i iRV psa1 ops1 hl
          simp only [Option.some.injEq] at hr
          subst hr
          exact configMode_loop_noCopy link lo hi res wr _ _ _ _ _ h0 _ hl
      · rw [if_neg h2] at hr
        simp only [Option.some.injEq] at hr; subst hr; exact h0

/-- A persist flag other than 0 and 1 makes `ds18x20ConfigMode` return `erSCRIPT_INV_MODE`
with no link operation, when the device table exists and the index is in range. -/
theorem configMode_bad_flag (link : Nat → OWResp) (psa : List ds18x20_t)
    (Xcur Xmax lo hi res : Int) (wr : Nat) (ops : List OWOp)
    (hX : Xcur = 255 ∨ Xcur ≤ Xmax) (hwr : wr ≠ 0 ∧ wr ≠ 1) :
    ds18x20ConfigMode link (some psa) Xcur Xmax lo hi res wr ops =
      some (erSCRIPT_INV_MODE, some psa, ops) := by
  unfold ds18x20ConfigMode
  dsimp only
  have h1 : ¬ (Xcur ≠ 255 ∧ Xcur > Xmax) := by
    rintro ⟨a, b⟩
    rcases hX with h | h
    · exact a h
    · omega
  have h2 : ¬ (wr = 0 ∨ wr = 1) := by
    rintro (h | h)
    · exact hwr.1 h
    · exact hwr.2 h
  rw [if_neg h1, if_neg h2]

theorem writeSP_echo_conf (link : Nat → OWResp) (hecho : ∀ n, (link n).rx = [])
    (d : ds18x20_t) (ops : List OWOp) (hF : d.Family = OWFAMILY_28)
    (r0 r1 r2 r3 r4 r5 r6 r7 r8 : Nat) (hR : d.RegX = [r0, r1, r2, r3, r4, r5, r6, r7, r8])
    (h4 : r4 < 256) :
    (ds18x20WriteSP link d ops).2.1.Family = OWFAMILY_28 ∧
      (ds18x20WriteSP link d ops).2.1.Conf = r4 := by
  unfold ds18x20WriteSP OWResetCommand OWBlock
  dsimp only
  by_cases hl : (link ops.length).ret = 0
  · rw [if_pos hl]
    exact ⟨hF, by simp [ds18x20_t.Conf, hR]⟩
  · rw [if_neg hl]
    refine ⟨hF, ?_⟩
    simp [ds18x20_t.Conf, hR, hF, hecho, List.range, List.range.loop, Nat.mod_eq_of_lt h4]

theorem setResolution_eq_write (link : Nat → OWResp) (d : ds18x20_t) (ops : List OWOp)
    (Res : Int) (hF : d.Family = OWFAMILY_28) (h9 : 9 ≤ Res) (h12 : Res ≤ 12)
    (hc : d.Conf ≠ (((Res - 9).toNat <<< 5) ||| 0x1F) % 256) :
    ds18x20SetResolution link d ops Res =
      (1, (ds18x20WriteSP link { d.setReg 4 Res with Res := (Res - 9).toNat } ops).2.1,
        (ds18x20WriteSP link { d.setReg 4 Res with Res := (Res - 9).toNat } ops).2.2) := by
  unfold ds18x20SetResolution
  rw [if_pos ⟨hF, h9, h12⟩]
  dsimp only
  rw [if_pos hc]

/-- On a link that reads back what is written, a call of `ds18x20SetResolution` that
returned 1 leaves `Res` itself in the configuration byte, and the repeated call returns 1
again. -/
theorem setResolution_stores_Res (link : Nat → OWResp) (hecho : ∀ n, (link n).rx = [])
    (d : ds18x20_t) (ops : List OWOp) (Res : Int) (hR : d.RegX.length = 9)
    (hF : d.Family = OWFAMILY_28) (h9 : 9 ≤ Res) (h12 : Res ≤ 12)
    (h1 : (ds18x20SetResolution link d ops Res).1 = 1) :
    (ds18x20SetResolution link d ops Res).2.1.Conf = Res.toNat ∧
      (ds18x20SetResolution link (ds18x20SetResolution link d ops Res).2.1
        (ds18x20SetResolution link d ops Res).2.2 Res).1 = 1 := by
  have hc : d.Conf ≠ (((Res - 9).toNat <<< 5) ||| 0x1F) % 256 := by
    intro hc
    unfold ds18x20SetResolution at h1
    rw [if_pos ⟨hF, h9, h12⟩] at h1
    dsimp only at h1
    rw [if_neg (not_not.mpr hc)] at h1
    exact absurd h1 (by show ¬ ((0 : Int) = 1); decide)
  have hres : ∃ k : Nat, Res = (k : Int) ∧ 9 ≤ k ∧ k ≤ 12 := ⟨Res.toNat, by omega, by omega, by omega⟩
  obtain ⟨k, rfl, hk9, hk12⟩ := hres
  have hne : k ≠ ((((k : Int) - 9).toNat <<< 5) ||| 0x1F) % 256 := by
    have hk : k = 9 ∨ k = 10 ∨ k = 11 ∨ k = 12 := by omega
    rcases hk with rfl | rfl | rfl | rfl <;> decide
  rw [setResolution_eq_write link d ops _ hF h9 h12 hc]
  dsimp only
  obtain ⟨F, RegX, R, P, U⟩ := d
  simp only at hR hF
  match RegX, hR with
  | [r0, r1, r2, r3, r4, r5, r6, r7, r8], _ =>
    have hset : ({ ds18x20_t.setReg ⟨F, [r0, r1, r2, r3, r4, r5, r6, r7, r8], R, P, U⟩ 4 (k : Int) with
        Res := ((k : Int) - 9).toNat } : ds18x20_t).RegX = [r0, r1, r2, r3, k, r5, r6, r7, r8] := by
      have : ((k : Int) % 256).toNat = k := by omega
      simp [ds18x20_t.setReg, this]
    have hw := writeSP_echo_conf link hecho
      { ds18x20_t.setReg ⟨F, [r0, r1, r2, r3, r4, r5, r6, r7, r8], R, P, U⟩ 4 (k : Int) with
        Res := ((k : Int) - 9).toNat } ops hF r0 r1 r2 r3 k r5 r6 r7 r8 hset (by omega)
    refine ⟨by rw [hw.2]; simp, ?_⟩
    rw [setResolution_eq_write link _ _ _ hw.1 h9 h12 (by rw [hw.2]; exact hne)]

/-- When the full scratchpad read succeeds, `ds18x20Initialize` returns 0 and leaves the
resolution and power fields as they were. -/
theorem initialize_after_good_read (link : Nat → OWResp) (d : ds18x20_t) (ops : List OWOp)
    (h : (ds18x20ReadSP link d ops 9).1 = 1) :
    (ds18x20Initialize link d ops).1 = 0 ∧ (ds18x20Initialize link d ops).2.1.Res = d.Res ∧
      (ds18x20Initialize link d ops).2.1.Pwr = d.Pwr := by
  have hne : (ds18x20ReadSP link d ops 9).1 ≠ 0 := by rw [h]; decide
  have hfld : (ds18x20ReadSP link d ops 9).2.1.Res = d.Res ∧
      (ds18x20ReadSP link d ops 9).2.1.Pwr = d.Pwr := by
    unfold ds18x20ReadSP
    dsimp only
    split_ifs <;> exact ⟨rfl, rfl⟩
  unfold ds18x20Initialize
  simp only [hne, ne_eq, not_false_eq_true, if_true]
  exact ⟨trivial, hfld⟩

/-- When the full scratchpad read fails, `ds18x20Initialize` returns 1. -/
theorem initialize_after_failed_read (link : Nat → OWResp) (d : ds18x20_t) (ops : List OWOp)
    (h : (ds18x20ReadSP link d ops 9).1 = 0) : (ds18x20Initialize link d ops).1 = 1 := by
  unfold ds18x20Initialize
  simp only [h, ne_eq, not_true_eq_false, if_false]

/-- A chain of Device Resets started at the current position ends as soon as one of
them fails or reads back a status that is not busy. -/
theorem reset_returns_within (bus : Nat → I2CResp) (n : Nat) :
    ∀ (fuel : Nat) (w : World), (bus (w.log.length + n)).notBusy = true →
      ∃ r w', ds248xReset bus (fuel + n + 1) w = some (r, w') := by
  induction n with
  | zero =>
    intro fuel w h
    obtain ⟨r, w', he, -⟩ := reset_quiet bus fuel w h
    exact ⟨r, w', he⟩
  | succ k ih =>
    intro fuel w h
    cases hb : bus w.log.length with
    | fail => exact ⟨_, _, reset_fail_eq bus (fuel + k + 1) w hb⟩
    | ok b =>
      rcases Nat.mod_two_eq_zero_or_one b with h2 | h2
      · exact ⟨_, _, reset_ok_eq bus (fuel + k + 1) w b hb h2⟩
      · have e := reset_busy_eq bus (fuel + k + 1) w b hb h2
        obtain ⟨r, w2, he⟩ := ih fuel
          (World.mk { w.dev with Rptr := 0, Rstat := b % 256, PrvStat := w.dev.PrvStat.set w.dev.CurChan (b % 256) }
            (w.log ++ [txnDRST]))
          (by
            have : (w.log ++ [txnDRST]).length + k = w.log.length + (k + 1) := by
              simp only [List.length_append, List.length_singleton]; omega
            show (bus ((w.log ++ [txnDRST]).length + k)).notBusy = true
            rw [this]; exact h)
        rw [he] at e
        exact ⟨_, _, e⟩

/-- A command issued under the STATus pointer returns when, in case its status read is
busy, the chain of forced resets ends within `n` further transactions. -/
theorem statCmd_returns (bus : Nat → I2CResp) (fuel n : Nat) (w : World) (tx : List Nat)
    (dly : Nat)
    (hq : ∀ b, bus w.log.length = I2CResp.ok b → b % 2 = 1 →
      (bus (w.log.length + 1 + n)).notBusy = true) :
    ∃ r w', ds248xI2C_WriteDelayRead bus (ds248xReset bus (fuel + n + 1))
      ⟨{ w.dev with Rptr := ds248xREG_STAT }, w.log⟩ tx dly = some (r, w') := by
  cases hb : bus w.log.length with
  | fail => exact ⟨_, _, WDR_fail bus _ ⟨{ w.dev with Rptr := ds248xREG_STAT }, w.log⟩ tx dly hb⟩
  | ok b =>
    rw [WDR_ok bus _ ⟨{ w.dev with Rptr := ds248xREG_STAT }, w.log⟩ tx dly b hb]
    unfold ds248xCheckRead
    rw [if_pos (RegX_set_Rptr _ _ _)]
    dsimp only
    split_ifs with hbusy
    · have h2 : b % 2 = 1 := by
        simp only [RegX_set, ds248xREG_STAT, ds248x_t.OWB] at hbusy
        omega
      obtain ⟨r, w', he⟩ := reset_returns_within bus n fuel
        ⟨{ RegX_set { w.dev with Rptr := ds248xREG_STAT } ds248xREG_STAT (b % 256) with
            PrvStat := (RegX_set { w.dev with Rptr := ds248xREG_STAT } ds248xREG_STAT
                (b % 256)).PrvStat.set
              (RegX_set { w.dev with Rptr := ds248xREG_STAT } ds248xREG_STAT (b % 256)).CurChan
              (RegX_set { w.dev with Rptr := ds248xREG_STAT } ds248xREG_STAT (b % 256)).Rstat },
          w.log ++ [⟨tx, dly⟩]⟩
        (by
          have : (w.log ++ [(⟨tx, dly⟩ : I2CTxn)]).length + n = w.log.length + 1 + n := by
            simp only [List.length_append, List.length_singleton]
          show (bus ((w.log ++ [(⟨tx, dly⟩ : I2CTxn)]).length + n)).notBusy = true
          rw [this]; exact hq b hb h2)
      refine ⟨0, w', ?_⟩
      unfold ds248xLogError
      rw [he]
    · exact ⟨_, _, rfl⟩

/-- The five 1-Wire bus commands return when, in case the status read of the command is
busy, the chain of forced resets ends within `n` further transactions. -/
theorem owCommands_return_within (bus : Nat → I2CResp) (fuel n : Nat) (w : World)
    (hq : ∀ b, bus w.log.length = I2CResp.ok b → b % 2 = 1 →
      (bus (w.log.length + 1 + n)).notBusy = true) :
    (∃ r w', ds248xOWReset bus (fuel + n + 1) w = some (r, w')) ∧
    (∀ Bit, ∃ r w', ds248xOWTouchBit bus (fuel + n + 1) w Bit = some (r, w')) ∧
    (∀ Byte, ∃ w', ds248xOWWriteByte bus (fuel + n + 1) w Byte = some w') ∧
    (∀ dir, ∃ r w', ds248xOWSearchTriplet bus (fuel + n + 1) w dir = some (r, w')) ∧
    (∃ r w', ds248xOWReadByte bus (fuel + n + 1) w = some (r, w')) := by
  have key : ∀ tx dly, ∃ r w', ds248xI2C_WriteDelayRead bus (ds248xReset bus (fuel + n + 1))
      ⟨{ w.dev with Rptr := ds248xREG_STAT }, w.log⟩ tx dly = some (r, w') :=
    fun tx dly => statCmd_returns bus fuel n w tx dly hq
  refine ⟨?_, ?_, ?_, ?_, ?_⟩
  · exact match_returns _ (fun w2 => w2.dev.PPD) (key _ _)
  · intro Bit
    exact match_returns _ (fun w2 => w2.dev.SBR) (key _ _)
  · intro Byte
    obtain ⟨r, w', he⟩ := key [ds248xCMD_1WWB, Byte]
      (if w.dev.OWS ≠ 0 then owDELAY_WB_OD else owDELAY_WB)
    refine ⟨w', ?_⟩
    show (match ds248xI2C_WriteDelayRead bus (ds248xReset bus (fuel + n + 1))
      ⟨{ w.dev with Rptr := ds248xREG_STAT }, w.log⟩ [ds248xCMD_1WWB, Byte]
      (if w.dev.OWS ≠ 0 then owDELAY_WB_OD else owDELAY_WB) with
      | none => none
      | some (_, w2) => some w2) = some w'
    rw [he]
  · intro dir
    exact match_returns _ (fun w2 => w2.dev.Rstat) (key _ _)
  · obtain ⟨r, w2, he⟩ := key [ds248xCMD_1WRB]
      (if w.dev.OWS ≠ 0 then owDELAY_RB_OD else owDELAY_RB)
    obtain ⟨r3, w3, he3⟩ := readRegister_DATA_returns bus (fuel + n + 1) w2
    refine ⟨w3.dev.Rdata, w3, ?_⟩
    show (match ds248xI2C_WriteDelayRead bus (ds248xReset bus (fuel + n + 1))
      ⟨{ w.dev with Rptr := ds248xREG_STAT }, w.log⟩ [ds248xCMD_1WRB]
      (if w.dev.OWS ≠ 0 then owDELAY_RB_OD else owDELAY_RB) with
      | none => none
      | some (_, w2) =>
        match ds248xReadRegister bus (fuel + n + 1) w2 ds248xREG_DATA with
        | none => none
        | some (_, w3) => some (w3.dev.Rdata, w3)) = some (w3.dev.Rdata, w3)
    rw [he]
    dsimp only
    rw [he3]

/-- The transactions of `ds248xOWReadByte`: the read-byte command, the Device Resets
forced by a busy status, and last the pointer-set to DATA whose read is the value
returned. -/
theorem owReadByte_fetch (bus : Nat → I2CResp) (fuel : Nat) (w : World) (r : Nat) (w' : World)
    (h : ds248xOWReadByte bus fuel w = some (r, w')) :
    ∃ rest, w'.log = w.log ++
          ⟨[ds248xCMD_1WRB], if w.dev.OWS ≠ 0 then owDELAY_RB_OD else owDELAY_RB⟩ ::
            (rest ++ [txnSRP ds248xREG_DATA]) ∧
        (∀ t ∈ rest, t = txnDRST) ∧
        (∀ b, bus (w'.log.length - 1) = I2CResp.ok b → r = b % 256) := by
  unfold ds248xOWReadByte at h
  dsimp only at h
  split at h
  · simp at h
  · next r2 w2 he =>
    obtain ⟨-, rest, hl0, hall⟩ := statCmd_post bus fuel w _ _ _ _ he
    have hl : w2.log = w.log ++
        ⟨[ds248xCMD_1WRB], if w.dev.OWS ≠ 0 then owDELAY_RB_OD else owDELAY_RB⟩ :: rest := hl0
    clear hl0 he
    cases hb : bus w2.log.length with
    | fail =>
      rw [readRegister_DATA_fail bus fuel w2 hb] at h
      simp only [Option.some.injEq, Prod.mk.injEq] at h
      obtain ⟨rfl, rfl⟩ := h
      refine ⟨rest, by simp [hl, ds248xREG_DATA], hall, ?_⟩
      intro b hb2
      simp only [List.length_append, List.length_singleton, Nat.add_sub_cancel] at hb2
      rw [hb] at hb2
      cases hb2
    | ok b =>
      rw [readRegister_DATA_ok bus fuel w2 b hb] at h
      simp only [Option.some.injEq, Prod.mk.injEq] at h
      obtain ⟨rfl, rfl⟩ := h
      refine ⟨rest, by simp [hl, ds248xREG_DATA], hall, ?_⟩
      intro b2 hb2
      simp only [List.length_append, List.length_singleton, Nat.add_sub_cancel] at hb2
      rw [hb] at hb2
      cases hb2
      rfl

/-- A plain byte read: the status read of the command is not busy and the pointer-set
reads the byte `b`; `ds248xOWReadByte` returns `b`, whatever the nesting bound. -/
theorem owReadByte_plain (bus : Nat → I2CResp) (fuel : Nat) (w : World) (s b : Nat)
    (hs : bus w.log.length = I2CResp.ok s) (h2 : s % 2 = 0)
    (hb : bus (w.log.length + 1) = I2CResp.ok b) :
    ds248xOWReadByte bus fuel w =
      some (b % 256,
        ⟨{ w.dev with
            Rptr := ds248xREG_DATA, Rstat := s % 256, Rdata := b % 256,
            PrvStat := w.dev.PrvStat.set w.dev.CurChan (s % 256) },
          w.log ++ [⟨[ds248xCMD_1WRB], if w.dev.OWS ≠ 0 then owDELAY_RB_OD else owDELAY_RB⟩,
            txnSRP ds248xREG_DATA]⟩) := by
  have hs2 : s % 256 % 2 = 0 := by omega
  unfold ds248xOWReadByte
  dsimp only
  rw [WDR_ok bus _ ⟨{ w.dev with Rptr := ds248xREG_STAT }, w.log⟩ _ _ s hs]
  simp only [ds248xCheckRead, RegX_set, ds248xREG_STAT, ds248x_t.OWB, hs2, if_true, ne_eq,
    not_true_eq_false, if_false]
  rw [readRegister_DATA_ok bus fuel _ b (by simpa using hb)]
  simp [ds248xREG_DATA]
  rfl

/-- C13: after `ds248xOWReset`, `ds248xOWTouchBit`, `ds248xOWWriteByte` and
`ds248xOWSearchTriplet` the register pointer is Status, whatever the transport answers;
after `ds248xOWReadByte` the pointer is Data, the last transaction is the pointer-set
to Data and the value returned is the Data shadow register, which holds the byte that
transaction read.  A plain read (status not busy, then data byte `b`) returns `b` with
the two transactions logged.  Each of the five calls returns: a reset is forced only
when the status read of the command is busy, and then the call returns as soon as one
of the forced Device Resets fails or reads back a status that is not busy. -/
theorem C13_register_pointer (bus : Nat → I2CResp) (fuel n : Nat) (w : World) :
    ((∀ r w', ds248xOWReset bus fuel w = some (r, w') → w'.dev.Rptr = ds248xREG_STAT) ∧
      (∀ Bit r w', ds248xOWTouchBit bus fuel w Bit = some (r, w') →
        w'.dev.Rptr = ds248xREG_STAT) ∧
      (∀ Byte w', ds248xOWWriteByte bus fuel w Byte = some w' →
        w'.dev.Rptr = ds248xREG_STAT) ∧
      (∀ dir r w', ds248xOWSearchTriplet bus fuel w dir = some (r, w') →
        w'.dev.Rptr = ds248xREG_STAT) ∧
      (∀ r w', ds248xOWReadByte bus fuel w = some (r, w') →
        w'.dev.Rptr = ds248xREG_DATA ∧ r = w'.dev.Rdata ∧
          (∃ l, w'.log = l ++ [txnSRP ds248xREG_DATA]) ∧
          ∀ b, bus (w'.log.length - 1) = I2CResp.ok b → r = b % 256)) ∧
    (∀ s b, bus w.log.length = I2CResp.ok s → s % 2 = 0 →
      bus (w.log.length + 1) = I2CResp.ok b →
      ds248xOWReadByte bus fuel w =
        some (b % 256,
          ⟨{ w.dev with
              Rptr := ds248xREG_DATA, Rstat := s % 256, Rdata := b % 256,
              PrvStat := w.dev.PrvStat.set w.dev.CurChan (s % 256) },
            w.log ++ [⟨[ds248xCMD_1WRB], if w.dev.OWS ≠ 0 then owDELAY_RB_OD else owDELAY_RB⟩,
              txnSRP ds248xREG_DATA]⟩)) ∧
    ((∀ b, bus w.log.length = I2CResp.ok b → b % 2 = 1 →
        (bus (w.log.length + 1 + n)).notBusy = true) →
      (∃ r w', ds248xOWReset bus (fuel + n + 1) w = some (r, w') ∧
        w'.dev.Rptr = ds248xREG_STAT) ∧
      (∀ Bit, ∃ r w', ds248xOWTouchBit bus (fuel + n + 1) w Bit = some (r, w') ∧
        w'.dev.Rptr = ds248xREG_STAT) ∧
      (∀ Byte, ∃ w', ds248xOWWriteByte bus (fuel + n + 1) w Byte = some w' ∧
        w'.dev.Rptr = ds248xREG_STAT) ∧
      (∀ dir, ∃ r w', ds248xOWSearchTriplet bus (fuel + n + 1) w dir = some (r, w') ∧
        w'.dev.Rptr = ds248xREG_STAT) ∧
      (∃ r w', ds248xOWReadByte bus (fuel + n + 1) w = some (r, w') ∧
        w'.dev.Rptr = ds248xREG_DATA ∧ r = w'.dev.Rdata)) := by
  refine ⟨⟨fun r w' h => (owReset_post bus fuel w r w' h).1,
      fun Bit r w' h => (owTouchBit_post bus fuel w Bit r w' h).1,
      fun Byte w' h => (owWriteByte_post bus fuel w Byte w' h).1,
      fun dir r w' h => (owSearchTriplet_post bus fuel w dir r w' h).1, ?_⟩,
    fun s b hs h2 hb => owReadByte_plain bus fuel w s b hs h2 hb, ?_⟩
  · intro r w' h
    obtain ⟨hp, hr, -⟩ := owReadByte_post bus fuel w r w' h
    obtain ⟨rest, hl, -, hb⟩ := owReadByte_fetch bus fuel w r w' h
    refine ⟨hp, hr, ⟨w.log ++
      ⟨[ds248xCMD_1WRB], if w.dev.OWS ≠ 0 then owDELAY_RB_OD else owDELAY_RB⟩ :: rest, ?_⟩, hb⟩
    rw [hl]
    simp
  · intro hq
    obtain ⟨h1, h2, h3, h4, h5⟩ := owCommands_return_within bus fuel n w hq
    refine ⟨?_, ?_, ?_, ?_, ?_⟩
    · obtain ⟨r, w', he⟩ := h1
      exact ⟨r, w', he, (owReset_post bus _ w r w' he).1⟩
    · intro Bit
      obtain ⟨r, w', he⟩ := h2 Bit
      exact ⟨r, w', he, (owTouchBit_post bus _ w Bit r w' he).1⟩
    · intro Byte
      obtain ⟨w', he⟩ := h3 Byte
      exact ⟨w', he, (owWriteByte_post bus _ w Byte w' he).1⟩
    · intro dir
      obtain ⟨r, w', he⟩ := h4 dir
      exact ⟨r, w', he, (owSearchTriplet_post bus _ w dir r w' he).1⟩
    · obtain ⟨r, w', he⟩ := h5
      obtain ⟨hp, hr, -⟩ := owReadByte_post bus _ w r w' he
      exact ⟨r, w', he, hp, hr⟩

theorem C13_register_pointer_witness :
    ((busRead55 wChan3.log.length = I2CResp.ok 0x18 ∧ 0x18 % 2 = 0 ∧
        busRead55 (wChan3.log.length + 1) = I2CResp.ok 0x55) ∧
      ds248xOWReadByte busRead55 0 wChan3 =
        some (0x55,
          ⟨{ wChan3.dev with
              Rptr := 1, Rstat := 0x18, Rdata := 0x55, PrvStat := [0, 0, 0, 0x18, 0, 0, 0, 0] },
            [⟨[0x96], 560⟩, ⟨[0xE1, 0xE1], 0⟩]⟩)) ∧
    (ds248xOWReset busDead 0 wChan3 =
        some (0, ⟨wChan3.dev, [⟨[0xB4], 1148⟩]⟩) ∧
      (⟨wChan3.dev, [⟨[0xB4], 1148⟩]⟩ : World).dev.Rptr = ds248xREG_STAT) ∧
    ((∀ b, busBusyOnce wChan3.log.length = I2CResp.ok b → b % 2 = 1 →
        (busBusyOnce (wChan3.log.length + 1 + 0)).notBusy = true) ∧
      (∃ r w', ds248xOWReset busBusyOnce 1 wChan3 = some (r, w') ∧
        w'.dev.Rptr = ds248xREG_STAT) ∧
      (∀ Bit, ∃ r w', ds248xOWTouchBit busBusyOnce 1 wChan3 Bit = some (r, w') ∧
        w'.dev.Rptr = ds248xREG_STAT) ∧
      (∀ Byte, ∃ w', ds248xOWWriteByte busBusyOnce 1 wChan3 Byte = some w' ∧
        w'.dev.Rptr = ds248xREG_STAT) ∧
      (∀ dir, ∃ r w', ds248xOWSearchTriplet busBusyOnce 1 wChan3 dir = some (r, w') ∧
        w'.dev.Rptr = ds248xREG_STAT) ∧
      (∃ r w', ds248xOWReadByte busBusyOnce 1 wChan3 = some (r, w') ∧
        w'.dev.Rptr = ds248xREG_DATA ∧ r = w'.dev.Rdata)) :=
  ⟨⟨⟨rfl, rfl, rfl⟩, (C13_register_pointer busRead55 0 0 wChan3).2.1 0x18 0x55 rfl rfl rfl⟩,
    ⟨rfl, (C13_register_pointer busDead 0 0 wChan3).1.1 0 _ rfl⟩,
    ⟨fun _ _ _ => rfl, (C13_register_pointer busBusyOnce 0 0 wChan3).2.2 (fun _ _ _ => rfl)⟩⟩

/-- A register-only command returns as soon as one of the Device Resets forced by its
check fails or reads back a status that is not busy. -/
theorem WDR_returns_within (bus : Nat → I2CResp) (fuel n : Nat) (w : World) (tx : List Nat)
    (dly : Nat) (hq : (bus (w.log.length + 1 + n)).notBusy = true) :
    ∃ r w', ds248xI2C_WriteDelayRead bus (ds248xReset bus (fuel + n + 1)) w tx dly =
      some (r, w') := by
  cases hb : bus w.log.length with
  | fail => exact ⟨_, _, WDR_fail bus _ w tx dly hb⟩
  | ok b =>
    rw [WDR_ok bus _ w tx dly b hb]
    have key : ∀ W : World, W.log = w.log ++ [⟨tx, dly⟩] →
        ∃ r w', ds248xLogError (ds248xReset bus (fuel + n + 1)) W = some (r, w') := by
      intro W hW
      obtain ⟨r, w', he⟩ := reset_returns_within bus n fuel W
        (by rw [hW]; simpa using hq)
      refine ⟨0, w', ?_⟩
      unfold ds248xLogError
      rw [he]
    unfold ds248xCheckRead
    by_cases h1 : (RegX_set w.dev w.dev.Rptr (b % 256)).Rptr = ds248xREG_STAT
    · rw [if_pos h1]
      dsimp only
      split_ifs
      · refine key _ ?_; rfl
      · exact ⟨_, _, rfl⟩
    · rw [if_neg h1]
      split_ifs
      · refine key _ ?_; rfl
      · exact ⟨_, _, rfl⟩
      · refine key _ ?_; rfl
      · exact ⟨_, _, rfl⟩

/-- The transactions of `ds248xReadRegister` for one of the five registers that exists
on the variant: the pointer-set, then only the Device Resets its check forced. -/
theorem readRegister_log (bus : Nat → I2CResp) (fuel : Nat) (w : World) (Reg : Nat)
    (hReg : Reg < 5)
    (hv : ¬((Reg = ds248xREG_CHAN ∧ w.dev.psI2C.Type_ ≠ i2cDEV_DS2482_800) ∨
      (Reg = ds248xREG_PADJ ∧ w.dev.psI2C.Type_ ≠ i2cDEV_DS2484)))
    (r : Nat) (w' : World) (h : ds248xReadRegister bus fuel w Reg = some (r, w')) :
    ∃ rest, w'.log = w.log ++ txnSRP Reg :: rest ∧ ∀ t ∈ rest, t = txnDRST := by
  unfold ds248xReadRegister at h
  rw [if_neg hv] at h
  obtain ⟨-, -, rest, hl, hall⟩ := WDR_post bus fuel _ _ _ _ _ h
  refine ⟨rest, ?_, hall⟩
  rw [hl, enc_eq_nibblePair Reg (by omega)]
  rfl

/-- C14: the first transaction of each 1-Wire bus command carries the overdrive delay
when the OWS bit (bit 3) of the config shadow is set and the standard delay otherwise:
reset 146/1148, single bit 11/70, write byte 88/560, read byte 88/560, triplet 33/210
microseconds; whatever else such a command issues is a Device Reset or, for the read
byte, the closing pointer-set, with delay 0.  The register-only commands issue their
transaction (device reset 0xF0, write config 0xD2, set read pointer 0xE1, channel
select 0xC3) with delay 0, followed only by Device Resets with delay 0.  Every one of
these commands returns: a bus command as soon as, its status read being busy, one of
the forced Device Resets fails or reads back a status that is not busy; a register-only
command as soon as one of its Device Resets does. -/
theorem C14_delays (bus : Nat → I2CResp) (fuel n : Nat) (w : World) :
    ((∀ r w', ds248xOWReset bus fuel w = some (r, w') →
        ∃ rest, w'.log = w.log ++
            ⟨[0xB4], if w.dev.Rconf / 8 % 2 = 1 then 146 else 1148⟩ :: rest ∧
          ∀ t ∈ rest, t = ⟨[0xF0], 0⟩) ∧
      (∀ Bit r w', ds248xOWTouchBit bus fuel w Bit = some (r, w') →
        ∃ rest, w'.log = w.log ++
            ⟨[0x87, if Bit ≠ 0 then 0x80 else 0x00],
              if w.dev.Rconf / 8 % 2 = 1 then 11 else 70⟩ :: rest ∧
          ∀ t ∈ rest, t = ⟨[0xF0], 0⟩) ∧
      (∀ Byte w', ds248xOWWriteByte bus fuel w Byte = some w' →
        ∃ rest, w'.log = w.log ++
            ⟨[0xA5, Byte], if w.dev.Rconf / 8 % 2 = 1 then 88 else 560⟩ :: rest ∧
          ∀ t ∈ rest, t = ⟨[0xF0], 0⟩) ∧
      (∀ r w', ds248xOWReadByte bus fuel w = some (r, w') →
        ∃ rest, w'.log = w.log ++
            ⟨[0x96], if w.dev.Rconf / 8 % 2 = 1 then 88 else 560⟩ ::
              (rest ++ [⟨[0xE1, 0xE1], 0⟩]) ∧
          ∀ t ∈ rest, t = ⟨[0xF0], 0⟩) ∧
      (∀ dir r w', ds248xOWSearchTriplet bus fuel w dir = some (r, w') →
        ∃ rest, w'.log = w.log ++
            ⟨[0x78, if dir ≠ 0 then 0x80 else 0x00],
              if w.dev.Rconf / 8 % 2 = 1 then 33 else 210⟩ :: rest ∧
          ∀ t ∈ rest, t = ⟨[0xF0], 0⟩)) ∧
    ((∀ r w', ds248xReset bus fuel w = some (r, w') →
        ∃ rest, w'.log = w.log ++ ⟨[0xF0], 0⟩ :: rest ∧ ∀ t ∈ rest, t = ⟨[0xF0], 0⟩) ∧
      (∀ r w', ds248xWriteConfig bus fuel w = some (r, w') →
        ∃ rest, w'.log = w.log ++ ⟨[0xD2, nibblePair (w.dev.Rconf &&& 0x0F)], 0⟩ :: rest ∧
          ∀ t ∈ rest, t = ⟨[0xF0], 0⟩) ∧
      (∀ Reg r w', Reg < 5 →
        ¬((Reg = ds248xREG_CHAN ∧ w.dev.psI2C.Type_ ≠ i2cDEV_DS2482_800) ∨
          (Reg = ds248xREG_PADJ ∧ w.dev.psI2C.Type_ ≠ i2cDEV_DS2484)) →
        ds248xReadRegister bus fuel w Reg = some (r, w') →
        ∃ rest, w'.log = w.log ++ ⟨[0xE1, nibblePair Reg], 0⟩ :: rest ∧
          ∀ t ∈ rest, t = ⟨[0xF0], 0⟩) ∧
      (∀ Bus r w', Bus < 8 → w.dev.psI2C.Type_ = i2cDEV_DS2482_800 → w.dev.CurChan ≠ Bus →
        ds248xBusSelect bus fuel w Bus = some (r, w') →
        ∃ rest, w'.log = w.log ++ ⟨[0xC3, nibblePair Bus], 0⟩ :: rest ∧
          ∀ t ∈ rest, t = ⟨[0xF0], 0⟩)) ∧
    ((∀ b, bus w.log.length = I2CResp.ok b → b % 2 = 1 →
        (bus (w.log.length + 1 + n)).notBusy = true) →
      (∃ r w', ds248xOWReset bus (fuel + n + 1) w = some (r, w')) ∧
      (∀ Bit, ∃ r w', ds248xOWTouchBit bus (fuel + n + 1) w Bit = some (r, w')) ∧
      (∀ Byte, ∃ w', ds248xOWWriteByte bus (fuel + n + 1) w Byte = some w') ∧
      (∀ dir, ∃ r w', ds248xOWSearchTriplet bus (fuel + n + 1) w dir = some (r, w')) ∧
      (∃ r w', ds248xOWReadByte bus (fuel + n + 1) w = some (r, w'))) ∧
    ((bus (w.log.length + n)).notBusy = true →
      ∃ r w', ds248xReset bus (fuel + n + 1) w = some (r, w')) ∧
    ((bus (w.log.length + 1 + n)).notBusy = true →
      (∃ r w', ds248xWriteConfig bus (fuel + n + 1) w = some (r, w')) ∧
      (∀ Reg, Reg < 5 → ∃ r w', ds248xReadRegister bus (fuel + n + 1) w Reg = some (r, w')) ∧
      (∀ Bus, Bus < 8 → ∃ r w', ds248xBusSelect bus (fuel + n + 1) w Bus = some (r, w'))) := by
  refine ⟨⟨?_, ?_, ?_, ?_, ?_⟩, ⟨?_, ?_, ?_, ?_⟩, owCommands_return_within bus fuel n w,
    reset_returns_within bus n fuel w, ?_⟩
  · intro r w' h
    obtain ⟨-, -, rest, hl, hall⟩ := owReset_post bus fuel w r w' h
    rw [OWS_ite] at hl
    exact ⟨rest, hl, hall⟩
  · intro Bit r w' h
    obtain ⟨-, -, rest, hl, hall⟩ := owTouchBit_post bus fuel w Bit r w' h
    rw [OWS_ite] at hl
    exact ⟨rest, hl, hall⟩
  · intro Byte w' h
    obtain ⟨-, rest, hl, hall⟩ := owWriteByte_post bus fuel w Byte w' h
    rw [OWS_ite] at hl
    exact ⟨rest, hl, hall⟩
  · intro r w' h
    obtain ⟨rest, hl, hall, -⟩ := owReadByte_fetch bus fuel w r w' h
    rw [OWS_ite] at hl
    exact ⟨rest, hl, hall⟩
  · intro dir r w' h
    obtain ⟨-, -, rest, hl, hall⟩ := owSearchTriplet_post bus fuel w dir r w' h
    rw [OWS_ite] at hl
    exact ⟨rest, hl, hall⟩
  · intro r w' h
    obtain ⟨-, -, -, rest, hl, hall⟩ := reset_post bus fuel w r w' h
    exact ⟨rest, hl, hall⟩
  · intro r w' h
    obtain ⟨rest, hl, hall⟩ := writeConfig_log bus fuel w r w' h
    exact ⟨rest, hl, hall⟩
  · intro Reg r w' hReg hv h
    obtain ⟨rest, hl, hall⟩ := readRegister_log bus fuel w Reg hReg hv r w' h
    exact ⟨rest, hl, hall⟩
  · intro Bus r w' hB ht hc h
    obtain ⟨rest, hl, hall⟩ := busSelect_log bus fuel w Bus hB ht hc r w' h
    exact ⟨rest, hl, hall⟩
  · intro hq
    refine ⟨?_, ?_, ?_⟩
    · exact WDR_returns_within bus fuel n _ _ 0 hq
    · intro Reg _
      unfold ds248xReadRegister
      split_ifs
      · exact ⟨_, _, rfl⟩
      · exact WDR_returns_within bus fuel n _ _ 0 hq
    · intro Bus _
      unfold ds248xBusSelect
      split_ifs
      · exact WDR_returns_within bus fuel n _ _ 0 hq
      · exact ⟨_, _, rfl⟩

theorem C14_delays_witness :
    ((ds248xOWReset busIdle 0 wOverdrive =
          some (0, ⟨{ wOverdrive.dev with Rstat := 0x18, PrvStat := [0x18, 0, 0, 0, 0, 0, 0, 0] },
            [⟨[0xB4], 146⟩]⟩) ∧
        ∃ rest, [(⟨[0xB4], 146⟩ : I2CTxn)] = [] ++ ⟨[0xB4], 146⟩ :: rest ∧
          ∀ t ∈ rest, t = ⟨[0xF0], 0⟩) ∧
      (ds248xOWReset busIdle 0 wConf5 =
          some (0, ⟨{ wConf5.dev with Rstat := 0x18, PrvStat := [0x18, 0, 0, 0, 0, 0, 0, 0] },
            [⟨[0xB4], 1148⟩]⟩) ∧
        ∃ rest, [(⟨[0xB4], 1148⟩ : I2CTxn)] = [] ++ ⟨[0xB4], 1148⟩ :: rest ∧
          ∀ t ∈ rest, t = ⟨[0xF0], 0⟩)) ∧
    ((ds248xOWTouchBit busIdle 0 wOverdrive 1 =
          some (0, ⟨{ wOverdrive.dev with Rstat := 0x18, PrvStat := [0x18, 0, 0, 0, 0, 0, 0, 0] },
            [⟨[0x87, 0x80], 11⟩]⟩) ∧
        ∃ rest, [(⟨[0x87, 0x80], 11⟩ : I2CTxn)] = [] ++ ⟨[0x87, 0x80], 11⟩ :: rest ∧
          ∀ t ∈ rest, t = ⟨[0xF0], 0⟩) ∧
      (ds248xOWTouchBit busIdle 0 wConf5 0 =
          some (0, ⟨{ wConf5.dev with Rstat := 0x18, PrvStat := [0x18, 0, 0, 0, 0, 0, 0, 0] },
            [⟨[0x87, 0x00], 70⟩]⟩) ∧
        ∃ rest, [(⟨[0x87, 0x00], 70⟩ : I2CTxn)] = [] ++ ⟨[0x87, 0x00], 70⟩ :: rest ∧
          ∀ t ∈ rest, t = ⟨[0xF0], 0⟩)) ∧
    ((ds248xOWWriteByte busIdle 0 wOverdrive 0x44 =
          some ⟨{ wOverdrive.dev with Rstat := 0x18, PrvStat := [0x18, 0, 0, 0, 0, 0, 0, 0] },
            [⟨[0xA5, 0x44], 88⟩]⟩ ∧
        ∃ rest, [(⟨[0xA5, 0x44], 88⟩ : I2CTxn)] = [] ++ ⟨[0xA5, 0x44], 88⟩ :: rest ∧
          ∀ t ∈ rest, t = ⟨[0xF0], 0⟩) ∧
      (ds248xOWWriteByte busIdle 0 wConf5 0x44 =
          some ⟨{ wConf5.dev with Rstat := 0x18, PrvStat := [0x18, 0, 0, 0, 0, 0, 0, 0] },
            [⟨[0xA5, 0x44], 560⟩]⟩ ∧
        ∃ rest, [(⟨[0xA5, 0x44], 560⟩ : I2CTxn)] = [] ++ ⟨[0xA5, 0x44], 560⟩ :: rest ∧
          ∀ t ∈ rest, t = ⟨[0xF0], 0⟩)) ∧
    ((ds248xOWReadByte busRead55 0 wOverdrive =
          some (0x55, ⟨{ wOverdrive.dev with
              Rptr := 1, Rstat := 0x18, Rdata := 0x55, PrvStat := [0x18, 0, 0, 0, 0, 0, 0, 0] },
            [⟨[0x96], 88⟩, ⟨[0xE1, 0xE1], 0⟩]⟩) ∧
        ∃ rest, [(⟨[0x96], 88⟩ : I2CTxn), ⟨[0xE1, 0xE1], 0⟩] =
            [] ++ ⟨[0x96], 88⟩ :: (rest ++ [⟨[0xE1, 0xE1], 0⟩]) ∧
          ∀ t ∈ rest, t = ⟨[0xF0], 0⟩) ∧
      (ds248xOWReadByte busRead55 0 wConf5 =
          some (0x55, ⟨{ wConf5.dev with
              Rptr := 1, Rstat := 0x18, Rdata := 0x55, PrvStat := [0x18, 0, 0, 0, 0, 0, 0, 0] },
            [⟨[0x96], 560⟩, ⟨[0xE1, 0xE1], 0⟩]⟩) ∧
        ∃ rest, [(⟨[0x96], 560⟩ : I2CTxn), ⟨[0xE1, 0xE1], 0⟩] =
            [] ++ ⟨[0x96], 560⟩ :: (rest ++ [⟨[0xE1, 0xE1], 0⟩]) ∧
          ∀ t ∈ rest, t = ⟨[0xF0], 0⟩)) ∧
    ((ds248xOWSearchTriplet busIdle 0 wOverdrive 1 =
          some (0x18, ⟨{ wOverdrive.dev with
              Rstat := 0x18, PrvStat := [0x18, 0, 0, 0, 0, 0, 0, 0] },
            [⟨[0x78, 0x80], 33⟩]⟩) ∧
        ∃ rest, [(⟨[0x78, 0x80], 33⟩ : I2CTxn)] = [] ++ ⟨[0x78, 0x80], 33⟩ :: rest ∧
          ∀ t ∈ rest, t = ⟨[0xF0], 0⟩) ∧
      (ds248xOWSearchTriplet busIdle 0 wConf5 0 =
          some (0x18, ⟨{ wConf5.dev with Rstat := 0x18, PrvStat := [0x18, 0, 0, 0, 0, 0, 0, 0] },
            [⟨[0x78, 0x00], 210⟩]⟩) ∧
        ∃ rest, [(⟨[0x78, 0x00], 210⟩ : I2CTxn)] = [] ++ ⟨[0x78, 0x00], 210⟩ :: rest ∧
          ∀ t ∈ rest, t = ⟨[0xF0], 0⟩)) ∧
    ((ds248xReset busIdle 1 wConf5 =
          some (1, ⟨resetDev wConf5.dev 0x18 [0x18, 0, 0, 0, 0, 0, 0, 0], [⟨[0xF0], 0⟩]⟩) ∧
        ∃ rest, [(⟨[0xF0], 0⟩ : I2CTxn)] = [] ++ ⟨[0xF0], 0⟩ :: rest ∧
          ∀ t ∈ rest, t = ⟨[0xF0], 0⟩) ∧
      (ds248xWriteConfig busEchoA5 0 wConf5 =
          some (1, ⟨{ wConf5.dev with Rptr := 3, Rconf := 0xA5 }, [⟨[0xD2, 0xA5], 0⟩]⟩) ∧
        ∃ rest, [(⟨[0xD2, 0xA5], 0⟩ : I2CTxn)] = [] ++ ⟨[0xD2, 0xA5], 0⟩ :: rest ∧
          ∀ t ∈ rest, t = ⟨[0xF0], 0⟩) ∧
      (ds248xReadRegister busIdle 0 wConf5 1 =
          some (1, ⟨{ wConf5.dev with Rptr := 1, Rdata := 0x18 }, [⟨[0xE1, 0xE1], 0⟩]⟩) ∧
        ∃ rest, [(⟨[0xE1, 0xE1], 0⟩ : I2CTxn)] = [] ++ ⟨[0xE1, 0xE1], 0⟩ :: rest ∧
          ∀ t ∈ rest, t = ⟨[0xF0], 0⟩) ∧
      (ds248xBusSelect busChan5 0 wConf5 5 =
          some (1, ⟨{ wConf5.dev with Rptr := 2, CurChan := 5, Rchan := 0x95 },
            [⟨[0xC3, 0xA5], 0⟩]⟩) ∧
        ∃ rest, [(⟨[0xC3, 0xA5], 0⟩ : I2CTxn)] = [] ++ ⟨[0xC3, 0xA5], 0⟩ :: rest ∧
          ∀ t ∈ rest, t = ⟨[0xF0], 0⟩)) ∧
    ((∀ b, busBusyOnce wOverdrive.log.length = I2CResp.ok b → b % 2 = 1 →
        (busBusyOnce (wOverdrive.log.length + 1 + 0)).notBusy = true) ∧
      (∃ r w', ds248xOWReset busBusyOnce 1 wOverdrive = some (r, w')) ∧
      (∀ Bit, ∃ r w', ds248xOWTouchBit busBusyOnce 1 wOverdrive Bit = some (r, w')) ∧
      (∀ Byte, ∃ w', ds248xOWWriteByte busBusyOnce 1 wOverdrive Byte = some w') ∧
      (∀ dir, ∃ r w', ds248xOWSearchTriplet busBusyOnce 1 wOverdrive dir = some (r, w')) ∧
      (∃ r w', ds248xOWReadByte busBusyOnce 1 wOverdrive = some (r, w'))) ∧
    ((busBusyOnce (wConf5.log.length + 1)).notBusy = true ∧
      ∃ r w', ds248xReset busBusyOnce 2 wConf5 = some (r, w')) ∧
    ((busMismatch (wConf5.log.length + 1 + 0)).notBusy = true ∧
      (∃ r w', ds248xWriteConfig busMismatch 1 wConf5 = some (r, w')) ∧
      (∀ Reg, Reg < 5 → ∃ r w', ds248xReadRegister busMismatch 1 wConf5 Reg = some (r, w')) ∧
      (∀ Bus, Bus < 8 → ∃ r w', ds248xBusSelect busMismatch 1 wConf5 Bus = some (r, w'))) :=
  ⟨⟨⟨rfl, (C14_delays busIdle 0 0 wOverdrive).1.1 _ _ rfl⟩,
      ⟨rfl, (C14_delays busIdle 0 0 wConf5).1.1 _ _ rfl⟩⟩,
    ⟨⟨rfl, (C14_delays busIdle 0 0 wOverdrive).1.2.1 1 _ _ rfl⟩,
      ⟨rfl, (C14_delays busIdle 0 0 wConf5).1.2.1 0 _ _ rfl⟩⟩,
    ⟨⟨rfl, (C14_delays busIdle 0 0 wOverdrive).1.2.2.1 0x44 _ rfl⟩,
      ⟨rfl, (C14_delays busIdle 0 0 wConf5).1.2.2.1 0x44 _ rfl⟩⟩,
    ⟨⟨rfl, (C14_delays busRead55 0 0 wOverdrive).1.2.2.2.1 _ _ rfl⟩,
      ⟨rfl, (C14_delays busRead55 0 0 wConf5).1.2.2.2.1 _ _ rfl⟩⟩,
    ⟨⟨rfl, (C14_delays busIdle 0 0 wOverdrive).1.2.2.2.2 1 _ _ rfl⟩,
      ⟨rfl, (C14_delays busIdle 0 0 wConf5).1.2.2.2.2 0 _ _ rfl⟩⟩,
    ⟨⟨rfl, (C14_delays busIdle 1 0 wConf5).2.1.1 _ _ rfl⟩,
      ⟨rfl, (C14_delays busEchoA5 0 0 wConf5).2.1.2.1 _ _ rfl⟩,
      ⟨rfl, (C14_delays busIdle 0 0 wConf5).2.1.2.2.1 1 _ _ (by decide) (by decide) rfl⟩,
      ⟨rfl, (C14_delays busChan5 0 0 wConf5).2.1.2.2.2 5 _ _ (by decide) rfl (by decide) rfl⟩⟩,
    ⟨fun _ _ _ => rfl, (C14_delays busBusyOnce 0 0 wOverdrive).2.2.1 (fun _ _ _ => rfl)⟩,
    ⟨rfl, (C14_delays busBusyOnce 0 1 wConf5).2.2.2.1 rfl⟩,
    ⟨rfl, (C14_delays busMismatch 0 0 wConf5).2.2.2.2 rfl⟩⟩

/-- On a transport whose runs of busy answers are at most `N` long every Device Reset
returns. -/
theorem reset_total (bus : Nat → I2CResp) (fuel N : Nat)
    (hq : ∀ p, ∃ k, k ≤ N ∧ (bus (p + k)).notBusy = true) (w : World) :
    ∃ r w', ds248xReset bus (fuel + N + 1) w = some (r, w') := by
  obtain ⟨k, hk, hn⟩ := hq w.log.length
  have e : fuel + (N - k) + k + 1 = fuel + N + 1 := by omega
  have h := reset_returns_within bus k (fuel + (N - k)) w hn
  rw [e] at h
  exact h

/-- On such a transport every write-delay-read returns. -/
theorem WDR_total (bus : Nat → I2CResp) (fuel N : Nat)
    (hq : ∀ p, ∃ k, k ≤ N ∧ (bus (p + k)).notBusy = true) (w : World) (tx : List Nat)
    (dly : Nat) :
    ∃ r w', ds248xI2C_WriteDelayRead bus (ds248xReset bus (fuel + N + 1)) w tx dly =
      some (r, w') := by
  obtain ⟨k, hk, hn⟩ := hq (w.log.length + 1)
  have e : fuel + (N - k) + k + 1 = fuel + N + 1 := by omega
  have h := WDR_returns_within bus (fuel + (N - k)) k w tx dly hn
  rw [e] at h
  exact h

theorem readRegister_total (bus : Nat → I2CResp) (fuel N : Nat)
    (hq : ∀ p, ∃ k, k ≤ N ∧ (bus (p + k)).notBusy = true) (w : World) (Reg : Nat) :
    ∃ r w', ds248xReadRegister bus (fuel + N + 1) w Reg = some (r, w') := by
  unfold ds248xReadRegister
  split_ifs
  · exact ⟨_, _, rfl⟩
  · exact WDR_total bus fuel N hq _ _ 0

/-- On such a transport `ds248xIdentify` returns. -/
theorem identify_total (bus : Nat → I2CResp) (fuel N : Nat)
    (hq : ∀ p, ∃ k, k ≤ N ∧ (bus (p + k)).notBusy = true) (di : i2c_di_t) (count : Nat)
    (log : List I2CTxn) :
    ∃ res di' count' log',
      ds248xIdentify bus (fuel + N + 1) di count log = some (res, di', count', log') := by
  unfold ds248xIdentify
  dsimp only
  obtain ⟨rst, w1, hR⟩ := reset_total bus fuel N hq ⟨sDS248X_init { di with Test := 1 }, log⟩
  rw [hR]
  dsimp only
  by_cases hrst : rst = 1
  · rw [if_pos hrst]
    obtain ⟨iRV, w3, hP⟩ := readRegister_total bus fuel N hq
      ⟨{ w1.dev with psI2C := { w1.dev.psI2C with Type_ := i2cDEV_DS2484 } }, w1.log⟩
      ds248xREG_PADJ
    rw [hP]
    dsimp only
    by_cases hc : iRV = 1 ∧ w3.dev.VAL = 0b00000110
    · rw [if_pos hc]
      exact ⟨_, _, _, _, rfl⟩
    · rw [if_neg hc]
      obtain ⟨iRV5, w5, hC⟩ := readRegister_total bus fuel N hq
        ⟨{ w3.dev with psI2C := { w3.dev.psI2C with Type_ := i2cDEV_DS2482_800 } }, w3.log⟩
        ds248xREG_CHAN
      rw [hC]
      dsimp only
      split_ifs <;> exact ⟨_, _, _, _, rfl⟩
  · rw [if_neg hrst]
    exact ⟨_, _, _, _, rfl⟩

/-- C12: on first contact, that is entered with a device-info record whose type is
i2cDEV_UNDEF, `ds248xIdentify` returns erSUCCESS or erFAILURE; whenever it returns
erSUCCESS the device has been assigned a handle (DevIdx is the entry value of
`ds248xCount`, which has increased by exactly 1) and its Speed is i2cSPEED_400; whenever
it returns erFAILURE `ds248xCount` is unchanged.  The call returns on every transport
whose runs of busy answers are bounded, so that each Device Reset ends. -/
theorem C12_identify_handle_when_untyped (bus : Nat → I2CResp) (fuel N : Nat) (di : i2c_di_t)
    (count : Nat) (log : List I2CTxn) (hU : di.Type_ = i2cDEV_UNDEF) :
    (∀ res di' count' log',
      ds248xIdentify bus fuel di count log = some (res, di', count', log') →
        (res = erSUCCESS ∨ res = erFAILURE) ∧
        (res = erSUCCESS →
          di'.DevIdx = count ∧ count' = count + 1 ∧ di'.Speed = i2cSPEED_400) ∧
        (res = erFAILURE → count' = count)) ∧
    ((∀ p, ∃ k, k ≤ N ∧ (bus (p + k)).notBusy = true) →
      ∃ res di' count' log',
        ds248xIdentify bus (fuel + N + 1) di count log = some (res, di', count', log')) := by
  refine ⟨?_, fun hq => identify_total bus fuel N hq di count log⟩
  intro res di' count' log' h
  have hne : erSUCCESS ≠ erFAILURE := by decide
  rcases identify_handle bus fuel di count log res di' count' log' h with
    ⟨h1, h2, h3, h4⟩ | ⟨h1, h2⟩ | ⟨-, -, h3, -⟩
  · exact ⟨Or.inl h1, fun _ => ⟨h2, h3, h4⟩, fun hf => absurd (h1.symm.trans hf) hne⟩
  · exact ⟨Or.inr h1, fun hs => absurd (hs.symm.trans h1) hne, fun _ => h2⟩
  · exact absurd hU h3

theorem C12_identify_handle_when_untyped_witness :
    diNew.Type_ = i2cDEV_UNDEF ∧
    (ds248xIdentify busDS2484 1 diNew 4 [] =
        some (erSUCCESS, ⟨i2cDEV_DS2484, 4, i2cSPEED_400, 0⟩, 5, [txnDRST, txnSRP 4]) ∧
      (⟨i2cDEV_DS2484, 4, i2cSPEED_400, 0⟩ : i2c_di_t).DevIdx = 4 ∧ 5 = 4 + 1 ∧
        (⟨i2cDEV_DS2484, 4, i2cSPEED_400, 0⟩ : i2c_di_t).Speed = i2cSPEED_400) ∧
    (ds248xIdentify busDS2482_800 1 diNew 4 [] =
        some (erSUCCESS, ⟨i2cDEV_DS2482_800, 4, i2cSPEED_400, 0⟩, 5,
          [txnDRST, txnSRP 4, txnSRP 2]) ∧
      (⟨i2cDEV_DS2482_800, 4, i2cSPEED_400, 0⟩ : i2c_di_t).DevIdx = 4 ∧ 5 = 4 + 1 ∧
        (⟨i2cDEV_DS2482_800, 4, i2cSPEED_400, 0⟩ : i2c_di_t).Speed = i2cSPEED_400) ∧
    (ds248xIdentify busDead 1 diNew 4 [] = some (erFAILURE, diNew, 4, [txnDRST]) ∧
      (erFAILURE = erSUCCESS ∨ erFAILURE = erFAILURE) ∧ 4 = 4) ∧
    ((∀ p, ∃ k, k ≤ 1 ∧ (busBusyOnce (p + k)).notBusy = true) ∧
      ∃ res di' count' log',
        ds248xIdentify busBusyOnce 2 diNew 4 [] = some (res, di', count', log')) :=
  ⟨rfl,
    ⟨rfl, ((C12_identify_handle_when_untyped busDS2484 1 0 diNew 4 [] rfl).1
      _ _ _ _ rfl).2.1 rfl⟩,
    ⟨rfl, ((C12_identify_handle_when_untyped busDS2482_800 1 0 diNew 4 [] rfl).1
      _ _ _ _ rfl).2.1 rfl⟩,
    ⟨rfl, ((C12_identify_handle_when_untyped busDead 1 0 diNew 4 [] rfl).1
        _ _ _ _ rfl).1,
      ((C12_identify_handle_when_untyped busDead 1 0 diNew 4 [] rfl).1 _ _ _ _ rfl).2.2 rfl⟩,
    ⟨fun _ => ⟨1, le_refl 1, rfl⟩,
      (C12_identify_handle_when_untyped busBusyOnce 0 1 diNew 4 [] rfl).2
        (fun _ => ⟨1, le_refl 1, rfl⟩)⟩⟩

/-- The type of the device-info record is written only after a reset that reports RST:
entered with a record that already carries a type, and with a device that does not
answer, `ds248xIdentify` leaves type, handle and `ds248xCount` as they were and its
result follows the type held. -/
theorem identify_keeps_entry_type :
    ds248xIdentify busDead 1 diKnown 3 [] =
      some (erSUCCESS, ⟨i2cDEV_DS2482_800, 7, i2cSPEED_400, 0⟩, 3, [txnDRST]) :=
  rfl

/-- C7 fails on the code: `ds248xReset` reads its own status through `ds248xCheckRead`,
which calls `ds248xLogError` and so `ds248xReset` again when that status is busy.  A
config write whose readback is 0x00 (mismatch with 0xA5), whose forced reset reads back
the busy status 0x01 and whose next read gives 0x10, issues two Device Resets, not one;
the second is started by the nested `ds248xReset` in a state whose busy bit is set, and
a single level of reset does not let the call return.  When every answer is a busy
status the call never returns, whatever the nesting bound. -/
theorem C7_busy_reset_forces_another_reset :
    (busMismatchBusy 0 = I2CResp.ok 0x00 ∧ busMismatchBusy 1 = I2CResp.ok 0x01 ∧
        busMismatchBusy 2 = I2CResp.ok 0x10 ∧
        nibblePair (wConf5.dev.Rconf &&& 0x0F) = 0xA5) ∧
      ds248xWriteConfig busMismatchBusy 2 wConf5 =
        some (0, ⟨resetDev wConf5.dev 0x10 [0x10, 0, 0, 0, 0, 0, 0, 0],
          [⟨[0xD2, 0xA5], 0⟩, txnDRST, txnDRST]⟩) ∧
      countDRST [⟨[0xD2, 0xA5], 0⟩, txnDRST, txnDRST] = 2 ∧
      ds248xWriteConfig busMismatchBusy 1 wConf5 = none ∧
      (wResetBusy.dev.OWB = 1 ∧
        ds248xReset busMismatchBusy 2 ⟨{ dev800 with Rptr := 3 }, [⟨[0xD2, 0xA5], 0⟩]⟩ =
          ds248xReset busMismatchBusy 1 wResetBusy ∧
        ds248xReset busMismatchBusy 1 wResetBusy =
          some (1, ⟨resetDev wConf5.dev 0x10 [0x10, 0, 0, 0, 0, 0, 0, 0],
            [⟨[0xD2, 0xA5], 0⟩, txnDRST, txnDRST]⟩)) ∧
      ∀ fuel, ds248xWriteConfig busAlwaysBusy fuel wConf5 = none := by
  refine ⟨⟨rfl, rfl, rfl, by decide⟩, by decide, by decide, by decide,
    ⟨rfl, by decide, by decide⟩, ?_⟩
  intro fuel
  rw [writeConfig_ok busAlwaysBusy fuel wConf5 0x01 rfl, if_pos (by decide)]
  unfold ds248xLogError
  rw [reset_diverges_when_always_busy]

end DS248x
